import Mathlib

/-!
# Kubernetes monitoring dashboard: language manager, chat session manager, metrics manager

A shallow embedding of `static/js/languageManager.js`, `static/js/chatManager.js`,
`static/js/apiService.js`, `static/js/config.js` and `static/js/metricsManager.js`, followed
by the properties of the specification that concern them.

* JavaScript strings are Lean strings; the string functions that matter here
  (`trim`, the text-node escaping behind `escapeHtml`, `replace(/\n/g, ...)`) work
  character by character, so they are written over the list of characters.
* A method that can throw returns the state it leaves behind together with the error.
* `handleSubmit` is an `async` method with a single `await`.  It is split at the `await`:
  `handleSubmit` is the part that runs synchronously up to the call of
  `sendChatMessage`; `handleSubmitResolved` and `handleSubmitRejected` are the two ways
  the suspended method resumes (each ends with the `finally` block).
* DOM elements have identity: the suspended method keeps a reference to the placeholder
  bubble it created, whether or not that bubble is still attached to the chat window.
  Elements made by `document.createElement` are numbered in creation order.
* The chat manager is handed its language manager; `getTranslation` can throw, so the methods
  that call it take the translation table and the language manager and can throw too.
* A `Session` puts the chat manager together with the requests in flight, and an `Event` is
  anything that makes it move: user input, a submission, `clearChat`, a request settling, a
  language change.
* A call of `ApiService.request` is described by what it did: how its promise settles, with
  which configurations it called `axios`, and the simulated delay it waited for.  The
  transport is a parameter that tells how a call of `axios` settles.
* Numbers are rationals, taken at their exact value; `toFixed` rounds that value.
* The metrics manager owns the namespace selector, the refresh control and the body of the
  metrics table.  Its two `async` methods are split at the `await` like `handleSubmit`, and
  a response is described by what the method does with it.  A `MetricsSession` puts the
  manager together with the requests in flight.
-/

namespace Dashboard

/-! ## JavaScript values -/

/-- An exception raised by the JavaScript engine while a method runs. -/
inductive JsError where
  | typeError
  deriving DecidableEq, Repr

/-- The expression `a || b` for a string-or-null `a` and a string `b`:
`null`, `undefined` and the empty string are falsy. -/
def jsOr (a : Option String) (b : String) : String :=
  match a with
  | some s => if s = "" then b else s
  | none => b

/-- White space and line terminators of ECMAScript, the characters `String.prototype.trim`
strips. -/
def isWhiteSpace (c : Char) : Bool :=
  let n := c.toNat
  n == 0x09 || n == 0x0A || n == 0x0B || n == 0x0C || n == 0x0D || n == 0x20 || n == 0xA0 ||
  n == 0x1680 || (0x2000 ≤ n && n ≤ 0x200A) || n == 0x2028 || n == 0x2029 || n == 0x202F ||
  n == 0x205F || n == 0x3000 || n == 0xFEFF

/-- The method `String.prototype.trim`. -/
def trim (s : String) : String :=
  ⟨((s.data.dropWhile isWhiteSpace).reverse.dropWhile isWhiteSpace).reverse⟩

/-! ## Language manager (`languageManager.js`) -/

/-- The object `translations` imported from `translations.js`, which is not among the
sources.  It is a parameter of everything below and is taken, as the specification describes
it, as a mapping from language code and text key to text: `translations lang` is `none` when
`translations[lang]` is `undefined`, and `table key` is `none` when `table[key]` is. -/
abbrev Translations := String → Option (String → Option String)

/-- The field of a `LanguageManager` instance. -/
structure LanguageManager where
  currentLang : String
  deriving DecidableEq, Repr

/-- The state of `localStorage` as far as the language manager uses it. -/
structure LocalStorage where
  /-- every access throws (storage disabled or blocked) -/
  blocked : Bool
  /-- the item `k8s-monitor-language` -/
  language : Option String
  deriving DecidableEq, Repr

/-- The two properties of `navigator` that are read. -/
structure Navigator where
  language : Option String
  userLanguage : Option String
  deriving DecidableEq, Repr

/-- An element carrying `data-lang` or `data-lang-placeholder`. -/
structure TaggedElement where
  /-- the value of the attribute -/
  key : String
  /-- the `textContent`, respectively the `placeholder`, of the element -/
  text : String
  deriving DecidableEq, Repr

/-- The part of the document the language manager reads and writes. -/
structure Document where
  readyState : String
  dataLang : List TaggedElement
  dataLangPlaceholder : List TaggedElement
  /-- the button `#lang-zh`, when present, with whether it has the class `active` -/
  zhBtn : Option Bool
  /-- the button `#lang-en`, when present, with whether it has the class `active` -/
  enBtn : Option Bool
  /-- whether `document.body` has the class `fade-transition` -/
  fadeTransition : Bool
  deriving DecidableEq, Repr

namespace LanguageManager

/-- Method `getSavedLanguage`: the stored item, `null` when reading throws. -/
def getSavedLanguage (ls : LocalStorage) : Option String :=
  if ls.blocked then none else ls.language

/-- Method `saveLanguage`: a write that throws is caught. -/
def saveLanguage (ls : LocalStorage) (lang : String) : LocalStorage :=
  if ls.blocked then ls else { ls with language := some lang }

/-- Method `detectBrowserLanguage`. -/
def detectBrowserLanguage (nav : Navigator) : String :=
  let browserLang := jsOr nav.language (jsOr nav.userLanguage "")
  if ['z', 'h'].isPrefixOf browserLang.data then "zh" else "en"

/-- Method `getTranslation`: `translations[this.currentLang][key] || key`.  Reading a property
of `undefined` throws a `TypeError`. -/
def getTranslation (translations : Translations) (lm : LanguageManager) (key : String) :
    Except JsError String :=
  match translations lm.currentLang with
  | none => .error .typeError
  | some table =>
    match table key with
    | some text => if text = "" then .ok key else .ok text
    | none => .ok key

/-- The body of the `forEach` callback of `updateTexts` and of `updatePlaceholders`. -/
def translateElement (translations : Translations) (lm : LanguageManager) (el : TaggedElement) :
    Except JsError TaggedElement :=
  match translations lm.currentLang with
  | none => .error .typeError
  | some table =>
    match table el.key with
    | some text => if text = "" then .ok el else .ok { el with text := text }
    | none => .ok el

/-- Method `updateTexts`.  The callback throws for the first element or for none, so nothing
has been written when it throws. -/
def updateTexts (translations : Translations) (lm : LanguageManager) (doc : Document) :
    Except JsError Document :=
  match doc.dataLang.mapM (translateElement translations lm) with
  | .ok els => .ok { doc with dataLang := els }
  | .error e => .error e

/-- Method `updatePlaceholders`. -/
def updatePlaceholders (translations : Translations) (lm : LanguageManager) (doc : Document) :
    Except JsError Document :=
  match doc.dataLangPlaceholder.mapM (translateElement translations lm) with
  | .ok els => .ok { doc with dataLangPlaceholder := els }
  | .error e => .error e

/-- Method `updateButtons`. -/
def updateButtons (lm : LanguageManager) (doc : Document) : Document :=
  match doc.zhBtn, doc.enBtn with
  | some _, some _ =>
    if lm.currentLang = "zh" then { doc with zhBtn := some true, enBtn := some false }
    else { doc with zhBtn := some false, enBtn := some true }
  | _, _ => doc

/-- Method `initializeLanguage` (the click listeners it registers call `switchLanguage`). -/
def initializeLanguage (translations : Translations) (lm : LanguageManager) (doc : Document) :
    Except JsError Document :=
  match updateTexts translations lm doc with
  | .error e => .error e
  | .ok doc1 => updatePlaceholders translations lm (updateButtons lm doc1)

/-- The constructor.  While the document is still loading, `init` only registers a listener
and the constructor returns; otherwise `initializeLanguage` runs inside the constructor, and
an exception it throws leaves no instance. -/
def create (translations : Translations) (ls : LocalStorage) (nav : Navigator) (doc : Document) :
    Except JsError (LanguageManager × Document) :=
  let lm : LanguageManager :=
    ⟨jsOr (getSavedLanguage ls) (jsOr (some (detectBrowserLanguage nav)) "en")⟩
  if doc.readyState = "loading" then .ok (lm, doc)
  else
    match initializeLanguage translations lm doc with
    | .ok doc1 => .ok (lm, doc1)
    | .error e => .error e

/-- Method `getCurrentLanguage`. -/
def getCurrentLanguage (lm : LanguageManager) : String := lm.currentLang

end LanguageManager

/-- A language manager with its surroundings: the document, the storage, the callbacks handed
to `setTimeout` that have not run yet (oldest first, each with the `lang` it closes over) and
the `languageChanged` events dispatched so far (with their `detail.language`). -/
structure LanguageSystem where
  lm : LanguageManager
  doc : Document
  storage : LocalStorage
  timers : List String
  dispatched : List String
  deriving DecidableEq, Repr

namespace LanguageSystem

/-- Method `switchLanguage`, up to and including the call of `setTimeout`. -/
def switchLanguage (s : LanguageSystem) (lang : String) : LanguageSystem :=
  if lang = s.lm.currentLang then s
  else
    { s with
      storage := LanguageManager.saveLanguage s.storage lang
      doc := { s.doc with fadeTransition := true }
      timers := s.timers ++ [lang] }

/-- The callback `switchLanguage` hands to `setTimeout`, run for the oldest pending timer. -/
def timerFires (translations : Translations) (s : LanguageSystem) :
    LanguageSystem × Option JsError :=
  match s.timers with
  | [] => (s, none)
  | lang :: rest =>
    let lm : LanguageManager := { s.lm with currentLang := lang }
    let s1 := { s with lm := lm, timers := rest }
    match LanguageManager.updateTexts translations lm s1.doc with
    | .error e => (s1, some e)
    | .ok doc1 =>
      match LanguageManager.updatePlaceholders translations lm doc1 with
      | .error e => ({ s1 with doc := doc1 }, some e)
      | .ok doc2 =>
        let doc3 := LanguageManager.updateButtons lm doc2
        ({ s1 with doc := { doc3 with fadeTransition := false },
                   dispatched := s1.dispatched ++ [lang] }, none)

end LanguageSystem

/-! ## Chat manager (`chatManager.js`) -/

/-- An entry of `history`. -/
structure Turn where
  role : String
  content : String
  deriving DecidableEq, Repr

/-- A child of the chat window: the welcome block (the `div.text-center.text-muted` with its
title and description), or a message bubble made by `addMessage`, with the number of the
element, its `className`, its `innerHTML` and whether it has `data-loading="true"`. -/
inductive Node where
  | welcome (title desc : String)
  | bubble (id : Nat) (className : String) (innerHTML : String) (dataLoading : Bool)
  deriving DecidableEq, Repr

/-- The fields of a `ChatManager` instance together with the DOM state it owns. -/
structure ChatManager where
  history : List Turn
  isLoading : Bool
  /-- the children of `#chatWindow` -/
  chatWindow : List Node
  /-- the `value` of `#messageInput` -/
  messageInput : String
  /-- how many elements `document.createElement` has made for this manager -/
  created : Nat
  deriving DecidableEq, Repr

/-- What the method `handleSubmit` did before it returned or was suspended. -/
inductive SubmitOutcome where
  /-- it returned at one of its two guards -/
  | ignored
  /-- an exception escaped before the request was made -/
  | threw (e : JsError)
  /-- it called `sendChatMessage(message, history)` and is suspended at the `await` -/
  | awaiting (message : String) (history : List Turn) (loadingDiv : Nat)
  deriving DecidableEq, Repr

/-- The local variables a suspended `handleSubmit` still uses when it resumes. -/
structure Suspended where
  message : String
  loadingDiv : Nat
  deriving DecidableEq, Repr

namespace ChatManager

/-- How a character of a text node is written when `innerHTML` is read. -/
def escapeChar (c : Char) : List Char :=
  if c = '&' then ['&', 'a', 'm', 'p', ';']
  else if c = Char.ofNat 0xA0 then ['&', 'n', 'b', 's', 'p', ';']
  else if c = '<' then ['&', 'l', 't', ';']
  else if c = '>' then ['&', 'g', 't', ';']
  else [c]

/-- Method `escapeHtml`: the text is made the `textContent` of a fresh `div` and the
`innerHTML` of that `div` is read back. -/
def escapeHtml (text : String) : String :=
  ⟨text.data.flatMap escapeChar⟩

/-- The call `replace(/\n/g, '<br>')`. -/
def replaceNewlines (s : String) : String :=
  ⟨s.data.flatMap (fun c => if c = '\n' then ['<', 'b', 'r', '>'] else [c])⟩

/-- Method `setMessageContent`: the string assigned to `element.innerHTML`. -/
def setMessageContent (content : String) : String :=
  replaceNewlines (escapeHtml content)

/-- The `innerHTML` given to a loading placeholder. -/
def loadingHtml (thinking : String) : String :=
  "<div class=\"loading me-2\"></div>" ++ thinking

/-- The `className` given to a bubble. -/
def bubbleClass (role : String) : String :=
  "message-bubble " ++ (if role = "user" then "user-message ms-auto" else "ai-message")

/-- Whether `querySelector('.text-center.text-muted')` finds something in the chat window.
Bubbles hold escaped text, line breaks and the loading mark only. -/
def hasWelcome (chatWindow : List Node) : Bool :=
  chatWindow.any (fun n => match n with
    | .welcome _ _ => true
    | .bubble _ _ _ _ => false)

/-- Method `addMessage`: the state afterwards and the element returned. -/
def addMessage (translations : Translations) (lm : LanguageManager) (cm : ChatManager)
    (role content : String) (isLoading : Bool) : ChatManager × Except JsError Nat :=
  let cm1 := if hasWelcome cm.chatWindow then { cm with chatWindow := [] } else cm
  let messageDiv := cm1.created
  let cm2 := { cm1 with created := messageDiv + 1 }
  if isLoading then
    match LanguageManager.getTranslation translations lm "thinking" with
    | .error e => (cm2, .error e)
    | .ok thinking =>
      ({ cm2 with chatWindow :=
          cm2.chatWindow ++ [.bubble messageDiv (bubbleClass role) (loadingHtml thinking) true] },
        .ok messageDiv)
  else
    ({ cm2 with chatWindow :=
        cm2.chatWindow ++ [.bubble messageDiv (bubbleClass role) (setMessageContent content) false] },
      .ok messageDiv)

/-- Method `updateMessage`, applied to the element numbered `element`.  An element that is no
longer in the chat window is updated out of sight. -/
def updateMessage (cm : ChatManager) (element : Nat) (content : String) : ChatManager :=
  { cm with chatWindow := cm.chatWindow.map (fun n => match n with
      | .bubble id className innerHTML dataLoading =>
        if id = element then .bubble id className (setMessageContent content) false
        else .bubble id className innerHTML dataLoading
      | .welcome title desc => .welcome title desc) }

/-- Method `handleSubmit` up to the `await`. -/
def handleSubmit (translations : Translations) (lm : LanguageManager) (cm : ChatManager) :
    ChatManager × SubmitOutcome :=
  if cm.isLoading then (cm, .ignored)
  else
    let message := trim cm.messageInput
    if message = "" then (cm, .ignored)
    else
      match addMessage translations lm cm "user" message false with
      | (cm1, .error e) => (cm1, .threw e)
      | (cm1, .ok _) =>
        let cm2 := { cm1 with messageInput := "" }
        match addMessage translations lm cm2 "ai" "" true with
        | (cm3, .error e) => (cm3, .threw e)
        | (cm3, .ok loadingDiv) =>
          let cm4 := { cm3 with isLoading := true }
          (cm4, .awaiting message cm4.history loadingDiv)

/-- Method `handleSubmit` resuming after the request resolved with `response`, where
`assistant` is `response.data.assistant`: the rest of the `try` block, then `finally`. -/
def handleSubmitResolved (cm : ChatManager) (k : Suspended) (assistant : String) : ChatManager :=
  let cm1 := updateMessage cm k.loadingDiv assistant
  let cm2 := { cm1 with history :=
    cm1.history ++ [Turn.mk "user" k.message, Turn.mk "assistant" assistant] }
  { cm2 with isLoading := false }

/-- Method `handleSubmit` resuming after the request rejected: the `catch` block, then
`finally`. -/
def handleSubmitRejected (translations : Translations) (lm : LanguageManager) (cm : ChatManager)
    (k : Suspended) : ChatManager × Option JsError :=
  match LanguageManager.getTranslation translations lm "connection-failed" with
  | .error e => ({ cm with isLoading := false }, some e)
  | .ok text => ({ updateMessage cm k.loadingDiv text with isLoading := false }, none)

/-- Method `updateLoadingMessages`, the listener for `languageChanged`. -/
def updateLoadingMessages (translations : Translations) (lm : LanguageManager) (cm : ChatManager) :
    ChatManager × Option JsError :=
  if cm.chatWindow.any (fun n => match n with
      | .bubble _ _ _ dataLoading => dataLoading
      | .welcome _ _ => false) then
    match LanguageManager.getTranslation translations lm "thinking" with
    | .error e => (cm, some e)
    | .ok thinking =>
      ({ cm with chatWindow := cm.chatWindow.map (fun n => match n with
          | .bubble id className innerHTML dataLoading =>
            if dataLoading then .bubble id className (loadingHtml thinking) true
            else .bubble id className innerHTML dataLoading
          | .welcome title desc => .welcome title desc) }, none)
  else (cm, none)

/-- Method `clearChat`.  The history is emptied before the template of the welcome block is
evaluated. -/
def clearChat (translations : Translations) (lm : LanguageManager) (cm : ChatManager) :
    ChatManager × Option JsError :=
  let cm1 := { cm with history := [] }
  match LanguageManager.getTranslation translations lm "chat-welcome-title" with
  | .error e => (cm1, some e)
  | .ok title =>
    match LanguageManager.getTranslation translations lm "chat-welcome-desc" with
    | .error e => (cm1, some e)
    | .ok desc => ({ cm1 with chatWindow := [.welcome title desc] }, none)

/-- The constructor, for a page whose chat window holds `page` and whose input holds `input`. -/
def create (page : List Node) (input : String) : ChatManager :=
  { history := [], isLoading := false, chatWindow := page, messageInput := input, created := 0 }

end ChatManager

/-! ## A chat session: the manager, its language manager and the requests in flight -/

/-- A chat manager with its surroundings: the language manager it was given, the suspended
`handleSubmit` calls (oldest first) and the log of the calls made to `sendChatMessage`, each
with its `message` and `history` arguments. -/
structure Session where
  lm : LanguageManager
  cm : ChatManager
  inFlight : List Suspended
  requests : List (String × List Turn)
  deriving DecidableEq, Repr

/-- What can happen to a chat session. -/
inductive Event where
  /-- the user edits the input box -/
  | input (text : String)
  /-- the form is submitted -/
  | submit
  /-- `clearChat` is called -/
  | clearChat
  /-- the request of the `i`-th suspended call resolves, `response.data.assistant` being
  `assistant` -/
  | resolve (i : Nat) (assistant : String)
  /-- the request of the `i`-th suspended call rejects -/
  | reject (i : Nat)
  /-- the current language of the language manager becomes `lang` -/
  | language (lang : String)
  /-- a `languageChanged` event reaches the listener of the chat manager -/
  | languageChanged
  deriving DecidableEq, Repr

namespace Session

/-- The session right after the constructor of the chat manager. -/
def start (lang : String) (page : List Node) (input : String) : Session :=
  { lm := ⟨lang⟩, cm := ChatManager.create page input, inFlight := [], requests := [] }

/-- One event. -/
def step (translations : Translations) (s : Session) : Event → Session
  | .input text => { s with cm := { s.cm with messageInput := text } }
  | .submit =>
    match ChatManager.handleSubmit translations s.lm s.cm with
    | (cm, .awaiting message history loadingDiv) =>
      { s with cm := cm, inFlight := s.inFlight ++ [Suspended.mk message loadingDiv],
               requests := s.requests ++ [(message, history)] }
    | (cm, _) => { s with cm := cm }
  | .clearChat => { s with cm := (ChatManager.clearChat translations s.lm s.cm).1 }
  | .resolve i assistant =>
    match s.inFlight[i]? with
    | some k =>
      { s with cm := ChatManager.handleSubmitResolved s.cm k assistant,
               inFlight := s.inFlight.eraseIdx i }
    | none => s
  | .reject i =>
    match s.inFlight[i]? with
    | some k =>
      { s with cm := (ChatManager.handleSubmitRejected translations s.lm s.cm k).1,
               inFlight := s.inFlight.eraseIdx i }
    | none => s
  | .language lang => { s with lm := ⟨lang⟩ }
  | .languageChanged =>
    { s with cm := (ChatManager.updateLoadingMessages translations s.lm s.cm).1 }

/-- A sequence of events, in order. -/
def run (translations : Translations) (s : Session) (events : List Event) : Session :=
  events.foldl (step translations) s

end Session

/-! ## API service (`apiService.js`, `config.js`) -/

/-- A JavaScript value, as far as request configurations and response payloads need them.
An object is the list of its own properties.  `inherited name` is the member that an object
literal inherits from `Object.prototype` under the name `name`: a function, or for
`__proto__` the prototype object itself. -/
inductive JsValue where
  | undefined
  | bool (b : Bool)
  | num (n : ℚ)
  | str (s : String)
  | arr (items : List JsValue)
  | obj (fields : List (String × JsValue))
  | inherited (name : String)

/-- Whether a value is truthy: `undefined`, `false`, `0` and the empty string are not. -/
def JsValue.truthy : JsValue → Bool
  | .undefined => false
  | .bool b => b
  | .num n => n != 0
  | .str s => s != ""
  | .arr _ => true
  | .obj _ => true
  | .inherited _ => true

/-- The expression `a || b`. -/
def JsValue.or (a b : JsValue) : JsValue :=
  if a.truthy then a else b

/-- The names of the members that every object literal inherits from `Object.prototype`. -/
def objectPrototypeKeys : List String :=
  ["constructor", "__defineGetter__", "__defineSetter__", "hasOwnProperty",
   "__lookupGetter__", "__lookupSetter__", "isPrototypeOf", "propertyIsEnumerable",
   "toString", "valueOf", "__proto__", "toLocaleString"]

/-- An object literal: its own properties, by name. -/
abbrev JsObject := List (String × JsValue)

/-- The object literal `{ ...base, ...overrides }`: a property of `overrides` replaces the
property of `base` with the same name. -/
def objectSpread (base overrides : JsObject) : JsObject :=
  base.filter (fun p => (overrides.lookup p.1).isNone) ++ overrides

/-- The method `String.prototype.includes`, on the lists of characters: whether `sub` occurs
in `s` as a contiguous run. -/
def includesChars (sub : List Char) : List Char → Bool
  | [] => sub.isEmpty
  | c :: cs => sub.isPrefixOf (c :: cs) || includesChars sub cs

/-- The method `String.prototype.includes`. -/
def includes (s sub : String) : Bool := includesChars sub.data s.data

/-- How a promise settles. -/
inductive Settled (α ε : Type) where
  | resolved (value : α)
  | rejected (error : ε)

/-- The path `config.endpoints.chat`. -/
def config.endpoints.chat : String := "/api/llm_chat"

/-- The path `config.endpoints.namespaces`. -/
def config.endpoints.namespaces : String := "/api/namespaces"

/-- The path `config.endpoints.podMetrics`. -/
def config.endpoints.podMetrics : String := "/api/pod_metrics"

/-- A pod-metric sample.  The numbers are the decimal numbers written in the source. -/
structure PodMetric where
  pod : String
  cpu : ℚ
  mem : ℚ
  net_rx : ℚ
  net_tx : ℚ
  ready : Bool

/-- A pod-metric sample as a JavaScript object. -/
def PodMetric.toJs (m : PodMetric) : JsValue :=
  .obj [("pod", .str m.pod), ("cpu", .num m.cpu), ("mem", .num m.mem),
        ("net_rx", .num m.net_rx), ("net_tx", .num m.net_tx), ("ready", .bool m.ready)]

/-- A turn of the chat history as a JavaScript object. -/
def Turn.toJs (t : Turn) : JsValue :=
  .obj [("role", .str t.role), ("content", .str t.content)]

/-- The list `mockData.namespaces`. -/
def mockData.namespaces : List String := ["default", "kube-system", "monitoring", "app"]

/-- The list `mockData.podMetrics`. -/
def mockData.podMetrics : List PodMetric :=
  [{ pod := "nginx-7d7c6d8b9f-abc12", cpu := 0.0234, mem := 128.5, net_rx := 15.3,
     net_tx := 8.7, ready := true },
   { pod := "redis-6b8c7d9e8f-def34", cpu := 0.0156, mem := 256.8, net_rx := 23.1,
     net_tx := 12.4, ready := true },
   { pod := "postgres-5a7b8c9d0e-ghi56", cpu := 0.0445, mem := 512.3, net_rx := 31.2,
     net_tx := 18.9, ready := false }]

/-- The own properties of the object literal `mockData.chatResponse`: the canned reply stored
under a language code. -/
def mockData.chatResponse (lang : String) : Option String :=
  if lang = "zh" then
    some "這是 Mock 模式回應。在正式環境中，我可以幫您分析 Kubernetes 集群狀態、資源使用情況，並提供故障排除建議。"
  else if lang = "en" then
    some "This is a Mock mode response. In a production environment, I can help you analyze Kubernetes cluster status, resource usage, and provide troubleshooting advice."
  else none

/-- The property read `mockData.chatResponse[key]`: the own property of that name when there
is one, otherwise the member inherited from `Object.prototype` under that name, otherwise
`undefined`. -/
def mockData.chatResponseAt (key : String) : JsValue :=
  match mockData.chatResponse key with
  | some reply => .str reply
  | none => if key ∈ objectPrototypeKeys then .inherited key else .undefined

/-- What a call of `request` did: how its promise settles, the configurations with which it
called `axios` (in order), and the simulated delay it waited for, in milliseconds. -/
structure RequestResult (ε : Type) where
  settled : Settled JsValue ε
  transportCalls : List JsObject
  delay : Option Nat

namespace ApiService

/-- Method `request`.  `mockMode` is `config.mockMode`, `lm` the language manager given to the
constructor, and `axios` tells how the promise returned by a call of `axios` settles.  In
mock mode the method first waits 500 ms; a path that matches none of the three tests goes on
to the transport as outside mock mode. -/
def request {ε : Type} (mockMode : Bool) (lm : LanguageManager)
    (axios : JsObject → Settled JsValue ε) (endpoint : String) (options : JsObject) :
    RequestResult ε :=
  let viaTransport (delay : Option Nat) : RequestResult ε :=
    let requestConfig :=
      objectSpread [("url", .str endpoint), ("timeout", .num 10000)] options
    match axios requestConfig with
    | .resolved response =>
      { settled := .resolved response, transportCalls := [requestConfig], delay := delay }
    | .rejected error =>
      { settled := .rejected error, transportCalls := [requestConfig], delay := delay }
  if mockMode then
    if includes endpoint "namespaces" then
      { settled := .resolved
          (.obj [("data", .obj [("namespaces", .arr (mockData.namespaces.map .str))])]),
        transportCalls := [], delay := some 500 }
    else if includes endpoint "pod_metrics" then
      { settled := .resolved (.obj [("data", .arr (mockData.podMetrics.map PodMetric.toJs))]),
        transportCalls := [], delay := some 500 }
    else if includes endpoint "llm_chat" then
      let currentLang := LanguageManager.getCurrentLanguage lm
      { settled := .resolved
          (.obj [("data", .obj [("assistant",
            JsValue.or (mockData.chatResponseAt currentLang)
              (mockData.chatResponseAt "zh"))])]),
        transportCalls := [], delay := some 500 }
    else viaTransport (some 500)
  else viaTransport none

/-- Method `getNamespaces`. -/
def getNamespaces {ε : Type} (mockMode : Bool) (lm : LanguageManager)
    (axios : JsObject → Settled JsValue ε) : RequestResult ε :=
  request mockMode lm axios config.endpoints.namespaces []

/-- Method `getPodMetrics`. -/
def getPodMetrics {ε : Type} (mockMode : Bool) (lm : LanguageManager)
    (axios : JsObject → Settled JsValue ε) (namespace_ : String) : RequestResult ε :=
  request mockMode lm axios config.endpoints.podMetrics
    [("params", .obj [("namespace", .str namespace_)])]

/-- Method `sendChatMessage`. -/
def sendChatMessage {ε : Type} (mockMode : Bool) (lm : LanguageManager)
    (axios : JsObject → Settled JsValue ε) (message : String) (history : List Turn) :
    RequestResult ε :=
  request mockMode lm axios config.endpoints.chat
    [("method", .str "POST"),
     ("data", .obj [("user_message", .str message), ("history", .arr (history.map Turn.toJs))])]

end ApiService

/-! ## Metrics manager (`metricsManager.js`) -/

/-- The text `Number.prototype.toFixed` returns: decimal digits in fixed notation, or, for a
number whose absolute value is at least `10 ^ 21`, the exponential notation of the number,
which is not spelled out. -/
inductive NumberText where
  | digits (text : String)
  | exponential (x : ℚ)
  deriving DecidableEq

/-- The method `Number.prototype.toFixed` for a finite number `x`: with `n` the integer
nearest to `|x| · 10 ^ fractionDigits` (the larger one when two are as near), the digits of
`n`, padded with zeros to more than `fractionDigits` digits, with a point before the last
`fractionDigits` of them, after a minus sign when `x` is negative. -/
def toFixed (x : ℚ) (fractionDigits : Nat) : NumberText :=
  if 10 ^ 21 * x.den ≤ x.num.natAbs then .exponential x
  else
    let n := (2 * x.num.natAbs * 10 ^ fractionDigits + x.den) / (2 * x.den)
    let m := Nat.toDigits 10 n
    let sign := if x.num < 0 then ['-'] else []
    if fractionDigits = 0 then .digits ⟨sign ++ m⟩
    else
      let padded := List.replicate (fractionDigits + 1 - m.length) '0' ++ m
      let k := padded.length
      .digits ⟨sign ++ padded.take (k - fractionDigits) ++ '.' ::
        padded.drop (k - fractionDigits)⟩

/-- ASCII whitespace, as HTML defines it. -/
def isAsciiWhitespace (c : Char) : Bool :=
  c = '\t' || c = '\n' || c = Char.ofNat 0x0C || c = '\r' || c = ' '

/-- Stripping and collapsing ASCII whitespace, on a list of characters: `pending` tells
whether a run of whitespace has been met after the first kept character. -/
def stripAndCollapseChars : Bool → Bool → List Char → List Char
  | _, _, [] => []
  | pending, started, c :: rest =>
    if isAsciiWhitespace c then stripAndCollapseChars started started rest
    else (if pending then [' ', c] else [c]) ++ stripAndCollapseChars false true rest

/-- Stripping and collapsing ASCII whitespace: leading and trailing whitespace is removed and
every other run of whitespace becomes one space. -/
def stripAndCollapse (s : String) : String :=
  ⟨stripAndCollapseChars false false s.data⟩

/-- Whether the HTML parser reads `text`, as the content of an element, as that same text:
it holds no `<`, no `&`, no U+0000 and no carriage return. -/
def isMarkupFree (text : String) : Bool :=
  text.data.all (fun c => c != '<' && c != '&' && c != Char.ofNat 0 && c != '\r')

/-- An `option` element of the namespace selector. -/
structure SelectOption where
  /-- the `value` attribute, when the element has one -/
  valueAttr : Option String
  /-- the `textContent` of the element -/
  text : String
  deriving DecidableEq, Repr

/-- The `value` of an `option` element: its `value` attribute, or without one its text with
whitespace stripped and collapsed. -/
def SelectOption.value (o : SelectOption) : String :=
  match o.valueAttr with
  | some v => v
  | none => stripAndCollapse o.text

/-- A row of the metrics table body: the loading row, the error row, the no-data row (each
with its localized text), a row rendered from a sample (the escaped pod name, the four
numbers, the class and the label of the badge), or markup that was in the page before. -/
inductive Row where
  | loading (text : String)
  | error (text : String)
  | noData (text : String)
  | metric (pod : String) (cpu mem netRx netTx : NumberText) (statusClass statusText : String)
  | markup (html : String)
  deriving DecidableEq

/-- A sample as `renderMetrics` reads it: a property that is missing is `none`, and `ready`
is the truthiness of the property `ready`. -/
structure MetricSample where
  pod : Option String
  cpu : Option ℚ
  mem : Option ℚ
  net_rx : Option ℚ
  net_tx : Option ℚ
  ready : Bool

/-- A sample of `mockData.podMetrics` as `renderMetrics` reads it. -/
def PodMetric.toSample (m : PodMetric) : MetricSample :=
  { pod := some m.pod, cpu := some m.cpu, mem := some m.mem, net_rx := some m.net_rx,
    net_tx := some m.net_tx, ready := m.ready }

/-- What the response of a pod-metrics request holds, by what `loadMetrics` does with it.
`rows samples`: `response.data` is an array of samples.  `nothing`: `response.data` is
`undefined`, `null` or another falsy value.  `broken cleared before`: the response makes the
code throw a `TypeError` (the response has no `data` to read, the data is not an array, an
item has a number property that is a string, ...); `cleared` tells whether the table body had
been emptied when it throws, and `before` holds the samples rendered by then. -/
inductive MetricsPayload where
  | rows (samples : List MetricSample)
  | nothing
  | broken (cleared : Bool) (before : List MetricSample)

/-- What the response of the namespaces request holds, by what `loadNamespaces` does with it.
`list namespaces`: `response.data.namespaces` is an array of strings.  `broken cleared`: the
response makes the code throw a `TypeError`, before the selector is emptied (no
`response.data`) or after it (`namespaces` is not an array). -/
inductive NamespacesPayload where
  | list (namespaces : List String)
  | broken (cleared : Bool)

/-- The DOM state a `MetricsManager` owns. -/
structure MetricsManager where
  /-- the options of `#namespaceSelect` -/
  options : List SelectOption
  /-- the index of the selected option -/
  selectedIndex : Nat
  /-- the property `disabled` of `#refreshBtn` -/
  refreshDisabled : Bool
  /-- the rows of `#metricsBody` -/
  metricsBody : List Row

/-- What the method `loadMetrics` did before it returned or was suspended. -/
inductive LoadOutcome where
  /-- it returned at its guard -/
  | ignored
  /-- an exception escaped before the request was made -/
  | threw (e : JsError)
  /-- it called `getPodMetrics(namespace)` and is suspended at the `await` -/
  | awaiting (namespace_ : String)
  deriving DecidableEq, Repr

/-- What the rest of `loadNamespaces` did once its request had settled: the outcome of the
call of `loadMetrics` it made, if it made one, and the exception that escaped, if one did. -/
structure NamespacesOutcome where
  metricsLoad : Option LoadOutcome
  error : Option JsError
  deriving DecidableEq, Repr

namespace MetricsManager

/-- The `value` of `#namespaceSelect`: the value of the selected option, the empty string
when there is none. -/
def value (mm : MetricsManager) : String :=
  match mm.options[mm.selectedIndex]? with
  | some o => o.value
  | none => ""

/-- Method `getCurrentNamespace`. -/
def getCurrentNamespace (mm : MetricsManager) : String := mm.value

/-- Method `escapeHtml`, the same as that of the chat manager. -/
def escapeHtml (text : String) : String :=
  ⟨text.data.flatMap ChatManager.escapeChar⟩

/-- Method `showLoading`. -/
def showLoading (translations : Translations) (lm : LanguageManager) (mm : MetricsManager) :
    MetricsManager × Option JsError :=
  match LanguageManager.getTranslation translations lm "metrics-loading-data" with
  | .error e => (mm, some e)
  | .ok text => ({ mm with metricsBody := [.loading text] }, none)

/-- Method `showError`. -/
def showError (translations : Translations) (lm : LanguageManager) (mm : MetricsManager) :
    MetricsManager × Option JsError :=
  match LanguageManager.getTranslation translations lm "loading-failed" with
  | .error e => (mm, some e)
  | .ok text => ({ mm with metricsBody := [.error text] }, none)

/-- The row `renderMetrics` builds from one sample. -/
def renderRow (translations : Translations) (lm : LanguageManager) (metric : MetricSample) :
    Except JsError Row :=
  match LanguageManager.getTranslation translations lm
      (if metric.ready then "status-normal" else "status-error") with
  | .error e => .error e
  | .ok statusText =>
    let statusClass := if metric.ready then "bg-success" else "bg-danger"
    .ok (.metric (escapeHtml (metric.pod.getD "")) (toFixed (metric.cpu.getD 0) 4)
      (toFixed (metric.mem.getD 0) 1) (toFixed (metric.net_rx.getD 0) 1)
      (toFixed (metric.net_tx.getD 0) 1) statusClass statusText)

/-- The loop `metrics.forEach(...)` of `renderMetrics`: a row is appended for each sample
until one throws. -/
def appendRows (translations : Translations) (lm : LanguageManager) :
    MetricsManager → List MetricSample → MetricsManager × Option JsError
  | mm, [] => (mm, none)
  | mm, metric :: rest =>
    match renderRow translations lm metric with
    | .error e => (mm, some e)
    | .ok row => appendRows translations lm { mm with metricsBody := mm.metricsBody ++ [row] } rest

/-- The branch of `renderMetrics` for no data. -/
def showNoData (translations : Translations) (lm : LanguageManager) (mm : MetricsManager) :
    MetricsManager × Option JsError :=
  match LanguageManager.getTranslation translations lm "no-data" with
  | .error e => (mm, some e)
  | .ok text => ({ mm with metricsBody := [.noData text] }, none)

/-- The statement `this.renderMetrics(response.data)`. -/
def renderMetrics (translations : Translations) (lm : LanguageManager) (mm : MetricsManager) :
    MetricsPayload → MetricsManager × Option JsError
  | .nothing => showNoData translations lm mm
  | .rows [] => showNoData translations lm mm
  | .rows (metric :: rest) =>
    appendRows translations lm { mm with metricsBody := [] } (metric :: rest)
  | .broken false _ => (mm, some .typeError)
  | .broken true before =>
    match appendRows translations lm { mm with metricsBody := [] } before with
    | (mm1, some e) => (mm1, some e)
    | (mm1, none) => (mm1, some .typeError)

/-- Method `loadMetrics` up to the `await`. -/
def loadMetrics (translations : Translations) (lm : LanguageManager) (mm : MetricsManager) :
    MetricsManager × LoadOutcome :=
  let namespace_ := mm.value
  if namespace_ = "" then (mm, .ignored)
  else
    match showLoading translations lm mm with
    | (mm1, some e) => (mm1, .threw e)
    | (mm1, none) => ({ mm1 with refreshDisabled := true }, .awaiting namespace_)

/-- Method `loadMetrics` resuming after the request resolved: the rest of the `try` block,
the `catch` block when that throws, then `finally`. -/
def loadMetricsResolved (translations : Translations) (lm : LanguageManager)
    (mm : MetricsManager) (payload : MetricsPayload) : MetricsManager × Option JsError :=
  match renderMetrics translations lm mm payload with
  | (mm1, none) => ({ mm1 with refreshDisabled := false }, none)
  | (mm1, some _) =>
    match showError translations lm mm1 with
    | (mm2, error) => ({ mm2 with refreshDisabled := false }, error)

/-- Method `loadMetrics` resuming after the request rejected: the `catch` block, then
`finally`. -/
def loadMetricsRejected (translations : Translations) (lm : LanguageManager)
    (mm : MetricsManager) : MetricsManager × Option JsError :=
  match showError translations lm mm with
  | (mm1, error) => ({ mm1 with refreshDisabled := false }, error)

/-- The `catch` block of `loadNamespaces`.  The localized text is put between `<option>` and
`</option>` and assigned to `innerHTML`; the option the parser builds has that text as its
text when the text is free of markup (`isMarkupFree`), the case this definition describes. -/
def showNamespacesFailed (translations : Translations) (lm : LanguageManager)
    (mm : MetricsManager) : MetricsManager × NamespacesOutcome :=
  match LanguageManager.getTranslation translations lm "loading-failed" with
  | .error e => (mm, { metricsLoad := none, error := some e })
  | .ok text =>
    ({ mm with options := [{ valueAttr := none, text := text }], selectedIndex := 0 },
      { metricsLoad := none, error := none })

/-- Method `loadNamespaces` resuming after the request resolved.  The selector is emptied and
gets one option for each namespace, the first of which becomes the selected one; the call of
`loadMetrics` is not awaited, so what it throws does not reach the `catch` block. -/
def loadNamespacesResolved (translations : Translations) (lm : LanguageManager)
    (mm : MetricsManager) : NamespacesPayload → MetricsManager × NamespacesOutcome
  | .list namespaces =>
    let mm1 := { mm with
      options := namespaces.map (fun ns => { valueAttr := some ns, text := ns })
      selectedIndex := 0 }
    if namespaces.length > 0 then
      match loadMetrics translations lm mm1 with
      | (mm2, outcome) => (mm2, { metricsLoad := some outcome, error := none })
    else (mm1, { metricsLoad := none, error := none })
  | .broken false => showNamespacesFailed translations lm mm
  | .broken true =>
    showNamespacesFailed translations lm { mm with options := [], selectedIndex := 0 }

/-- Method `loadNamespaces` resuming after the request rejected. -/
def loadNamespacesRejected (translations : Translations) (lm : LanguageManager)
    (mm : MetricsManager) : MetricsManager × NamespacesOutcome :=
  showNamespacesFailed translations lm mm

/-- Method `refreshMetrics`. -/
def refreshMetrics (translations : Translations) (lm : LanguageManager) (mm : MetricsManager) :
    MetricsManager × LoadOutcome :=
  loadMetrics translations lm mm

end MetricsManager

/-- A metrics manager with its surroundings: the language manager it was given, the number of
`getNamespaces` requests in flight, the `getPodMetrics` requests in flight (oldest first, by
their namespace argument) and the log of all `getPodMetrics` requests made. -/
structure MetricsSession where
  lm : LanguageManager
  mm : MetricsManager
  namespacesInFlight : Nat
  metricsInFlight : List String
  metricsRequests : List String

/-- What can happen to a metrics manager. -/
inductive MetricsEvent where
  /-- the user selects the option with index `i`: a `change` event -/
  | change (i : Nat)
  /-- the refresh control is clicked, or `refreshMetrics` is called -/
  | refresh
  /-- a namespaces request resolves -/
  | namespacesResolve (payload : NamespacesPayload)
  /-- a namespaces request rejects -/
  | namespacesReject
  /-- the `i`-th pod-metrics request in flight resolves -/
  | metricsResolve (i : Nat) (payload : MetricsPayload)
  /-- the `i`-th pod-metrics request in flight rejects -/
  | metricsReject (i : Nat)
  /-- the current language of the language manager becomes `lang` -/
  | language (lang : String)

namespace MetricsSession

/-- The session right after the constructor, whose `init` has called `loadNamespaces`. -/
def start (lang : String) (page : MetricsManager) : MetricsSession :=
  { lm := LanguageManager.mk lang, mm := page, namespacesInFlight := 1, metricsInFlight := [],
    metricsRequests := [] }

/-- The session after a call of `loadMetrics` with the given result. -/
def afterLoad (s : MetricsSession) (r : MetricsManager × LoadOutcome) : MetricsSession :=
  match r with
  | (mm, .awaiting namespace_) =>
    { s with mm := mm, metricsInFlight := s.metricsInFlight ++ [namespace_],
             metricsRequests := s.metricsRequests ++ [namespace_] }
  | (mm, _) => { s with mm := mm }

/-- One event. -/
def step (translations : Translations) (s : MetricsSession) : MetricsEvent → MetricsSession
  | .change i =>
    if i < s.mm.options.length then
      afterLoad s (MetricsManager.loadMetrics translations s.lm { s.mm with selectedIndex := i })
    else s
  | .refresh => afterLoad s (MetricsManager.loadMetrics translations s.lm s.mm)
  | .namespacesResolve payload =>
    if s.namespacesInFlight = 0 then s
    else
      match MetricsManager.loadNamespacesResolved translations s.lm s.mm payload with
      | (mm, outcome) =>
        match outcome.metricsLoad with
        | some load => afterLoad { s with namespacesInFlight := s.namespacesInFlight - 1 } (mm, load)
        | none => { s with mm := mm, namespacesInFlight := s.namespacesInFlight - 1 }
  | .namespacesReject =>
    if s.namespacesInFlight = 0 then s
    else
      { s with mm := (MetricsManager.loadNamespacesRejected translations s.lm s.mm).1,
               namespacesInFlight := s.namespacesInFlight - 1 }
  | .metricsResolve i payload =>
    match s.metricsInFlight[i]? with
    | some _ =>
      { s with mm := (MetricsManager.loadMetricsResolved translations s.lm s.mm payload).1,
               metricsInFlight := s.metricsInFlight.eraseIdx i }
    | none => s
  | .metricsReject i =>
    match s.metricsInFlight[i]? with
    | some _ =>
      { s with mm := (MetricsManager.loadMetricsRejected translations s.lm s.mm).1,
               metricsInFlight := s.metricsInFlight.eraseIdx i }
    | none => s
  | .language lang => { s with lm := LanguageManager.mk lang }

/-- A sequence of events, in order. -/
def run (translations : Translations) (s : MetricsSession) (events : List MetricsEvent) :
    MetricsSession :=
  events.foldl (step translations) s

end MetricsSession

/-! ## Notions used to state the properties -/

open ChatManager LanguageManager

/-- How `setMessageContent` writes one character of its input. -/
def ChatManager.renderChar (c : Char) : List Char :=
  if c = '\n' then ['<', 'b', 'r', '>'] else escapeChar c

/-- Every bubble in the chat window is an element that `document.createElement` made earlier. -/
def ChatManager.WellFormed (cm : ChatManager) : Prop :=
  ∀ id className innerHTML dataLoading,
    Node.bubble id className innerHTML dataLoading ∈ cm.chatWindow → id < cm.created

/-- The state `handleSubmit` leaves when it goes on to make the request. -/
def ChatManager.afterSubmit (cm : ChatManager) (thinking : String) : ChatManager :=
  { history := cm.history
    isLoading := true
    chatWindow := (if hasWelcome cm.chatWindow = true then [] else cm.chatWindow) ++
      [Node.bubble cm.created (bubbleClass "user") (setMessageContent (trim cm.messageInput)) false,
       Node.bubble (cm.created + 1) (bubbleClass "ai") (loadingHtml thinking) true]
    messageInput := ""
    created := cm.created + 2 }

/-- The loading flag is set exactly while one request is in flight, and there is never more
than one. -/
def Session.Guarded (s : Session) : Prop :=
  (s.cm.isLoading = false ∧ s.inFlight = []) ∨ (s.cm.isLoading = true ∧ ∃ k, s.inFlight = [k])

/-- The turns of the exchanges that succeeded since the last `clearChat`, in order: `turns`
holds them for the session `s`, and the result holds them once `events` have happened.  Only
a request that resolves adds turns (its user message and the reply), and `clearChat` starts
afresh. -/
def Session.successfulTurns (T : Translations) : Session → List Turn → List Event → List Turn
  | _, turns, [] => turns
  | s, turns, e :: es =>
    successfulTurns T (Session.step T s e)
      (match e with
        | .clearChat => []
        | .resolve i assistant =>
          match s.inFlight[i]? with
          | some k => turns ++ [Turn.mk "user" k.message, Turn.mk "assistant" assistant]
          | none => turns
        | _ => turns) es

/-- How a turn of the history is displayed: the class and the HTML of its bubble. -/
def shownAs (t : Turn) : String × String :=
  (bubbleClass (if t.role = "assistant" then "ai" else t.role), setMessageContent t.content)

/-- The message bubbles on display, in order, each with its class and HTML; the welcome block
and loading placeholders are not messages. -/
def messageBubbles (chatWindow : List Node) : List (String × String) :=
  chatWindow.filterMap (fun n => match n with
    | .bubble _ className innerHTML false => some (className, innerHTML)
    | _ => none)

/-- The lock-step invariant of the specification: the turns of the history appear, in the same
order, among the displayed message bubbles, and while a request is in flight the last child of
the chat window is its loading placeholder. -/
def Session.LockStep (s : Session) : Prop :=
  (s.cm.history.map shownAs).Sublist (messageBubbles s.cm.chatWindow) ∧
  (s.inFlight ≠ [] → ∃ id className innerHTML,
    s.cm.chatWindow.getLast? = some (Node.bubble id className innerHTML true))

/-- A translation table with the two languages of the dashboard and a few of its keys, used as
a concrete input. -/
def sampleTranslations : Translations := fun lang =>
  if lang = "en" then
    some (fun key =>
      if key = "thinking" then some "Thinking..."
      else if key = "connection-failed" then some "Connection failed"
      else if key = "chat-welcome-title" then some "Welcome"
      else none)
  else if lang = "zh" then
    some (fun key =>
      if key = "thinking" then some "思考中..."
      else if key = "connection-failed" then some "連線失敗"
      else none)
  else none

/-- A chat manager in the middle of a conversation, used as a concrete input. -/
def sampleChat : ChatManager :=
  { history := [Turn.mk "user" "hello", Turn.mk "assistant" "hi"]
    isLoading := false
    chatWindow := [Node.bubble 0 (bubbleClass "user") "hello" false,
                   Node.bubble 1 (bubbleClass "ai") "hi" false]
    messageInput := "  pods?\n"
    created := 2 }

/-- A document that is still loading, used as a concrete input. -/
def sampleDocument : Document :=
  { readyState := "loading"
    dataLang := [TaggedElement.mk "chat-welcome-title" "Welcome"]
    dataLangPlaceholder := []
    zhBtn := some false
    enBtn := some true
    fadeTransition := false }

/-- A failed exchange, a successful one and a new input, used as a concrete input. -/
def sampleEvents : List Event :=
  [.input "a", .submit, .reject 0, .input "b", .submit, .resolve 0 "c", .input " d "]

/-- The numbers of the bubbles in a chat window, in order. -/
def nodeIds (chatWindow : List Node) : List Nat :=
  chatWindow.filterMap (fun n => match n with
    | .bubble id _ _ _ => some id
    | .welcome _ _ => none)

/-- The sequence of events never calls `clearChat` while a request is in flight. -/
def Session.ClearsWhenIdle (T : Translations) : Session → List Event → Prop
  | _, [] => True
  | s, e :: es => (e = Event.clearChat → s.inFlight = []) ∧ ClearsWhenIdle T (Session.step T s e) es

/-- What holds of a session as long as `clearChat` is only called while no request is in
flight: the bubbles of the window were created earlier and, either no request is in flight and
the turns of the history are among the displayed messages, or one request is in flight and the
window ends with the user bubble of that request and its placeholder, the turns of the history
being among the messages displayed before them. -/
def Session.Tracked (s : Session) : Prop :=
  (∀ id ∈ nodeIds s.cm.chatWindow, id < s.cm.created) ∧
  (((hasWelcome s.cm.chatWindow = true → s.cm.history = []) ∧ s.cm.isLoading = false ∧
      s.inFlight = [] ∧ (s.cm.history.map shownAs).Sublist (messageBubbles s.cm.chatWindow)) ∨
    (s.cm.isLoading = true ∧ ∃ k shown user html,
      s.inFlight = [k] ∧
      s.cm.chatWindow = shown ++
        [Node.bubble user (bubbleClass "user") (setMessageContent k.message) false,
         Node.bubble k.loadingDiv (bubbleClass "ai") html true] ∧
      hasWelcome shown = false ∧ k.loadingDiv ∉ nodeIds shown ∧ user ≠ k.loadingDiv ∧
      (s.cm.history.map shownAs).Sublist (messageBubbles shown)))

/-- The browser locale that `detectBrowserLanguage` looks at:
`navigator.language || navigator.userLanguage || ''`. -/
def browserLocale (nav : Navigator) : String :=
  jsOr nav.language (jsOr nav.userLanguage "")

/-- The resolution order of the specification for the initial language: the persisted
preference when there is one and it is not empty, otherwise `zh` when the browser locale
starts with `zh`, otherwise `en`. -/
def resolveInitialLanguage (persisted : Option String) (locale : String) : String :=
  match persisted with
  | some preference =>
    if preference ≠ "" then preference
    else if ['z', 'h'].isPrefixOf locale.data then "zh" else "en"
  | none => if ['z', 'h'].isPrefixOf locale.data then "zh" else "en"

/-- What `updateTexts` and `updatePlaceholders` do to one tagged element when the current
language has the table `table`: a non-empty entry for its key becomes its text. -/
def applyTable (table : String → Option String) (el : TaggedElement) : TaggedElement :=
  match table el.key with
  | some text => if text = "" then el else { el with text := text }
  | none => el

/-- The document once the timer of `switchLanguage(lang)` has run, `table` being the table of
`lang`: tagged texts and placeholders translated and the fade class removed; on a page that
has both buttons, `#lang-zh` has the class `active` exactly when `lang` is `zh` and `#lang-en`
exactly when it is not, and on a page that lacks one of them the buttons are left alone. -/
def switchedDocument (table : String → Option String) (lang : String) (doc : Document) :
    Document :=
  { readyState := doc.readyState
    dataLang := doc.dataLang.map (applyTable table)
    dataLangPlaceholder := doc.dataLangPlaceholder.map (applyTable table)
    zhBtn := if doc.zhBtn.isSome ∧ doc.enBtn.isSome then some (decide (lang = "zh"))
      else doc.zhBtn
    enBtn := if doc.zhBtn.isSome ∧ doc.enBtn.isSome then some (decide (lang ≠ "zh"))
      else doc.enBtn
    fadeTransition := false }

/-- One of the two languages the dashboard supports. -/
def Supported (lang : String) : Prop := lang = "zh" ∨ lang = "en"

/-- A language manager showing English on a loaded page, with nothing stored and no timer
pending, used as a concrete input. -/
def sampleSystem : LanguageSystem :=
  { lm := LanguageManager.mk "en"
    doc := { readyState := "complete"
             dataLang := [TaggedElement.mk "thinking" "Thinking...",
                          TaggedElement.mk "no-data" "No data"]
             dataLangPlaceholder := [TaggedElement.mk "connection-failed" "..."]
             zhBtn := some false
             enBtn := some true
             fadeTransition := false }
    storage := LocalStorage.mk false none
    timers := []
    dispatched := [] }

/-- A transport that is offline: every call of `axios` rejects with `Network Error`. -/
def offlineTransport : JsObject → Settled JsValue String :=
  fun _ => .rejected "Network Error"

/-- The canned chat reply for the language `lang`: the reply stored for it when there is one,
otherwise the reply stored for `zh`. -/
def cannedReplyFor (lang : String) : String :=
  match mockData.chatResponse lang with
  | some reply => reply
  | none =>
    match mockData.chatResponse "zh" with
    | some reply => reply
    | none => ""

/-- The two properties `request` puts in a request configuration before it spreads the
options over them. -/
def defaultConfig (endpoint : String) : JsObject :=
  [("url", .str endpoint), ("timeout", .num 10000)]

/-- What can happen to a language manager: a call of `switchLanguage`, or the oldest pending
timer running. -/
inductive LanguageEvent where
  | switch (lang : String)
  | timer
  deriving DecidableEq, Repr

/-- One event of a language manager. -/
def LanguageSystem.step (T : Translations) (s : LanguageSystem) : LanguageEvent → LanguageSystem
  | .switch lang => LanguageSystem.switchLanguage s lang
  | .timer => (LanguageSystem.timerFires T s).1

/-- A sequence of events of a language manager, in order. -/
def LanguageSystem.run (T : Translations) (s : LanguageSystem) (events : List LanguageEvent) :
    LanguageSystem :=
  events.foldl (LanguageSystem.step T) s

/-- The localized text for `key` when the current language has the table `table`: the entry
of the key when there is one and it is not empty, otherwise the key itself. -/
def translate (table : String → Option String) (key : String) : String :=
  match table key with
  | some text => if text = "" then key else text
  | none => key

/-- The row `renderMetrics` builds from the sample `metric` when the current language has the
table `table`. -/
def rowOf (table : String → Option String) (metric : MetricSample) : Row :=
  .metric (MetricsManager.escapeHtml (metric.pod.getD "")) (toFixed (metric.cpu.getD 0) 4)
    (toFixed (metric.mem.getD 0) 1) (toFixed (metric.net_rx.getD 0) 1)
    (toFixed (metric.net_tx.getD 0) 1) (if metric.ready then "bg-success" else "bg-danger")
    (translate table (if metric.ready then "status-normal" else "status-error"))

/-- A well-formed sample: the pod name and the four numbers are present, and the numbers are
below `10 ^ 21` in absolute value, the range in which `toFixed` writes fixed notation. -/
def MetricSample.WellFormed (metric : MetricSample) : Prop :=
  ∃ pod cpu mem rx tx,
    metric.pod = some pod ∧ metric.cpu = some cpu ∧ metric.mem = some mem ∧
    metric.net_rx = some rx ∧ metric.net_tx = some tx ∧
    |cpu| < 10 ^ 21 ∧ |mem| < 10 ^ 21 ∧ |rx| < 10 ^ 21 ∧ |tx| < 10 ^ 21

/-- The text `text` is a number in fixed notation with exactly `places` decimal places: an
optional minus sign and at least one digit, a point, then `places` digits. -/
def HasDecimalPlaces (text : String) (places : Nat) : Prop :=
  ∃ sign whole fraction,
    text.data = sign ++ whole ++ '.' :: fraction ∧ (sign = [] ∨ sign = ['-']) ∧
    whole ≠ [] ∧ (∀ c ∈ whole, c.isDigit = true) ∧
    fraction.length = places ∧ (∀ c ∈ fraction, c.isDigit = true)

/-- Reading markup that holds text only, character by character: each of the entities
`&amp;`, `&nbsp;`, `&lt;` and `&gt;` is read as the character it names and every other
character as itself.  `skip` counts the characters of an entity still to pass over. -/
def readEntities : Nat → List Char → List Char
  | _, [] => []
  | skip + 1, _ :: rest => readEntities skip rest
  | 0, c :: rest =>
    if c = '&' then
      if ['a', 'm', 'p', ';'].isPrefixOf rest then '&' :: readEntities 4 rest
      else if ['n', 'b', 's', 'p', ';'].isPrefixOf rest then
        Char.ofNat 0xA0 :: readEntities 5 rest
      else if ['l', 't', ';'].isPrefixOf rest then '<' :: readEntities 3 rest
      else if ['g', 't', ';'].isPrefixOf rest then '>' :: readEntities 3 rest
      else c :: readEntities 0 rest
    else c :: readEntities 0 rest

/-- The text a browser shows for the markup `markup`, when the markup holds no tag and no
other entity than `&amp;`, `&nbsp;`, `&lt;` and `&gt;`. -/
def readText (markup : String) : String := ⟨readEntities 0 markup.data⟩

/-- The markup `cell` is the text `text`, HTML-escaped: it holds no `<` and no `>`, so it
opens and closes no tag; every `&` in it starts one of the entities `&amp;`, `&nbsp;`,
`&lt;`, `&gt;`; and read back it is `text`. -/
def IsEscaped (cell text : String) : Prop :=
  '<' ∉ cell.data ∧ '>' ∉ cell.data ∧
  (∀ pre post, cell.data = pre ++ '&' :: post →
    ∃ rest, post = 'a' :: 'm' :: 'p' :: ';' :: rest ∨
      post = 'n' :: 'b' :: 's' :: 'p' :: ';' :: rest ∨
      post = 'l' :: 't' :: ';' :: rest ∨ post = 'g' :: 't' :: ';' :: rest) ∧
  readText cell = text

/-- The arguments of the calls of `switchLanguage` among `events` that are not ignored, in
order, the events running from the state `s`: a call is ignored when its argument is the
current language at the time of the call. -/
def effectiveSwitches (T : Translations) : LanguageSystem → List LanguageEvent → List String
  | _, [] => []
  | s, .switch lang :: rest =>
    (if lang = s.lm.currentLang then [] else [lang]) ++
      effectiveSwitches T (LanguageSystem.step T s (.switch lang)) rest
  | s, .timer :: rest => effectiveSwitches T (LanguageSystem.step T s .timer) rest

/-- The last element of `prev` followed by `langs`. -/
def lastOf (prev : Option String) (langs : List String) : Option String :=
  langs.foldl (fun _ lang => some lang) prev

/-- What relates a language system to the argument `prev` of the last call of
`switchLanguage` that was not ignored: the newest pending timer carries it, without a pending
timer it is the current language, and it is the stored preference when the storage can be
written.  Before any such call no timer is pending. -/
def FollowsSwitch (s : LanguageSystem) (prev : Option String) : Prop :=
  (prev = none → s.timers = []) ∧
  ∀ l, prev = some l →
    (s.timers = [] → s.lm.currentLang = l) ∧
    (∀ x, s.timers.getLast? = some x → x = l) ∧
    (s.storage.blocked = false → s.storage.language = some l)

/-- The English table of the metrics panel, used as a concrete input. -/
def sampleMetricsTable : String → Option String := fun key =>
  if key = "metrics-loading-data" then some "Loading data..."
  else if key = "loading-failed" then some "Loading failed"
  else if key = "no-data" then some "No data"
  else if key = "status-normal" then some "Normal"
  else if key = "status-error" then some "Error"
  else none

/-- A translation table with English only, used as a concrete input. -/
def sampleMetricsTranslations : Translations := fun lang =>
  if lang = "en" then some sampleMetricsTable else none

/-- The metrics panel of a page whose selector has no option yet, used as a concrete
input. -/
def emptyPage : MetricsManager :=
  { options := [], selectedIndex := 0, refreshDisabled := false,
    metricsBody := [.markup "<tr><td colspan=\"6\">-</td></tr>"] }

/-- The metrics panel of a page with two namespaces to choose from, the first one selected,
used as a concrete input. -/
def samplePage : MetricsManager :=
  { options := [SelectOption.mk (some "default") "default",
                SelectOption.mk (some "kube-system") "kube-system"]
    selectedIndex := 0
    refreshDisabled := false
    metricsBody := [.markup "<tr><td colspan=\"6\">-</td></tr>"] }

/-- The samples of `mockData.podMetrics` as `renderMetrics` reads them. -/
def sampleMetrics : List MetricSample := mockData.podMetrics.map PodMetric.toSample

/-- The samples of `mockData.podMetrics` followed by one whose pod name holds markup, used as
a concrete input. -/
def markupMetrics : List MetricSample :=
  sampleMetrics ++
    [{ pod := some "<b>web&1</b>", cpu := some 0.00125, mem := some 70, net_rx := some 0.25,
       net_tx := some 0, ready := false }]

/-- One sample of another namespace, used as a concrete input. -/
def otherMetrics : List MetricSample :=
  [{ pod := some "coredns-<1>", cpu := some 0.00125, mem := some 70, net_rx := some 0.25,
     net_tx := none, ready := true }]

/-! ## Properties -/

theorem flatMap_split {α β : Type} (f : α → List β) (x : β) :
    ∀ (l : List α) (pre post : List β), l.flatMap f = pre ++ x :: post →
      ∃ l1 c l2 p1 p2, l = l1 ++ c :: l2 ∧ f c = p1 ++ x :: p2 ∧
        pre = l1.flatMap f ++ p1 ∧ post = p2 ++ l2.flatMap f := by
  intro l
  induction l with
  | nil => intro pre post h; simp at h
  | cons a t ih =>
    intro pre post h
    rw [List.flatMap_cons, List.append_eq_append_iff] at h
    rcases h with ⟨m, hpre, hrest⟩ | ⟨m, hfa, hrest⟩
    · obtain ⟨l1, c, l2, p1, p2, hl, hc, hp, hq⟩ := ih m post hrest
      refine ⟨a :: l1, c, l2, p1, p2, ?_, hc, ?_, hq⟩
      · simp [hl]
      · simp [hpre, hp]
    · cases m with
      | nil =>
        simp at hfa hrest
        obtain ⟨l1, c, l2, p1, p2, hl, hc, hp, hq⟩ := ih [] post hrest.symm
        refine ⟨a :: l1, c, l2, p1, p2, ?_, hc, ?_, hq⟩
        · simp [hl]
        · simp [hfa, ← hp]
      | cons y m =>
        simp at hrest
        obtain ⟨hy, hpost⟩ := hrest
        subst hy
        exact ⟨[], a, t, pre, m, rfl, hfa, by simp, hpost⟩

theorem renderChar_of_escape (c : Char) :
    (escapeChar c).flatMap (fun d => if d = '\n' then ['<', 'b', 'r', '>'] else [d]) = renderChar c := by
  unfold renderChar escapeChar
  by_cases h1 : c = '\n'
  · subst h1; decide
  · simp only [h1, if_false]
    split_ifs <;> simp_all

theorem setMessageContent_data (text : String) :
    (setMessageContent text).data = text.data.flatMap renderChar := by
  unfold setMessageContent replaceNewlines escapeHtml
  simp only [List.flatMap_assoc, renderChar_of_escape]

theorem renderChar_lt (c : Char) (p1 p2 : List Char) (h : renderChar c = p1 ++ '<' :: p2) :
    p1 = [] ∧ p2 = ['b', 'r', '>'] := by
  unfold renderChar escapeChar at h
  split_ifs at h with h1 h2 h3 h4 h5 <;>
    simp [List.cons_eq_append_iff, List.nil_eq_append_iff] at h
  · obtain ⟨rfl, rfl⟩ := h; exact ⟨rfl, rfl⟩
  · exact absurd h.2.1.symm h4

theorem renderChar_amp (c : Char) (p1 p2 : List Char) (h : renderChar c = p1 ++ '&' :: p2) :
    p1 = [] ∧ (p2 = ['a', 'm', 'p', ';'] ∨ p2 = ['n', 'b', 's', 'p', ';'] ∨
      p2 = ['l', 't', ';'] ∨ p2 = ['g', 't', ';']) := by
  unfold renderChar escapeChar at h
  split_ifs at h with h1 h2 h3 h4 h5 <;>
    simp [List.cons_eq_append_iff, List.nil_eq_append_iff] at h
  all_goals first
    | (obtain ⟨rfl, rfl⟩ := h; simp)
    | exact absurd h.2.1.symm h2

theorem renderChar_gt (c : Char) (p1 p2 : List Char) (h : renderChar c = p1 ++ '>' :: p2) :
    p1 = ['<', 'b', 'r'] ∧ p2 = [] := by
  unfold renderChar escapeChar at h
  split_ifs at h with h1 h2 h3 h4 h5 <;>
    simp [List.cons_eq_append_iff, List.nil_eq_append_iff] at h
  · obtain ⟨a, rfl, b, rfl, d, rfl, rfl, rfl⟩ := h
    exact ⟨rfl, rfl⟩
  · exact absurd h.2.1.symm h5

theorem renderChar_count_lt (c : Char) :
    (renderChar c).count '<' = if c = '\n' then 1 else 0 := by
  unfold renderChar escapeChar
  split_ifs with h1 h2 h3 h4 h5 <;> try decide
  simp [List.count_cons, Ne.symm h4]

theorem count_lt_flatMap (l : List Char) :
    (l.flatMap renderChar).count '<' = l.count '\n' := by
  induction l with
  | nil => rfl
  | cons c t ih =>
    rw [List.flatMap_cons, List.count_append, ih, renderChar_count_lt, List.count_cons]
    by_cases h : c = '\n' <;> simp [h, Nat.add_comm]

theorem dropWhile_all {α : Type} (p : α → Bool) (l : List α) (h : ∀ a ∈ l, p a = true) :
    l.dropWhile p = [] := by
  induction l with
  | nil => rfl
  | cons a t ih =>
    have ha : p a = true := h a (List.mem_cons_self a t)
    simp only [List.dropWhile_cons, ha, if_true]
    exact ih (fun b hb => h b (List.mem_cons_of_mem a hb))

theorem trim_of_whiteSpace (s : String) (h : ∀ c ∈ s.data, isWhiteSpace c = true) :
    trim s = "" := by
  unfold trim
  rw [dropWhile_all isWhiteSpace s.data h]
  rfl

theorem hasWelcome_kept (w : List Node) :
    hasWelcome (if hasWelcome w = true then [] else w) = false := by
  by_cases h : hasWelcome w = true
  · rw [if_pos h]; rfl
  · rw [if_neg h]; simpa using h

theorem hasWelcome_append_bubble (w : List Node) (id : Nat) (c h : String) (l : Bool) :
    hasWelcome (w ++ [Node.bubble id c h l]) = hasWelcome w := by
  simp [hasWelcome]

theorem addMessage_plain (T : Translations) (lm : LanguageManager) (cm : ChatManager)
    (role content : String) :
    addMessage T lm cm role content false =
      ({ cm with
          chatWindow := (if hasWelcome cm.chatWindow = true then [] else cm.chatWindow) ++
            [Node.bubble cm.created (bubbleClass role) (setMessageContent content) false]
          created := cm.created + 1 }, .ok cm.created) := by
  unfold addMessage
  by_cases h : hasWelcome cm.chatWindow = true <;> simp [h]

theorem addMessage_loading (T : Translations) (lm : LanguageManager) (cm : ChatManager)
    (role content thinking : String) (hw : hasWelcome cm.chatWindow = false)
    (ht : getTranslation T lm "thinking" = .ok thinking) :
    addMessage T lm cm role content true =
      ({ cm with
          chatWindow := cm.chatWindow ++
            [Node.bubble cm.created (bubbleClass role) (loadingHtml thinking) true]
          created := cm.created + 1 }, .ok cm.created) := by
  unfold addMessage
  simp [hw, ht]

theorem addMessage_loading_throws (T : Translations) (lm : LanguageManager) (cm : ChatManager)
    (role content : String) (e : JsError) (hw : hasWelcome cm.chatWindow = false)
    (ht : getTranslation T lm "thinking" = .error e) :
    addMessage T lm cm role content true = ({ cm with created := cm.created + 1 }, .error e) := by
  unfold addMessage
  simp [hw, ht]

theorem handleSubmit_loading (T : Translations) (lm : LanguageManager) (cm : ChatManager)
    (h : cm.isLoading = true) : handleSubmit T lm cm = (cm, .ignored) := by
  unfold handleSubmit
  simp [h]

theorem handleSubmit_blank (T : Translations) (lm : LanguageManager) (cm : ChatManager)
    (h : trim cm.messageInput = "") : handleSubmit T lm cm = (cm, .ignored) := by
  unfold handleSubmit
  simp [h]

theorem handleSubmit_accepts (T : Translations) (lm : LanguageManager) (cm : ChatManager)
    (thinking : String) (hl : cm.isLoading = false) (hm : trim cm.messageInput ≠ "")
    (ht : getTranslation T lm "thinking" = .ok thinking) :
    handleSubmit T lm cm =
      (afterSubmit cm thinking,
        .awaiting (trim cm.messageInput) cm.history (cm.created + 1)) := by
  unfold handleSubmit
  simp only [hl, hm, Bool.false_eq_true, if_false, addMessage_plain]
  rw [addMessage_loading T lm _ "ai" "" thinking _ ht]
  · simp [afterSubmit]
  · simp [hasWelcome_append_bubble, hasWelcome_kept]

theorem handleSubmit_throws (T : Translations) (lm : LanguageManager) (cm : ChatManager)
    (e : JsError) (hl : cm.isLoading = false) (hm : trim cm.messageInput ≠ "")
    (ht : getTranslation T lm "thinking" = .error e) :
    (handleSubmit T lm cm).2 = .threw e ∧ (handleSubmit T lm cm).1.isLoading = false ∧
      (handleSubmit T lm cm).1.history = cm.history := by
  unfold handleSubmit
  simp only [hl, hm, Bool.false_eq_true, if_false, addMessage_plain]
  rw [addMessage_loading_throws T lm _ "ai" "" e _ ht]
  · simp [hl]
  · simp [hasWelcome_append_bubble, hasWelcome_kept]

theorem handleSubmit_awaiting (T : Translations) (lm : LanguageManager) (cm cm1 : ChatManager)
    (message : String) (history : List Turn) (loadingDiv : Nat)
    (h : handleSubmit T lm cm = (cm1, .awaiting message history loadingDiv)) :
    cm.isLoading = false ∧ trim cm.messageInput ≠ "" ∧ message = trim cm.messageInput ∧
      history = cm.history ∧ loadingDiv = cm.created + 1 ∧
      ∃ thinking, getTranslation T lm "thinking" = .ok thinking ∧ cm1 = afterSubmit cm thinking := by
  by_cases hl : cm.isLoading = true
  · rw [handleSubmit_loading T lm cm hl] at h; simp at h
  · have hl2 : cm.isLoading = false := by simpa using hl
    by_cases hm : trim cm.messageInput = ""
    · rw [handleSubmit_blank T lm cm hm] at h; simp at h
    · cases ht : getTranslation T lm "thinking" with
      | error e =>
        have := (handleSubmit_throws T lm cm e hl2 hm ht).1
        rw [h] at this; simp at this
      | ok thinking =>
        rw [handleSubmit_accepts T lm cm thinking hl2 hm ht] at h
        simp only [Prod.mk.injEq, SubmitOutcome.awaiting.injEq] at h
        obtain ⟨h1, h2, h3, h4⟩ := h
        exact ⟨hl2, hm, h2.symm, h3.symm, h4.symm, thinking, rfl, h1.symm⟩

theorem map_update_fresh (w : List Node) (element : Nat) (content : String)
    (h : ∀ id c html l, Node.bubble id c html l ∈ w → id ≠ element) :
    w.map (fun n => match n with
      | .bubble id className innerHTML dataLoading =>
        if id = element then Node.bubble id className (setMessageContent content) false
        else Node.bubble id className innerHTML dataLoading
      | .welcome title desc => Node.welcome title desc) = w := by
  induction w with
  | nil => rfl
  | cons n t ih =>
    have ht := ih (fun id c html l hm => h id c html l (List.mem_cons_of_mem n hm))
    cases n with
    | welcome title desc => simp only [List.map_cons, ht]
    | bubble id c html l =>
      have hne : id ≠ element := h id c html l (List.mem_cons_self _ t)
      simp only [List.map_cons, ht, if_neg hne]

theorem kept_fresh (cm : ChatManager) (hwf : cm.WellFormed) (id : Nat) (c html : String) (l : Bool)
    (h : Node.bubble id c html l ∈ (if hasWelcome cm.chatWindow = true then [] else cm.chatWindow)) :
    id < cm.created := by
  by_cases hw : hasWelcome cm.chatWindow = true
  · rw [if_pos hw] at h; simp at h
  · rw [if_neg hw] at h; exact hwf id c html l h

theorem updateMessage_afterSubmit (cm : ChatManager) (hwf : cm.WellFormed)
    (thinking content : String) :
    (updateMessage (afterSubmit cm thinking) (cm.created + 1) content).chatWindow =
      (if hasWelcome cm.chatWindow = true then [] else cm.chatWindow) ++
        [Node.bubble cm.created (bubbleClass "user")
            (setMessageContent (trim cm.messageInput)) false,
         Node.bubble (cm.created + 1) (bubbleClass "ai") (setMessageContent content) false] := by
  unfold updateMessage afterSubmit
  simp only [List.map_append]
  rw [map_update_fresh _ (cm.created + 1) content]
  · simp
  · intro id c html l hm
    have := kept_fresh cm hwf id c html l hm
    omega

theorem updateMessage_welcome (cm : ChatManager) (title desc : String) (element : Nat)
    (content : String) (h : cm.chatWindow = [Node.welcome title desc]) :
    (updateMessage cm element content).chatWindow = [Node.welcome title desc] := by
  unfold updateMessage
  simp [h]

theorem clearChat_isLoading (T : Translations) (lm : LanguageManager) (cm : ChatManager) :
    (clearChat T lm cm).1.isLoading = cm.isLoading := by
  unfold clearChat
  cases getTranslation T lm "chat-welcome-title" with
  | error e => rfl
  | ok title =>
    cases getTranslation T lm "chat-welcome-desc" with
    | error e => rfl
    | ok desc => rfl

theorem clearChat_history (T : Translations) (lm : LanguageManager) (cm : ChatManager) :
    (clearChat T lm cm).1.history = [] := by
  unfold clearChat
  cases getTranslation T lm "chat-welcome-title" with
  | error e => rfl
  | ok title =>
    cases getTranslation T lm "chat-welcome-desc" with
    | error e => rfl
    | ok desc => rfl

theorem rejected_isLoading (T : Translations) (lm : LanguageManager) (cm : ChatManager)
    (k : Suspended) : (handleSubmitRejected T lm cm k).1.isLoading = false := by
  unfold handleSubmitRejected
  cases getTranslation T lm "connection-failed" with
  | error e => rfl
  | ok text => rfl

theorem rejected_history (T : Translations) (lm : LanguageManager) (cm : ChatManager)
    (k : Suspended) : (handleSubmitRejected T lm cm k).1.history = cm.history := by
  unfold handleSubmitRejected
  cases getTranslation T lm "connection-failed" with
  | error e => rfl
  | ok text => rfl

theorem updateLoadingMessages_frame (T : Translations) (lm : LanguageManager) (cm : ChatManager) :
    (updateLoadingMessages T lm cm).1.isLoading = cm.isLoading ∧
      (updateLoadingMessages T lm cm).1.history = cm.history := by
  unfold updateLoadingMessages
  split
  · cases getTranslation T lm "thinking" with
    | error e => exact ⟨rfl, rfl⟩
    | ok text => exact ⟨rfl, rfl⟩
  · exact ⟨rfl, rfl⟩

theorem handleSubmit_frame (T : Translations) (lm : LanguageManager) (cm : ChatManager) :
    (handleSubmit T lm cm).1.history = cm.history ∧
      ((handleSubmit T lm cm).1.isLoading = cm.isLoading ∨
        ∃ m h ld, (handleSubmit T lm cm).2 = .awaiting m h ld) := by
  by_cases hl : cm.isLoading = true
  · rw [handleSubmit_loading T lm cm hl]; exact ⟨rfl, Or.inl rfl⟩
  · have hl2 : cm.isLoading = false := by simpa using hl
    by_cases hm : trim cm.messageInput = ""
    · rw [handleSubmit_blank T lm cm hm]; exact ⟨rfl, Or.inl rfl⟩
    · cases ht : getTranslation T lm "thinking" with
      | error e =>
        obtain ⟨_, h2, h3⟩ := handleSubmit_throws T lm cm e hl2 hm ht
        exact ⟨h3, Or.inl (h2.trans hl2.symm)⟩
      | ok thinking =>
        rw [handleSubmit_accepts T lm cm thinking hl2 hm ht]
        exact ⟨rfl, Or.inr ⟨_, _, _, rfl⟩⟩

theorem step_submit_ignored (T : Translations) (s : Session)
    (h : ChatManager.handleSubmit T s.lm s.cm = (s.cm, .ignored)) :
    Session.step T s .submit = s := by
  simp only [Session.step, h]

theorem step_submit_accepts (T : Translations) (s : Session) (thinking : String)
    (hl : s.cm.isLoading = false) (hm : trim s.cm.messageInput ≠ "")
    (ht : getTranslation T s.lm "thinking" = .ok thinking) :
    Session.step T s .submit =
      { s with
        cm := afterSubmit s.cm thinking
        inFlight := s.inFlight ++ [Suspended.mk (trim s.cm.messageInput) (s.cm.created + 1)]
        requests := s.requests ++ [(trim s.cm.messageInput, s.cm.history)] } := by
  simp only [Session.step, handleSubmit_accepts T s.lm s.cm thinking hl hm ht]

theorem step_submit_throws (T : Translations) (s : Session) (e : JsError)
    (hl : s.cm.isLoading = false) (hm : trim s.cm.messageInput ≠ "")
    (ht : getTranslation T s.lm "thinking" = .error e) :
    Session.step T s .submit = { s with cm := (handleSubmit T s.lm s.cm).1 } := by
  have h := (handleSubmit_throws T s.lm s.cm e hl hm ht).1
  simp only [Session.step]
  generalize handleSubmit T s.lm s.cm = r at h
  obtain ⟨cm, o⟩ := r
  simp only at h
  subst h
  rfl

theorem step_guarded (T : Translations) (s : Session) (e : Event) (h : s.Guarded) :
    (Session.step T s e).Guarded := by
  cases e with
  | input text => exact h
  | submit =>
    by_cases hl : s.cm.isLoading = true
    · rw [step_submit_ignored T s (handleSubmit_loading T s.lm s.cm hl)]; exact h
    · have hl2 : s.cm.isLoading = false := by simpa using hl
      by_cases hm : trim s.cm.messageInput = ""
      · rw [step_submit_ignored T s (handleSubmit_blank T s.lm s.cm hm)]; exact h
      · have hfl : s.inFlight = [] := by
          rcases h with ⟨_, h2⟩ | ⟨h1, _⟩
          · exact h2
          · rw [hl2] at h1; cases h1
        cases ht : getTranslation T s.lm "thinking" with
        | error e =>
          rw [step_submit_throws T s e hl2 hm ht]
          exact Or.inl ⟨(handleSubmit_throws T s.lm s.cm e hl2 hm ht).2.1, hfl⟩
        | ok thinking =>
          rw [step_submit_accepts T s thinking hl2 hm ht]
          exact Or.inr ⟨rfl, Suspended.mk (trim s.cm.messageInput) (s.cm.created + 1),
            by simp [hfl]⟩
  | clearChat =>
    have hc := clearChat_isLoading T s.lm s.cm
    rcases h with ⟨h1, h2⟩ | ⟨h1, h2⟩
    · exact Or.inl ⟨hc.trans h1, h2⟩
    · exact Or.inr ⟨hc.trans h1, h2⟩
  | resolve i assistant =>
    rcases h with ⟨h1, h2⟩ | ⟨h1, k, h2⟩
    · simp only [Session.step, h2, List.getElem?_nil]; exact Or.inl ⟨h1, h2⟩
    · cases i with
      | zero =>
        simp only [Session.step, h2, List.getElem?_cons_zero]
        exact Or.inl ⟨rfl, by simp⟩
      | succ j =>
        simp only [Session.step, h2, List.getElem?_cons_succ, List.getElem?_nil]
        exact Or.inr ⟨h1, k, h2⟩
  | reject i =>
    rcases h with ⟨h1, h2⟩ | ⟨h1, k, h2⟩
    · simp only [Session.step, h2, List.getElem?_nil]; exact Or.inl ⟨h1, h2⟩
    · cases i with
      | zero =>
        simp only [Session.step, h2, List.getElem?_cons_zero]
        exact Or.inl ⟨rejected_isLoading T s.lm s.cm k, by simp⟩
      | succ j =>
        simp only [Session.step, h2, List.getElem?_cons_succ, List.getElem?_nil]
        exact Or.inr ⟨h1, k, h2⟩
  | language lang => exact h
  | languageChanged =>
    have hc := (updateLoadingMessages_frame T s.lm s.cm).1
    rcases h with ⟨h1, h2⟩ | ⟨h1, h2⟩
    · exact Or.inl ⟨hc.trans h1, h2⟩
    · exact Or.inr ⟨hc.trans h1, h2⟩

theorem run_guarded (T : Translations) (events : List Event) :
    ∀ s : Session, s.Guarded → (Session.run T s events).Guarded := by
  induction events with
  | nil => intro s h; exact h
  | cons e es ih => intro s h; exact ih (Session.step T s e) (step_guarded T s e h)

theorem step_history (T : Translations) (s : Session) (e : Event) :
    (Session.step T s e).cm.history =
      (match e with
        | .clearChat => []
        | .resolve i assistant =>
          match s.inFlight[i]? with
          | some k => s.cm.history ++ [Turn.mk "user" k.message, Turn.mk "assistant" assistant]
          | none => s.cm.history
        | _ => s.cm.history) := by
  cases e with
  | input text => rfl
  | submit =>
    have h := (handleSubmit_frame T s.lm s.cm).1
    simp only [Session.step]
    generalize handleSubmit T s.lm s.cm = r at h
    obtain ⟨cm, o⟩ := r
    cases o <;> exact h
  | clearChat => exact clearChat_history T s.lm s.cm
  | resolve i assistant =>
    simp only [Session.step]
    cases s.inFlight[i]? with
    | none => rfl
    | some k => rfl
  | reject i =>
    simp only [Session.step]
    cases s.inFlight[i]? with
    | none => rfl
    | some k => exact rejected_history T s.lm s.cm k
  | language lang => rfl
  | languageChanged => exact (updateLoadingMessages_frame T s.lm s.cm).2

theorem run_history (T : Translations) (events : List Event) :
    ∀ (s : Session) (turns : List Turn), s.cm.history = turns →
      (Session.run T s events).cm.history = Session.successfulTurns T s turns events := by
  induction events with
  | nil => intro s turns h; exact h
  | cons e es ih =>
    intro s turns h
    simp only [Session.run, List.foldl_cons, Session.successfulTurns]
    apply ih
    rw [step_history, h]

/-- C1: `setMessageContent` sets the HTML to `escapeHtml(text)` with every newline replaced by
`<br>`.  Character by character: a newline becomes `<br>`, each of `<`, `>`, `&` (and the
no-break space) becomes its entity and every other character is kept.  So the result has one
`<` per newline of the input, every `<` opens a `<br>` tag, every `>` closes one, every `&`
starts an entity, and the result contains no `<script`. -/
theorem setMessageContent_escapes (text : String) :
    setMessageContent text = replaceNewlines (escapeHtml text) ∧
    (setMessageContent text).data = text.data.flatMap renderChar ∧
    (setMessageContent text).data.count '<' = text.data.count '\n' ∧
    (∀ pre post, (setMessageContent text).data = pre ++ '<' :: post →
      ∃ rest, post = 'b' :: 'r' :: '>' :: rest) ∧
    (∀ pre post, (setMessageContent text).data = pre ++ '>' :: post →
      ∃ front, pre = front ++ ['<', 'b', 'r']) ∧
    (∀ pre post, (setMessageContent text).data = pre ++ '&' :: post →
      ∃ rest, post = 'a' :: 'm' :: 'p' :: ';' :: rest ∨
        post = 'n' :: 'b' :: 's' :: 'p' :: ';' :: rest ∨
        post = 'l' :: 't' :: ';' :: rest ∨ post = 'g' :: 't' :: ';' :: rest) ∧
    ¬ ['<', 's', 'c', 'r', 'i', 'p', 't'] <:+: (setMessageContent text).data := by
  have hlt : ∀ pre post, (setMessageContent text).data = pre ++ '<' :: post →
      ∃ rest, post = 'b' :: 'r' :: '>' :: rest := by
    intro pre post h
    rw [setMessageContent_data] at h
    obtain ⟨l1, c, l2, p1, p2, _, hc, _, hpost⟩ := flatMap_split renderChar '<' _ pre post h
    obtain ⟨_, hp2⟩ := renderChar_lt c p1 p2 hc
    exact ⟨l2.flatMap renderChar, by rw [hpost, hp2]; rfl⟩
  refine ⟨rfl, setMessageContent_data text, ?_, hlt, ?_, ?_, ?_⟩
  · rw [setMessageContent_data, count_lt_flatMap]
  · intro pre post h
    rw [setMessageContent_data] at h
    obtain ⟨l1, c, l2, p1, p2, _, hc, hpre, _⟩ := flatMap_split renderChar '>' _ pre post h
    obtain ⟨hp1, _⟩ := renderChar_gt c p1 p2 hc
    exact ⟨l1.flatMap renderChar, by rw [hpre, hp1]⟩
  · intro pre post h
    rw [setMessageContent_data] at h
    obtain ⟨l1, c, l2, p1, p2, _, hc, _, hpost⟩ := flatMap_split renderChar '&' _ pre post h
    obtain ⟨_, hp2⟩ := renderChar_amp c p1 p2 hc
    refine ⟨l2.flatMap renderChar, ?_⟩
    rcases hp2 with hp | hp | hp | hp <;> simp [hpost, hp]
  · rintro ⟨pre, post, h⟩
    obtain ⟨rest, hrest⟩ := hlt pre (['s', 'c', 'r', 'i', 'p', 't'] ++ post) (by simp [← h])
    simp at hrest

/-- C2: when the request of an accepted submission rejects, the history is the one before the
submission, and the chat window is what it held before (without the welcome block) followed by
the user bubble and one assistant bubble holding the localized `connection-failed` text in
place of the loading placeholder.  Whatever the state in which the request rejects, the
rejection adds nothing to the history. -/
theorem rejected_turn_keeps_history (T : Translations) (lm lmLater : LanguageManager)
    (cm cm1 : ChatManager) (message : String) (history : List Turn) (loadingDiv : Nat)
    (text : String) (hwf : cm.WellFormed)
    (hsubmit : handleSubmit T lm cm = (cm1, .awaiting message history loadingDiv))
    (htext : getTranslation T lmLater "connection-failed" = .ok text) :
    (handleSubmitRejected T lmLater cm1 (Suspended.mk message loadingDiv)).2 = none ∧
    (handleSubmitRejected T lmLater cm1 (Suspended.mk message loadingDiv)).1.history
      = cm.history ∧
    (handleSubmitRejected T lmLater cm1 (Suspended.mk message loadingDiv)).1.isLoading
      = false ∧
    (∃ thinking, cm1.chatWindow =
      (if hasWelcome cm.chatWindow = true then [] else cm.chatWindow) ++
        [Node.bubble cm.created (bubbleClass "user") (setMessageContent message) false,
         Node.bubble loadingDiv (bubbleClass "ai") (loadingHtml thinking) true]) ∧
    (handleSubmitRejected T lmLater cm1 (Suspended.mk message loadingDiv)).1.chatWindow =
      (if hasWelcome cm.chatWindow = true then [] else cm.chatWindow) ++
        [Node.bubble cm.created (bubbleClass "user") (setMessageContent message) false,
         Node.bubble loadingDiv (bubbleClass "ai") (setMessageContent text) false] ∧
    (∀ (now : ChatManager) (k : Suspended),
      (handleSubmitRejected T lmLater now k).1.history = now.history) := by
  obtain ⟨_, _, hm, _, hld, thinking, _, hcm1⟩ :=
    handleSubmit_awaiting T lm cm cm1 message history loadingDiv hsubmit
  subst hcm1 hm hld
  refine ⟨?_, ?_, ?_, ⟨thinking, rfl⟩, ?_, fun now k => rejected_history T lmLater now k⟩
  · unfold handleSubmitRejected; rw [htext]
  · exact rejected_history T lmLater _ _
  · exact rejected_isLoading T lmLater _ _
  · unfold handleSubmitRejected
    rw [htext]
    exact updateMessage_afterSubmit cm hwf thinking text

/-- C3: when the request of an accepted submission with trimmed message `m` resolves with the
assistant text `a`, the history is the one before the submission followed by the user turn `m`
and the assistant turn `a`, and the placeholder bubble holds the escaped text of `a` with
`<br>` for newlines and has lost its loading mark.  Whatever the state in which the request
resolves, exactly these two turns are appended to the history, in this order. -/
theorem resolved_turn_appends_two (T : Translations) (lm : LanguageManager)
    (cm cm1 : ChatManager) (message : String) (history : List Turn) (loadingDiv : Nat)
    (assistant : String) (hwf : cm.WellFormed)
    (hsubmit : handleSubmit T lm cm = (cm1, .awaiting message history loadingDiv)) :
    message = trim cm.messageInput ∧
    (handleSubmitResolved cm1 (Suspended.mk message loadingDiv) assistant).history =
      cm.history ++ [Turn.mk "user" message, Turn.mk "assistant" assistant] ∧
    (handleSubmitResolved cm1 (Suspended.mk message loadingDiv) assistant).isLoading = false ∧
    (∃ thinking, cm1.chatWindow =
      (if hasWelcome cm.chatWindow = true then [] else cm.chatWindow) ++
        [Node.bubble cm.created (bubbleClass "user") (setMessageContent message) false,
         Node.bubble loadingDiv (bubbleClass "ai") (loadingHtml thinking) true]) ∧
    (handleSubmitResolved cm1 (Suspended.mk message loadingDiv) assistant).chatWindow =
      (if hasWelcome cm.chatWindow = true then [] else cm.chatWindow) ++
        [Node.bubble cm.created (bubbleClass "user") (setMessageContent message) false,
         Node.bubble loadingDiv (bubbleClass "ai") (setMessageContent assistant) false] ∧
    (∀ (now : ChatManager) (k : Suspended),
      (handleSubmitResolved now k assistant).history =
        now.history ++ [Turn.mk "user" k.message, Turn.mk "assistant" assistant]) := by
  obtain ⟨_, _, hm, _, hld, thinking, _, hcm1⟩ :=
    handleSubmit_awaiting T lm cm cm1 message history loadingDiv hsubmit
  subst hcm1 hm hld
  refine ⟨rfl, rfl, rfl, ⟨thinking, rfl⟩, ?_, fun now k => rfl⟩
  exact updateMessage_afterSubmit cm hwf thinking assistant

/-- C4: in every state reached from the constructor in which a request is in flight, exactly
one is, the loading flag is set, and a submission with any input returns at the first guard:
the session (history, chat window, loading flag, requests made, requests in flight) is
unchanged and nothing is thrown. -/
theorem pending_submit_dropped (T : Translations) (lang : String) (page : List Node)
    (input : String) (events : List Event) (text : String)
    (hpending : (Session.run T (Session.start lang page input) events).inFlight ≠ []) :
    (Session.run T (Session.start lang page input) events).inFlight.length = 1 ∧
    (Session.run T (Session.start lang page input) events).cm.isLoading = true ∧
    handleSubmit T (Session.run T (Session.start lang page input) events).lm
        { (Session.run T (Session.start lang page input) events).cm with messageInput := text } =
      ({ (Session.run T (Session.start lang page input) events).cm with messageInput := text },
        .ignored) ∧
    Session.step T
        (Session.step T (Session.run T (Session.start lang page input) events) (.input text))
        .submit =
      Session.step T (Session.run T (Session.start lang page input) events) (.input text) := by
  have hg := run_guarded T events (Session.start lang page input) (Or.inl ⟨rfl, rfl⟩)
  generalize Session.run T (Session.start lang page input) events = s at hg hpending
  rcases hg with ⟨_, h2⟩ | ⟨h1, k, h2⟩
  · exact absurd h2 hpending
  · have hdrop := handleSubmit_loading T s.lm { s.cm with messageInput := text } h1
    refine ⟨by rw [h2]; rfl, h1, hdrop, ?_⟩
    exact step_submit_ignored T (Session.step T s (.input text)) hdrop

/-- C5: a submission whose input is empty or holds only white space returns at the second
guard (or at the first): the session is unchanged, so nothing is appended to the history or
the chat window, no placeholder is added, the loading flag keeps its value and
`sendChatMessage` is not called. -/
theorem blank_submit_ignored (T : Translations) (s : Session)
    (hblank : ∀ c ∈ s.cm.messageInput.data, isWhiteSpace c = true) :
    handleSubmit T s.lm s.cm = (s.cm, .ignored) ∧ Session.step T s .submit = s := by
  have h := handleSubmit_blank T s.lm s.cm (trim_of_whiteSpace _ hblank)
  exact ⟨h, step_submit_ignored T s h⟩

/-- C6 (the code departs from it): submitting `hi`, calling `clearChat` while the request is in
flight and then letting the request resolve with `ok` leaves a history of two turns while the
chat window shows the welcome block and no bubble, so the history and the display are not in
lock-step. -/
theorem clearChat_while_pending_breaks_lockStep :
    (Session.run sampleTranslations (Session.start "en" [Node.welcome "Welcome" "Ask me"] "")
        [.input "hi", .submit, .clearChat, .resolve 0 "ok"]).cm.history =
      [Turn.mk "user" "hi", Turn.mk "assistant" "ok"] ∧
    (Session.run sampleTranslations (Session.start "en" [Node.welcome "Welcome" "Ask me"] "")
        [.input "hi", .submit, .clearChat, .resolve 0 "ok"]).cm.chatWindow =
      [Node.welcome "Welcome" "chat-welcome-desc"] ∧
    (Session.run sampleTranslations (Session.start "en" [Node.welcome "Welcome" "Ask me"] "")
        [.input "hi", .submit, .clearChat]).inFlight ≠ [] ∧
    ¬ (Session.run sampleTranslations (Session.start "en" [Node.welcome "Welcome" "Ask me"] "")
        [.input "hi", .submit, .clearChat]).LockStep ∧
    ¬ (Session.run sampleTranslations (Session.start "en" [Node.welcome "Welcome" "Ask me"] "")
        [.input "hi", .submit, .clearChat, .resolve 0 "ok"]).LockStep := by
  have h3 : Session.run sampleTranslations
      (Session.start "en" [Node.welcome "Welcome" "Ask me"] "")
      [.input "hi", .submit, .clearChat] =
      { lm := LanguageManager.mk "en"
        cm := { history := [], isLoading := true,
                chatWindow := [Node.welcome "Welcome" "chat-welcome-desc"],
                messageInput := "", created := 2 }
        inFlight := [Suspended.mk "hi" 1]
        requests := [("hi", [])] } := by decide
  have h4 : Session.run sampleTranslations
      (Session.start "en" [Node.welcome "Welcome" "Ask me"] "")
      [.input "hi", .submit, .clearChat, .resolve 0 "ok"] =
      { lm := LanguageManager.mk "en"
        cm := { history := [Turn.mk "user" "hi", Turn.mk "assistant" "ok"], isLoading := false,
                chatWindow := [Node.welcome "Welcome" "chat-welcome-desc"],
                messageInput := "", created := 2 }
        inFlight := []
        requests := [("hi", [])] } := by decide
  rw [h3, h4]
  refine ⟨rfl, rfl, by simp, ?_, ?_⟩
  · rintro ⟨_, h⟩
    obtain ⟨id, c, html, hlast⟩ := h (by simp)
    simp at hlast
  · rintro ⟨h, _⟩
    simp [messageBubbles] at h

/-- C7: `clearChat` leaves the history empty and the chat window holding the welcome block
alone.  While the chat window holds the welcome block alone, a request that settles, a further
`clearChat`, a language change and a submission that is ignored leave it so, and a submission
that is accepted replaces the welcome block: the chat window then holds exactly the new user
bubble followed by its loading placeholder. -/
theorem clearChat_resets (T : Translations) (lm : LanguageManager) (cm : ChatManager)
    (title desc : String)
    (htitle : getTranslation T lm "chat-welcome-title" = .ok title)
    (hdesc : getTranslation T lm "chat-welcome-desc" = .ok desc) :
    clearChat T lm cm =
      ({ cm with history := [], chatWindow := [Node.welcome title desc] }, none) ∧
    ∀ (next : ChatManager) (t d : String), next.chatWindow = [Node.welcome t d] →
      (∀ k a, (handleSubmitResolved next k a).chatWindow = [Node.welcome t d]) ∧
      (∀ lm2 k, (handleSubmitRejected T lm2 next k).1.chatWindow = [Node.welcome t d]) ∧
      (∀ lm2, (updateLoadingMessages T lm2 next).1.chatWindow = [Node.welcome t d]) ∧
      (∀ lm2, ∃ t2 d2, (clearChat T lm2 next).1.chatWindow = [Node.welcome t2 d2]) ∧
      (∀ lm2, (handleSubmit T lm2 next).2 = .ignored → (handleSubmit T lm2 next).1 = next) ∧
      (∀ lm2 cm1 message history loadingDiv,
        handleSubmit T lm2 next = (cm1, .awaiting message history loadingDiv) →
        ∃ thinking, getTranslation T lm2 "thinking" = .ok thinking ∧
          cm1.chatWindow =
            [Node.bubble next.created (bubbleClass "user") (setMessageContent message) false,
             Node.bubble loadingDiv (bubbleClass "ai") (loadingHtml thinking) true]) := by
  refine ⟨?_, ?_⟩
  · unfold clearChat
    rw [htitle, hdesc]
  · intro next t d hnext
    refine ⟨?_, ?_, ?_, ?_, ?_, ?_⟩
    · intro k a
      exact updateMessage_welcome next t d k.loadingDiv a hnext
    · intro lm2 k
      unfold handleSubmitRejected
      cases getTranslation T lm2 "connection-failed" with
      | error e => exact hnext
      | ok text => exact updateMessage_welcome next t d k.loadingDiv text hnext
    · intro lm2
      unfold updateLoadingMessages
      simp [hnext]
    · intro lm2
      unfold clearChat
      cases getTranslation T lm2 "chat-welcome-title" with
      | error e => exact ⟨t, d, hnext⟩
      | ok t2 =>
        cases getTranslation T lm2 "chat-welcome-desc" with
        | error e => exact ⟨t, d, hnext⟩
        | ok d2 => exact ⟨t2, d2, rfl⟩
    · intro lm2 hign
      by_cases hl : next.isLoading = true
      · rw [handleSubmit_loading T lm2 next hl]
      · have hl2 : next.isLoading = false := by simpa using hl
        by_cases hm : trim next.messageInput = ""
        · rw [handleSubmit_blank T lm2 next hm]
        · cases ht : getTranslation T lm2 "thinking" with
          | error e =>
            rw [(handleSubmit_throws T lm2 next e hl2 hm ht).1] at hign
            cases hign
          | ok thinking =>
            rw [handleSubmit_accepts T lm2 next thinking hl2 hm ht] at hign
            cases hign
    · intro lm2 cm1 message history loadingDiv hsub
      obtain ⟨_, _, hm, _, hld, thinking, hth, hcm1⟩ :=
        handleSubmit_awaiting T lm2 next cm1 message history loadingDiv hsub
      refine ⟨thinking, hth, ?_⟩
      subst hcm1 hm hld
      simp [afterSubmit, hnext, hasWelcome]

/-- C8: for every state reached from the constructor and every submission accepted there, the
`message` argument of `sendChatMessage` is the trimmed input and the `history` argument is the
history of the manager at that moment, which is the list of the turns of the exchanges that
resolved since the last `clearChat`, in order: a submission and a rejected request add nothing
to it. -/
theorem request_carries_prior_history (T : Translations) (lang : String) (page : List Node)
    (input : String) (events : List Event) (cm1 : ChatManager) (message : String)
    (history : List Turn) (loadingDiv : Nat)
    (hsubmit : handleSubmit T (Session.run T (Session.start lang page input) events).lm
        (Session.run T (Session.start lang page input) events).cm =
      (cm1, .awaiting message history loadingDiv)) :
    message = trim (Session.run T (Session.start lang page input) events).cm.messageInput ∧
    history = (Session.run T (Session.start lang page input) events).cm.history ∧
    history = Session.successfulTurns T (Session.start lang page input) [] events ∧
    (Session.step T (Session.run T (Session.start lang page input) events) .submit).requests =
      (Session.run T (Session.start lang page input) events).requests ++ [(message, history)] ∧
    cm1.history = history := by
  have hrun := run_history T events (Session.start lang page input) [] rfl
  generalize Session.run T (Session.start lang page input) events = s at hsubmit hrun
  obtain ⟨_, _, hm, hh, _, thinking, _, hcm1⟩ :=
    handleSubmit_awaiting T s.lm s.cm cm1 message history loadingDiv hsubmit
  refine ⟨hm, hh, hh.trans hrun, ?_, ?_⟩
  · simp only [Session.step, hsubmit]
  · rw [hcm1, hh]; rfl

/-- C9: when the table of the current language has no entry for a key, `getTranslation`
returns the key itself; when it has a non-empty entry, it returns that entry. -/
theorem getTranslation_falls_back_to_key (T : Translations) (lm : LanguageManager)
    (key : String) (table : String → Option String)
    (htable : T lm.currentLang = some table) :
    (table key = none → getTranslation T lm key = .ok key) ∧
    (∀ text, table key = some text → text ≠ "" → getTranslation T lm key = .ok text) := by
  unfold getTranslation
  rw [htable]
  refine ⟨?_, ?_⟩
  · intro h; simp [h]
  · intro text h hne; simp [h, hne]

/-- C10 (the code departs from it): with the persisted preference `fr`, for which the table
has no language, the constructor run while the document is loading yields a manager whose
current language is `fr`, and so does `switchLanguage('fr')` once its timer has fired; in both
states `getTranslation` throws a `TypeError` instead of returning a string. -/
theorem getTranslation_throws_without_language :
    LanguageManager.create sampleTranslations (LocalStorage.mk false (some "fr"))
        (Navigator.mk (some "en-US") none) sampleDocument =
      .ok (LanguageManager.mk "fr", sampleDocument) ∧
    getTranslation sampleTranslations (LanguageManager.mk "fr") "thinking" = .error .typeError ∧
    (LanguageSystem.timerFires sampleTranslations
        (LanguageSystem.switchLanguage
          { lm := LanguageManager.mk "en", doc := sampleDocument,
            storage := LocalStorage.mk false none, timers := [], dispatched := [] } "fr")).1.lm =
      LanguageManager.mk "fr" ∧
    ∀ key, getTranslation sampleTranslations
      (LanguageSystem.timerFires sampleTranslations
        (LanguageSystem.switchLanguage
          { lm := LanguageManager.mk "en", doc := sampleDocument,
            storage := LocalStorage.mk false none, timers := [], dispatched := [] } "fr")).1.lm
      key = .error .typeError := by
  have h : (LanguageSystem.timerFires sampleTranslations
        (LanguageSystem.switchLanguage
          { lm := LanguageManager.mk "en", doc := sampleDocument,
            storage := LocalStorage.mk false none, timers := [], dispatched := [] } "fr")).1.lm =
      LanguageManager.mk "fr" := by decide
  refine ⟨rfl, rfl, h, ?_⟩
  intro key
  rw [h]
  rfl

theorem sampleChat_wellFormed : sampleChat.WellFormed := by
  intro id c h l hm
  simp [sampleChat] at hm
  rcases hm with ⟨rfl, _⟩ | ⟨rfl, _⟩ <;> simp [sampleChat]

theorem setMessageContent_escapes_witness :
    (setMessageContent "<script>alert(1)</script>\n&").data.count '<' = 1 ∧
    setMessageContent "<script>alert(1)</script>\n&" =
      "&lt;script&gt;alert(1)&lt;/script&gt;<br>&amp;" :=
  ⟨(setMessageContent_escapes "<script>alert(1)</script>\n&").2.2.1, by decide⟩

theorem rejected_turn_keeps_history_witness :
    handleSubmit sampleTranslations (LanguageManager.mk "en") sampleChat =
      (afterSubmit sampleChat "Thinking...", .awaiting "pods?" sampleChat.history 3) ∧
    getTranslation sampleTranslations (LanguageManager.mk "zh") "connection-failed" =
      .ok "連線失敗" ∧
    (handleSubmitRejected sampleTranslations (LanguageManager.mk "zh")
      (afterSubmit sampleChat "Thinking...") (Suspended.mk "pods?" 3)).1.history =
      [Turn.mk "user" "hello", Turn.mk "assistant" "hi"] :=
  ⟨by decide, rfl,
    (rejected_turn_keeps_history sampleTranslations (LanguageManager.mk "en")
      (LanguageManager.mk "zh") sampleChat (afterSubmit sampleChat "Thinking...") "pods?"
      sampleChat.history 3 "連線失敗" sampleChat_wellFormed (by decide) rfl).2.1⟩

theorem resolved_turn_appends_two_witness :
    handleSubmit sampleTranslations (LanguageManager.mk "en") sampleChat =
      (afterSubmit sampleChat "Thinking...", .awaiting "pods?" sampleChat.history 3) ∧
    (handleSubmitResolved (afterSubmit sampleChat "Thinking...") (Suspended.mk "pods?" 3)
      "3 pods\nall ready").history =
      [Turn.mk "user" "hello", Turn.mk "assistant" "hi", Turn.mk "user" "pods?",
       Turn.mk "assistant" "3 pods\nall ready"] :=
  ⟨by decide,
    (resolved_turn_appends_two sampleTranslations (LanguageManager.mk "en") sampleChat
      (afterSubmit sampleChat "Thinking...") "pods?" sampleChat.history 3 "3 pods\nall ready"
      sampleChat_wellFormed (by decide)).2.1⟩

theorem pending_submit_dropped_witness :
    (Session.run sampleTranslations (Session.start "en" [] "") [.input "hi", .submit]).inFlight
      ≠ [] ∧
    Session.step sampleTranslations
        (Session.step sampleTranslations
          (Session.run sampleTranslations (Session.start "en" [] "") [.input "hi", .submit])
          (.input "again"))
        .submit =
      Session.step sampleTranslations
        (Session.run sampleTranslations (Session.start "en" [] "") [.input "hi", .submit])
        (.input "again") :=
  ⟨by decide,
    (pending_submit_dropped sampleTranslations "en" [] "" [.input "hi", .submit] "again"
      (by decide)).2.2.2⟩

theorem blank_submit_ignored_witness :
    (∀ c ∈ (Session.start "en" [] " \t\n").cm.messageInput.data, isWhiteSpace c = true) ∧
    Session.step sampleTranslations (Session.start "en" [] " \t\n") .submit =
      Session.start "en" [] " \t\n" :=
  ⟨by decide,
    (blank_submit_ignored sampleTranslations (Session.start "en" [] " \t\n") (by decide)).2⟩

theorem clearChat_resets_witness :
    getTranslation sampleTranslations (LanguageManager.mk "en") "chat-welcome-title" =
      .ok "Welcome" ∧
    getTranslation sampleTranslations (LanguageManager.mk "en") "chat-welcome-desc" =
      .ok "chat-welcome-desc" ∧
    clearChat sampleTranslations (LanguageManager.mk "en") sampleChat =
      ({ sampleChat with
          history := [], chatWindow := [Node.welcome "Welcome" "chat-welcome-desc"] }, none) :=
  ⟨rfl, rfl,
    (clearChat_resets sampleTranslations (LanguageManager.mk "en") sampleChat "Welcome"
      "chat-welcome-desc" rfl rfl).1⟩

theorem request_carries_prior_history_witness :
    handleSubmit sampleTranslations (Session.run sampleTranslations (Session.start "en" [] "")
          sampleEvents).lm
        (Session.run sampleTranslations (Session.start "en" [] "") sampleEvents).cm =
      (afterSubmit (Session.run sampleTranslations (Session.start "en" [] "") sampleEvents).cm
          "Thinking...",
        .awaiting "d" [Turn.mk "user" "b", Turn.mk "assistant" "c"] 5) ∧
    [Turn.mk "user" "b", Turn.mk "assistant" "c"] =
      Session.successfulTurns sampleTranslations (Session.start "en" [] "") [] sampleEvents :=
  ⟨by decide,
    (request_carries_prior_history sampleTranslations "en" [] "" sampleEvents
      (afterSubmit (Session.run sampleTranslations (Session.start "en" [] "") sampleEvents).cm
        "Thinking...")
      "d" [Turn.mk "user" "b", Turn.mk "assistant" "c"] 5 (by decide)).2.2.1⟩

theorem getTranslation_falls_back_to_key_witness :
    getTranslation sampleTranslations (LanguageManager.mk "zh") "no-data" = .ok "no-data" ∧
    getTranslation sampleTranslations (LanguageManager.mk "zh") "thinking" = .ok "思考中..." :=
  ⟨(getTranslation_falls_back_to_key sampleTranslations (LanguageManager.mk "zh") "no-data"
      (fun key =>
        if key = "thinking" then some "思考中..."
        else if key = "connection-failed" then some "連線失敗"
        else none) rfl).1 rfl,
   (getTranslation_falls_back_to_key sampleTranslations (LanguageManager.mk "zh") "thinking"
      (fun key =>
        if key = "thinking" then some "思考中..."
        else if key = "connection-failed" then some "連線失敗"
        else none) rfl).2 "思考中..." rfl (by decide)⟩

theorem mem_nodeIds (w : List Node) (id : Nat) :
    id ∈ nodeIds w ↔ ∃ c h l, Node.bubble id c h l ∈ w := by
  unfold nodeIds
  simp only [List.mem_filterMap]
  constructor
  · rintro ⟨n, hn, hid⟩
    cases n with
    | welcome t d => simp at hid
    | bubble i c h l =>
      simp at hid
      subst hid
      exact ⟨c, h, l, hn⟩
  · rintro ⟨c, h, l, hm⟩
    exact ⟨_, hm, rfl⟩

theorem map_update_of_not_mem (w : List Node) (element : Nat) (content : String)
    (h : element ∉ nodeIds w) :
    w.map (fun n => match n with
      | .bubble id className innerHTML dataLoading =>
        if id = element then Node.bubble id className (setMessageContent content) false
        else Node.bubble id className innerHTML dataLoading
      | .welcome title desc => Node.welcome title desc) = w := by
  apply map_update_fresh
  intro id c html l hm hid
  subst hid
  exact h ((mem_nodeIds w id).2 ⟨c, html, l, hm⟩)

theorem nodeIds_map_loading (w : List Node) (thinking : String) :
    nodeIds (w.map (fun n => match n with
      | .bubble id className innerHTML dataLoading =>
        if dataLoading = true then Node.bubble id className (loadingHtml thinking) true
        else Node.bubble id className innerHTML dataLoading
      | .welcome title desc => Node.welcome title desc)) = nodeIds w := by
  induction w with
  | nil => rfl
  | cons n t ih =>
    unfold nodeIds at ih ⊢
    cases n with
    | welcome title desc => simpa using ih
    | bubble id c html l =>
      cases l <;> simpa using ih

theorem messageBubbles_map_loading (w : List Node) (thinking : String) :
    messageBubbles (w.map (fun n => match n with
      | .bubble id className innerHTML dataLoading =>
        if dataLoading = true then Node.bubble id className (loadingHtml thinking) true
        else Node.bubble id className innerHTML dataLoading
      | .welcome title desc => Node.welcome title desc)) = messageBubbles w := by
  induction w with
  | nil => rfl
  | cons n t ih =>
    unfold messageBubbles at ih ⊢
    cases n with
    | welcome title desc => simpa using ih
    | bubble id c html l =>
      cases l <;> simpa using ih

theorem hasWelcome_map_loading (w : List Node) (thinking : String) :
    hasWelcome (w.map (fun n => match n with
      | .bubble id className innerHTML dataLoading =>
        if dataLoading = true then Node.bubble id className (loadingHtml thinking) true
        else Node.bubble id className innerHTML dataLoading
      | .welcome title desc => Node.welcome title desc)) = hasWelcome w := by
  induction w with
  | nil => rfl
  | cons n t ih =>
    unfold hasWelcome at ih ⊢
    cases n with
    | welcome title desc => simp
    | bubble id c html l =>
      cases l <;> simpa using ih

theorem handleSubmit_throws_state (T : Translations) (lm : LanguageManager) (cm : ChatManager)
    (e : JsError) (hl : cm.isLoading = false) (hm : trim cm.messageInput ≠ "")
    (ht : getTranslation T lm "thinking" = .error e) :
    (handleSubmit T lm cm).1 =
      { cm with
        chatWindow := (if hasWelcome cm.chatWindow = true then [] else cm.chatWindow) ++
          [Node.bubble cm.created (bubbleClass "user")
            (setMessageContent (trim cm.messageInput)) false]
        messageInput := ""
        created := cm.created + 2 } := by
  unfold handleSubmit
  simp only [hl, hm, Bool.false_eq_true, if_false, addMessage_plain]
  rw [addMessage_loading_throws T lm _ "ai" "" e _ ht]
  simp [hasWelcome_append_bubble, hasWelcome_kept]

theorem nodeIds_kept_lt (cm : ChatManager) (h : ∀ id ∈ nodeIds cm.chatWindow, id < cm.created) :
    ∀ id ∈ nodeIds (if hasWelcome cm.chatWindow = true then [] else cm.chatWindow),
      id < cm.created := by
  by_cases hw : hasWelcome cm.chatWindow = true
  · rw [if_pos hw]; intro id hid; simp [nodeIds] at hid
  · rw [if_neg hw]; exact h

theorem sublist_kept (cm : ChatManager)
    (hw : hasWelcome cm.chatWindow = true → cm.history = [])
    (hs : (cm.history.map shownAs).Sublist (messageBubbles cm.chatWindow)) :
    (cm.history.map shownAs).Sublist
      (messageBubbles (if hasWelcome cm.chatWindow = true then [] else cm.chatWindow)) := by
  by_cases h : hasWelcome cm.chatWindow = true
  · rw [if_pos h, hw h]; exact List.nil_sublist _
  · rw [if_neg h]; exact hs

theorem nodeIds_append (a b : List Node) : nodeIds (a ++ b) = nodeIds a ++ nodeIds b := by
  simp [nodeIds, List.filterMap_append]

theorem messageBubbles_append (a b : List Node) :
    messageBubbles (a ++ b) = messageBubbles a ++ messageBubbles b := by
  simp [messageBubbles, List.filterMap_append]

theorem hasWelcome_append (a b : List Node) :
    hasWelcome (a ++ b) = (hasWelcome a || hasWelcome b) := by
  simp [hasWelcome, List.any_append]

theorem tracked_lockStep (s : Session) (h : s.Tracked) : s.LockStep := by
  obtain ⟨_, h⟩ := h
  rcases h with ⟨_, _, hfl, hs⟩ | ⟨_, k, shown, user, html, hfl, hw, _, _, _, hs⟩
  · exact ⟨hs, fun hne => absurd hfl hne⟩
  · refine ⟨?_, fun _ => ⟨k.loadingDiv, bubbleClass "ai", html, by simp [hw]⟩⟩
    rw [hw, messageBubbles_append]
    exact hs.trans (List.sublist_append_left _ _)

theorem step_tracked_submit (T : Translations) (s : Session) (h : s.Tracked) :
    (Session.step T s .submit).Tracked := by
  by_cases hl : s.cm.isLoading = true
  · rw [step_submit_ignored T s (handleSubmit_loading T s.lm s.cm hl)]; exact h
  · have hl2 : s.cm.isLoading = false := by simpa using hl
    by_cases hm : trim s.cm.messageInput = ""
    · rw [step_submit_ignored T s (handleSubmit_blank T s.lm s.cm hm)]; exact h
    · obtain ⟨hids, hcase⟩ := h
      rcases hcase with ⟨hw, hl3, hfl, hs⟩ | ⟨h1, _⟩
      swap
      · rw [hl2] at h1; cases h1
      have hkept := nodeIds_kept_lt s.cm hids
      have hsub := sublist_kept s.cm hw hs
      cases ht : getTranslation T s.lm "thinking" with
      | error e =>
        rw [step_submit_throws T s e hl2 hm ht, handleSubmit_throws_state T s.lm s.cm e hl2 hm ht]
        refine ⟨?_, Or.inl ⟨?_, hl3, hfl, ?_⟩⟩
        · intro id hid
          simp only [nodeIds_append, List.mem_append] at hid
          rcases hid with hid | hid
          · have := hkept id hid
            show id < s.cm.created + 2
            omega
          · simp [nodeIds] at hid
            show id < s.cm.created + 2
            omega
        · intro hwel
          simp [hasWelcome_append_bubble, hasWelcome_kept] at hwel
        · show (s.cm.history.map shownAs).Sublist (messageBubbles (_ ++ _))
          rw [messageBubbles_append]
          exact hsub.trans (List.sublist_append_left _ _)
      | ok thinking =>
        rw [step_submit_accepts T s thinking hl2 hm ht]
        refine ⟨?_, Or.inr ⟨rfl, Suspended.mk (trim s.cm.messageInput) (s.cm.created + 1), _,
          s.cm.created, loadingHtml thinking, by simp [hfl], rfl, hasWelcome_kept _, ?_, ?_, hsub⟩⟩
        · intro id hid
          simp only [afterSubmit, nodeIds_append, List.mem_append] at hid
          rcases hid with hid | hid
          · have := hkept id hid
            show id < s.cm.created + 2
            omega
          · simp [nodeIds] at hid
            show id < s.cm.created + 2
            omega
        · intro hmem
          have := hkept _ hmem
          simp at this
        · show s.cm.created ≠ s.cm.created + 1
          omega

theorem step_tracked_clearChat (T : Translations) (s : Session) (hidle : s.inFlight = [])
    (h : s.Tracked) : (Session.step T s .clearChat).Tracked := by
  obtain ⟨hids, hcase⟩ := h
  rcases hcase with ⟨_, hl, hfl, _⟩ | ⟨_, k, _, _, _, hfl, _⟩
  swap
  · rw [hidle] at hfl; cases hfl
  simp only [Session.step, clearChat]
  cases getTranslation T s.lm "chat-welcome-title" with
  | error e => exact ⟨hids, Or.inl ⟨fun _ => rfl, hl, hfl, List.nil_sublist _⟩⟩
  | ok title =>
    cases getTranslation T s.lm "chat-welcome-desc" with
    | error e => exact ⟨hids, Or.inl ⟨fun _ => rfl, hl, hfl, List.nil_sublist _⟩⟩
    | ok desc =>
      refine ⟨?_, Or.inl ⟨fun _ => rfl, hl, hfl, List.nil_sublist _⟩⟩
      intro id hid
      simp [nodeIds] at hid

theorem updateMessage_pending (cm : ChatManager) (shown : List Node) (user element : Nat)
    (message html content : String)
    (hw : cm.chatWindow = shown ++
      [Node.bubble user (bubbleClass "user") (setMessageContent message) false,
       Node.bubble element (bubbleClass "ai") html true])
    (hfresh : element ∉ nodeIds shown) (hne : user ≠ element) :
    (updateMessage cm element content).chatWindow = shown ++
      [Node.bubble user (bubbleClass "user") (setMessageContent message) false,
       Node.bubble element (bubbleClass "ai") (setMessageContent content) false] := by
  unfold updateMessage
  simp only [hw, List.map_append]
  rw [map_update_of_not_mem shown element content hfresh]
  simp [hne]

theorem nodeIds_pending (shown : List Node) (user element : Nat) (c1 h1 c2 h2 : String)
    (l1 l2 : Bool) :
    nodeIds (shown ++ [Node.bubble user c1 h1 l1, Node.bubble element c2 h2 l2]) =
      nodeIds shown ++ [user, element] := by
  simp [nodeIds]

theorem tracked_of_settled (s : Session) (cm : ChatManager) (k : Suspended)
    (shown : List Node) (user : Nat) (html : String) (l : Bool) (lm : LanguageManager)
    (inFlight : List Suspended) (requests : List (String × List Turn))
    (hids : ∀ id ∈ nodeIds s.cm.chatWindow, id < s.cm.created)
    (hwin : cm.chatWindow = shown ++
      [Node.bubble user (bubbleClass "user") (setMessageContent k.message) false,
       Node.bubble k.loadingDiv (bubbleClass "ai") html l])
    (hsame : nodeIds cm.chatWindow = nodeIds s.cm.chatWindow) (hcreated : cm.created = s.cm.created)
    (hwel : hasWelcome shown = false) (hl : cm.isLoading = false) (hfl : inFlight = [])
    (hs : (cm.history.map shownAs).Sublist (messageBubbles cm.chatWindow)) :
    Session.Tracked { lm := lm, cm := cm, inFlight := inFlight, requests := requests } := by
  refine ⟨?_, Or.inl ⟨?_, hl, hfl, hs⟩⟩
  · intro id hid
    show id < cm.created
    rw [hcreated]
    exact hids id (hsame ▸ hid)
  · intro h
    rw [show ({ lm := lm, cm := cm, inFlight := inFlight, requests := requests } :
      Session).cm.chatWindow = cm.chatWindow from rfl, hwin, hasWelcome_append, hwel] at h
    simp [hasWelcome] at h

theorem shownAs_exchange (history : List Turn) (message assistant : String) :
    (history ++ [Turn.mk "user" message, Turn.mk "assistant" assistant]).map shownAs =
      history.map shownAs ++
        [(bubbleClass "user", setMessageContent message),
         (bubbleClass "ai", setMessageContent assistant)] := by
  simp [shownAs]

theorem step_tracked_resolve (T : Translations) (s : Session) (i : Nat) (assistant : String)
    (h : s.Tracked) : (Session.step T s (.resolve i assistant)).Tracked := by
  obtain ⟨hids, hcase⟩ := h
  rcases hcase with ⟨hw, hl, hfl, hs⟩ | ⟨hl, k, shown, user, html, hfl, hwin, hwel, hfresh, hne, hs⟩
  · simp only [Session.step, hfl, List.getElem?_nil]
    exact ⟨hids, Or.inl ⟨hw, hl, hfl, hs⟩⟩
  · cases i with
    | succ j =>
      simp only [Session.step, hfl, List.getElem?_cons_succ, List.getElem?_nil]
      exact ⟨hids, Or.inr ⟨hl, k, shown, user, html, hfl, hwin, hwel, hfresh, hne, hs⟩⟩
    | zero =>
      simp only [Session.step, hfl, List.getElem?_cons_zero]
      have hupd := updateMessage_pending s.cm shown user k.loadingDiv k.message html assistant
        hwin hfresh hne
      have hwin2 : (handleSubmitResolved s.cm k assistant).chatWindow = shown ++
          [Node.bubble user (bubbleClass "user") (setMessageContent k.message) false,
           Node.bubble k.loadingDiv (bubbleClass "ai") (setMessageContent assistant) false] :=
        hupd
      apply tracked_of_settled s _ k shown user (setMessageContent assistant) false _ _ _ hids
        hwin2 _ rfl hwel rfl (by simp)
      · show ((s.cm.history ++ _).map shownAs).Sublist _
        rw [hwin2, shownAs_exchange, messageBubbles_append]
        exact List.Sublist.append hs (by simp [messageBubbles])
      · rw [hwin2, hwin, nodeIds_pending, nodeIds_pending]

theorem step_tracked_reject (T : Translations) (s : Session) (i : Nat)
    (h : s.Tracked) : (Session.step T s (.reject i)).Tracked := by
  obtain ⟨hids, hcase⟩ := h
  rcases hcase with ⟨hw, hl, hfl, hs⟩ | ⟨hl, k, shown, user, html, hfl, hwin, hwel, hfresh, hne, hs⟩
  · simp only [Session.step, hfl, List.getElem?_nil]
    exact ⟨hids, Or.inl ⟨hw, hl, hfl, hs⟩⟩
  · cases i with
    | succ j =>
      simp only [Session.step, hfl, List.getElem?_cons_succ, List.getElem?_nil]
      exact ⟨hids, Or.inr ⟨hl, k, shown, user, html, hfl, hwin, hwel, hfresh, hne, hs⟩⟩
    | zero =>
      simp only [Session.step, hfl, List.getElem?_cons_zero]
      have hsub : ∀ (h2 : String) (l2 : Bool), (s.cm.history.map shownAs).Sublist
          (messageBubbles (shown ++
            [Node.bubble user (bubbleClass "user") (setMessageContent k.message) false,
             Node.bubble k.loadingDiv (bubbleClass "ai") h2 l2])) := by
        intro h2 l2
        rw [messageBubbles_append]
        exact hs.trans (List.sublist_append_left _ _)
      cases ht : getTranslation T s.lm "connection-failed" with
      | error e =>
        simp only [handleSubmitRejected, ht]
        apply tracked_of_settled s { s.cm with isLoading := false } k shown user html true _ _ _
          hids hwin rfl rfl hwel rfl (by simp)
        show (s.cm.history.map shownAs).Sublist (messageBubbles s.cm.chatWindow)
        rw [hwin]; exact hsub _ _
      | ok text =>
        simp only [handleSubmitRejected, ht]
        have hwin2 := updateMessage_pending s.cm shown user k.loadingDiv k.message html text
          hwin hfresh hne
        apply tracked_of_settled s { updateMessage s.cm k.loadingDiv text with isLoading := false }
          k shown user (setMessageContent text) false _ _ _ hids hwin2 _ rfl hwel rfl (by simp)
        · show (s.cm.history.map shownAs).Sublist
            (messageBubbles (updateMessage s.cm k.loadingDiv text).chatWindow)
          rw [hwin2]; exact hsub _ _
        · show nodeIds (updateMessage s.cm k.loadingDiv text).chatWindow = _
          rw [hwin2, hwin, nodeIds_pending, nodeIds_pending]

theorem step_tracked_languageChanged (T : Translations) (s : Session) (h : s.Tracked) :
    (Session.step T s .languageChanged).Tracked := by
  simp only [Session.step, updateLoadingMessages]
  split
  swap
  · exact h
  cases getTranslation T s.lm "thinking" with
  | error e => exact h
  | ok thinking =>
    obtain ⟨hids, hcase⟩ := h
    refine ⟨?_, ?_⟩
    · intro id hid
      have hid2 : id ∈ nodeIds s.cm.chatWindow := by
        rw [← nodeIds_map_loading s.cm.chatWindow thinking]; exact hid
      exact hids id hid2
    · rcases hcase with ⟨hw, hl, hfl, hs⟩ |
        ⟨hl, k, shown, user, html, hfl, hwin, hwel, hfresh, hne, hs⟩
      · refine Or.inl ⟨?_, hl, hfl, ?_⟩
        · intro hwel
          apply hw
          rw [← hasWelcome_map_loading s.cm.chatWindow thinking]; exact hwel
        · show (s.cm.history.map shownAs).Sublist (messageBubbles (List.map _ _))
          rw [messageBubbles_map_loading]; exact hs
      · refine Or.inr ⟨hl, k, _, user, loadingHtml thinking, hfl, ?_,
          (hasWelcome_map_loading shown thinking).trans hwel, ?_, hne, ?_⟩
        · show List.map _ s.cm.chatWindow = _
          rw [hwin, List.map_append]
          rfl
        · rw [nodeIds_map_loading]; exact hfresh
        · rw [messageBubbles_map_loading]; exact hs

theorem step_tracked (T : Translations) (s : Session) (e : Event)
    (hclear : e = Event.clearChat → s.inFlight = []) (h : s.Tracked) :
    (Session.step T s e).Tracked := by
  cases e with
  | input text => exact h
  | submit => exact step_tracked_submit T s h
  | clearChat => exact step_tracked_clearChat T s (hclear rfl) h
  | resolve i assistant => exact step_tracked_resolve T s i assistant h
  | reject i => exact step_tracked_reject T s i h
  | language lang => exact h
  | languageChanged => exact step_tracked_languageChanged T s h

theorem run_tracked (T : Translations) (events : List Event) :
    ∀ s : Session, s.Tracked → Session.ClearsWhenIdle T s events →
      (Session.run T s events).Tracked := by
  induction events with
  | nil => intro s h _; exact h
  | cons e es ih =>
    intro s h hc
    exact ih (Session.step T s e) (step_tracked T s e hc.1 h) hc.2

/-- The lock-step invariant holds in every state reached from the constructor, on a page
whose chat window holds no bubble yet, by events among which `clearChat` is never called
while a request is in flight. -/
theorem lockStep_when_clears_idle (T : Translations) (lang : String) (page : List Node)
    (input : String) (events : List Event) (hpage : nodeIds page = [])
    (hclear : Session.ClearsWhenIdle T (Session.start lang page input) events) :
    (Session.run T (Session.start lang page input) events).LockStep := by
  apply tracked_lockStep
  apply run_tracked T events _ _ hclear
  refine ⟨?_, Or.inl ⟨fun _ => rfl, rfl, rfl, List.nil_sublist _⟩⟩
  intro id hid
  have : id ∈ nodeIds page := hid
  rw [hpage] at this
  cases this

/-! ## Properties of the language manager and of the API service -/

theorem translateElement_of_table (T : Translations) (lm : LanguageManager)
    (table : String → Option String) (el : TaggedElement) (h : T lm.currentLang = some table) :
    translateElement T lm el = .ok (applyTable table el) := by
  unfold translateElement applyTable
  simp only [h]
  cases hk : table el.key with
  | none => rfl
  | some text => by_cases ht : text = "" <;> simp [ht]

theorem mapM_translateElement (T : Translations) (lm : LanguageManager)
    (table : String → Option String) (h : T lm.currentLang = some table) :
    ∀ els : List TaggedElement,
      els.mapM (translateElement T lm) = .ok (els.map (applyTable table)) := by
  intro els
  induction els with
  | nil => rfl
  | cons el rest ih =>
    rw [List.mapM_cons, translateElement_of_table T lm table el h, ih]
    rfl

theorem updateTexts_of_table (T : Translations) (lm : LanguageManager)
    (table : String → Option String) (doc : Document) (h : T lm.currentLang = some table) :
    updateTexts T lm doc = .ok { doc with dataLang := doc.dataLang.map (applyTable table) } := by
  unfold updateTexts
  rw [mapM_translateElement T lm table h]

theorem updatePlaceholders_of_table (T : Translations) (lm : LanguageManager)
    (table : String → Option String) (doc : Document) (h : T lm.currentLang = some table) :
    updatePlaceholders T lm doc =
      .ok { doc with dataLangPlaceholder := doc.dataLangPlaceholder.map (applyTable table) } := by
  unfold updatePlaceholders
  rw [mapM_translateElement T lm table h]

theorem initializeLanguage_of_table (T : Translations) (lm : LanguageManager)
    (table : String → Option String) (doc : Document) (h : T lm.currentLang = some table) :
    ∃ d, initializeLanguage T lm doc = .ok d := by
  unfold initializeLanguage
  rw [updateTexts_of_table T lm table doc h]
  exact ⟨_, updatePlaceholders_of_table T lm table _ h⟩

theorem jsOr_detect (nav : Navigator) :
    jsOr (some (detectBrowserLanguage nav)) "en" =
      if ['z', 'h'].isPrefixOf (browserLocale nav).data then "zh" else "en" := by
  unfold detectBrowserLanguage browserLocale
  generalize jsOr nav.language (jsOr nav.userLanguage "") = locale
  by_cases h : ['z', 'h'].isPrefixOf locale.data = true
  · simp only [h, if_true]; rfl
  · simp only [h, if_false]; rfl

theorem initial_currentLang (ls : LocalStorage) (nav : Navigator) :
    jsOr (getSavedLanguage ls) (jsOr (some (detectBrowserLanguage nav)) "en") =
      resolveInitialLanguage (if ls.blocked = true then none else ls.language)
        (browserLocale nav) := by
  rw [jsOr_detect]
  unfold getSavedLanguage resolveInitialLanguage
  generalize (if ls.blocked = true then none else ls.language) = persisted
  cases persisted with
  | none => rfl
  | some p => by_cases hp : p = "" <;> simp [jsOr, hp]

theorem create_currentLang (T : Translations) (ls : LocalStorage) (nav : Navigator)
    (doc : Document) (lm : LanguageManager) (d : Document)
    (h : LanguageManager.create T ls nav doc = .ok (lm, d)) :
    lm = LanguageManager.mk (resolveInitialLanguage
      (if ls.blocked = true then none else ls.language) (browserLocale nav)) := by
  unfold LanguageManager.create at h
  rw [initial_currentLang] at h
  by_cases hr : doc.readyState = "loading"
  · simp only [hr, if_true] at h
    injection h with h
    exact (congrArg Prod.fst h).symm
  · simp only [hr, if_false] at h
    split at h
    · injection h with h
      exact (congrArg Prod.fst h).symm
    · cases h

theorem create_of_loading (T : Translations) (ls : LocalStorage) (nav : Navigator)
    (doc : Document) (h : doc.readyState = "loading") :
    LanguageManager.create T ls nav doc =
      .ok (LanguageManager.mk (resolveInitialLanguage
        (if ls.blocked = true then none else ls.language) (browserLocale nav)), doc) := by
  unfold LanguageManager.create
  rw [initial_currentLang]
  simp only [h, if_true]

theorem create_of_table (T : Translations) (ls : LocalStorage) (nav : Navigator)
    (doc : Document) (table : String → Option String)
    (h : T (resolveInitialLanguage (if ls.blocked = true then none else ls.language)
      (browserLocale nav)) = some table) :
    ∃ d, LanguageManager.create T ls nav doc =
      .ok (LanguageManager.mk (resolveInitialLanguage
        (if ls.blocked = true then none else ls.language) (browserLocale nav)), d) := by
  by_cases hr : doc.readyState = "loading"
  · exact ⟨doc, create_of_loading T ls nav doc hr⟩
  · obtain ⟨d, hd⟩ := initializeLanguage_of_table T
      (LanguageManager.mk (resolveInitialLanguage
        (if ls.blocked = true then none else ls.language) (browserLocale nav))) table doc h
    refine ⟨d, ?_⟩
    unfold LanguageManager.create
    rw [initial_currentLang]
    simp only [hr, if_false, hd]

/-- C11: the language of a manager the constructor returns is a function of the persisted
preference and the browser locale alone: the persisted preference when it can be read and is
not empty, otherwise `zh` when the browser locale starts with `zh`, otherwise `en`.  The
constructor does return such a manager while the document is loading, and whenever the table
has that language.  A storage whose read throws gives what an absent preference gives. -/
theorem initial_language_resolution (T : Translations) (ls : LocalStorage) (nav : Navigator)
    (doc : Document) :
    (∀ lm d, LanguageManager.create T ls nav doc = .ok (lm, d) →
      getCurrentLanguage lm = resolveInitialLanguage
        (if ls.blocked = true then none else ls.language) (browserLocale nav)) ∧
    (doc.readyState = "loading" →
      LanguageManager.create T ls nav doc =
        .ok (LanguageManager.mk (resolveInitialLanguage
          (if ls.blocked = true then none else ls.language) (browserLocale nav)), doc)) ∧
    (∀ table, T (resolveInitialLanguage (if ls.blocked = true then none else ls.language)
        (browserLocale nav)) = some table →
      ∃ d, LanguageManager.create T ls nav doc =
        .ok (LanguageManager.mk (resolveInitialLanguage
          (if ls.blocked = true then none else ls.language) (browserLocale nav)), d)) ∧
    (∀ item, LanguageManager.create T (LocalStorage.mk true item) nav doc =
      LanguageManager.create T (LocalStorage.mk false none) nav doc) := by
  refine ⟨?_, create_of_loading T ls nav doc, create_of_table T ls nav doc, ?_⟩
  · intro lm d h
    rw [create_currentLang T ls nav doc lm d h]
    rfl
  · intro item
    unfold LanguageManager.create getSavedLanguage
    rfl

/-- C12, as stated, fails: with the persisted preference `fr` the constructor, run while the
document is loading, returns a manager whose current language is `fr`, and
`switchLanguage('fr')` on a manager showing English makes `fr` the current language once its
timer has fired; `fr` is neither `zh` nor `en`. -/
theorem currentLanguage_not_always_supported :
    LanguageManager.create sampleTranslations (LocalStorage.mk false (some "fr"))
        (Navigator.mk (some "en-US") none) sampleDocument =
      .ok (LanguageManager.mk "fr", sampleDocument) ∧
    getCurrentLanguage (LanguageManager.mk "fr") = "fr" ∧
    getCurrentLanguage
        (LanguageSystem.timerFires sampleTranslations
          (LanguageSystem.switchLanguage sampleSystem "fr")).1.lm = "fr" ∧
    ¬ Supported "fr" := by
  refine ⟨rfl, rfl, by decide, ?_⟩
  rintro (h | h) <;> exact absurd h (by decide)

/-- C13: `switchLanguage` called with the current language returns at its first line: the
system is unchanged, so nothing is written to the storage, no timer is scheduled, no
`languageChanged` event is dispatched and the current language is what it was. -/
theorem switchLanguage_current_is_noop (s : LanguageSystem) :
    LanguageSystem.switchLanguage s s.lm.currentLang = s ∧
    (LanguageSystem.switchLanguage s s.lm.currentLang).storage = s.storage ∧
    (LanguageSystem.switchLanguage s s.lm.currentLang).timers = s.timers ∧
    (LanguageSystem.switchLanguage s s.lm.currentLang).dispatched = s.dispatched ∧
    getCurrentLanguage (LanguageSystem.switchLanguage s s.lm.currentLang).lm =
      getCurrentLanguage s.lm := by
  have h : LanguageSystem.switchLanguage s s.lm.currentLang = s := by
    unfold LanguageSystem.switchLanguage
    simp
  rw [h]
  exact ⟨rfl, rfl, rfl, rfl, rfl⟩

theorem updateButtons_eq (lm : LanguageManager) (doc : Document) :
    updateButtons lm doc =
      { doc with
        zhBtn := if doc.zhBtn.isSome ∧ doc.enBtn.isSome then
            some (decide (lm.currentLang = "zh")) else doc.zhBtn
        enBtn := if doc.zhBtn.isSome ∧ doc.enBtn.isSome then
            some (decide (lm.currentLang ≠ "zh")) else doc.enBtn } := by
  obtain ⟨readyState, dataLang, dataLangPlaceholder, zhBtn, enBtn, fadeTransition⟩ := doc
  unfold updateButtons
  cases zhBtn with
  | none => simp
  | some z =>
    cases enBtn with
    | none => simp
    | some e =>
      by_cases hl : lm.currentLang = "zh" <;> simp [hl]

theorem timerFires_of_table (T : Translations) (s : LanguageSystem) (lang : String)
    (rest : List String) (table : String → Option String)
    (ht : s.timers = lang :: rest) (htable : T lang = some table) :
    LanguageSystem.timerFires T s =
      ({ lm := LanguageManager.mk lang
         doc := switchedDocument table lang s.doc
         storage := s.storage
         timers := rest
         dispatched := s.dispatched ++ [lang] }, none) := by
  unfold LanguageSystem.timerFires
  rw [ht]
  simp only
  rw [updateTexts_of_table T (LanguageManager.mk lang) table s.doc htable]
  simp only
  rw [updatePlaceholders_of_table T (LanguageManager.mk lang) table _ htable]
  simp only [updateButtons_eq, switchedDocument]

theorem timerFires_error_no_dispatch (T : Translations) (s : LanguageSystem) (e : JsError)
    (h : (LanguageSystem.timerFires T s).2 = some e) :
    (LanguageSystem.timerFires T s).1.dispatched = s.dispatched := by
  unfold LanguageSystem.timerFires at h ⊢
  cases ht : s.timers with
  | nil => rfl
  | cons lang rest =>
    simp only [ht] at h ⊢
    cases h1 : updateTexts T { currentLang := lang } s.doc with
    | error e1 => rfl
    | ok doc1 =>
      simp only [h1] at h ⊢
      cases h2 : updatePlaceholders T { currentLang := lang } doc1 with
      | error e2 => rfl
      | ok doc2 =>
        simp only [h2] at h
        cases h

/-- C14 (the code departs from it): `switchLanguage('fr')` on a loaded page that shows
English and has tagged elements, the table having no language `fr`.  The call writes `fr` to
the storage and schedules one timer.  When the timer runs, `fr` becomes the current language
and `updateTexts` throws a `TypeError`: the texts, the placeholders and the buttons are left
as they were, the fade class stays on the body, and no `languageChanged` event is
dispatched, then or later. -/
theorem switchLanguage_without_table_never_notifies :
    "fr" ≠ sampleSystem.lm.currentLang ∧
    sampleTranslations "fr" = none ∧
    (LanguageSystem.switchLanguage sampleSystem "fr").storage =
      LocalStorage.mk false (some "fr") ∧
    (LanguageSystem.switchLanguage sampleSystem "fr").timers = ["fr"] ∧
    LanguageSystem.timerFires sampleTranslations
        (LanguageSystem.switchLanguage sampleSystem "fr") =
      ({ lm := LanguageManager.mk "fr"
         doc := { sampleSystem.doc with fadeTransition := true }
         storage := LocalStorage.mk false (some "fr")
         timers := []
         dispatched := [] }, some JsError.typeError) ∧
    (LanguageSystem.run sampleTranslations sampleSystem
      [LanguageEvent.switch "fr", LanguageEvent.timer, LanguageEvent.timer]).dispatched = [] ∧
    (LanguageSystem.run sampleTranslations sampleSystem
      [LanguageEvent.switch "fr", LanguageEvent.timer, LanguageEvent.timer]).timers = [] := by
  refine ⟨by decide, rfl, rfl, rfl, rfl, rfl, rfl⟩

/-- What `switchLanguage(lang)` does when `lang` differs from the current language and has
the table `table`: it writes `lang` to the storage (nothing is written and nothing is thrown
when the storage is blocked), schedules one timer and dispatches nothing yet.  When that
timer runs, the current language becomes `lang`, the document becomes
`switchedDocument table lang` of what it was (texts and placeholders translated, buttons
set, fade class removed), and exactly one `languageChanged` event carrying `lang` is
dispatched; a timer callback that throws dispatches nothing, so the event never precedes the
updates. -/
theorem switchLanguage_switches (T : Translations) (s : LanguageSystem) (lang : String)
    (table : String → Option String) (hne : lang ≠ s.lm.currentLang)
    (htable : T lang = some table) :
    (LanguageSystem.switchLanguage s lang).storage =
      (if s.storage.blocked = true then s.storage else LocalStorage.mk false (some lang)) ∧
    (LanguageSystem.switchLanguage s lang).timers = s.timers ++ [lang] ∧
    (LanguageSystem.switchLanguage s lang).lm = s.lm ∧
    (LanguageSystem.switchLanguage s lang).dispatched = s.dispatched ∧
    (∀ (later : LanguageSystem) (rest : List String), later.timers = lang :: rest →
      LanguageSystem.timerFires T later =
        ({ lm := LanguageManager.mk lang
           doc := switchedDocument table lang later.doc
           storage := later.storage
           timers := rest
           dispatched := later.dispatched ++ [lang] }, none)) ∧
    (s.timers = [] →
      (LanguageSystem.timerFires T (LanguageSystem.switchLanguage s lang)).2 = none ∧
      getCurrentLanguage
        (LanguageSystem.timerFires T (LanguageSystem.switchLanguage s lang)).1.lm = lang ∧
      (LanguageSystem.timerFires T (LanguageSystem.switchLanguage s lang)).1.dispatched =
        s.dispatched ++ [lang]) ∧
    (∀ (later : LanguageSystem) (e : JsError),
      (LanguageSystem.timerFires T later).2 = some e →
      (LanguageSystem.timerFires T later).1.dispatched = later.dispatched) := by
  have hsw : LanguageSystem.switchLanguage s lang =
      { s with
        storage := LanguageManager.saveLanguage s.storage lang
        doc := { s.doc with fadeTransition := true }
        timers := s.timers ++ [lang] } := by
    unfold LanguageSystem.switchLanguage
    simp [hne]
  refine ⟨?_, ?_, ?_, ?_, ?_, ?_, ?_⟩
  · rw [hsw]
    show saveLanguage s.storage lang = _
    unfold saveLanguage
    by_cases hb : s.storage.blocked = true
    · simp [hb]
    · have hb2 : s.storage.blocked = false := by simpa using hb
      simp [hb2]
  · rw [hsw]
  · rw [hsw]
  · rw [hsw]
  · intro later rest ht
    exact timerFires_of_table T later lang rest table ht htable
  · intro hnil
    have ht : (LanguageSystem.switchLanguage s lang).timers = lang :: [] := by
      rw [hsw]; show s.timers ++ [lang] = [lang]; rw [hnil]; rfl
    rw [timerFires_of_table T _ lang [] table ht htable, hsw]
    exact ⟨rfl, rfl, rfl⟩
  · intro later e h
    exact timerFires_error_no_dispatch T later e h

theorem resolveInitialLanguage_supported (persisted : Option String) (locale : String)
    (h : ∀ p, persisted = some p → p = "" ∨ Supported p) :
    Supported (resolveInitialLanguage persisted locale) := by
  have hloc : Supported (if ['z', 'h'].isPrefixOf locale.data then "zh" else "en") := by
    by_cases hz : ['z', 'h'].isPrefixOf locale.data = true
    · simp only [hz, if_true]; exact Or.inl rfl
    · simp only [hz, if_false]; exact Or.inr rfl
  unfold resolveInitialLanguage
  cases persisted with
  | none => exact hloc
  | some p =>
    by_cases hp : p = ""
    · simp only [hp, ne_eq, not_true_eq_false, if_false]; exact hloc
    · simp only [ne_eq, hp, not_false_eq_true, if_true]
      rcases h p rfl with h1 | h1
      · exact absurd h1 hp
      · exact h1

theorem lookup_filter_absent (base overrides : JsObject) (k : String) :
    (base.filter (fun p => (overrides.lookup p.1).isNone)).lookup k =
      if (overrides.lookup k).isNone = true then base.lookup k else none := by
  induction base with
  | nil => simp
  | cons p rest ih =>
    obtain ⟨key, value⟩ := p
    by_cases hk : k = key
    · subst hk
      by_cases ho : (overrides.lookup k).isNone = true
      · simp [List.filter_cons, ho, List.lookup_cons]
      · simp only [List.filter_cons, ho, Bool.false_eq_true, if_false, ih]
    · have hbeq : (k == key) = false := by simpa using hk
      by_cases ho : (overrides.lookup key).isNone = true
      · simp only [List.filter_cons, ho, if_true, List.lookup_cons, hbeq, ih]
      · simp only [List.filter_cons, ho, Bool.false_eq_true, if_false, List.lookup_cons, hbeq, ih]

theorem lookup_objectSpread (base overrides : JsObject) (k : String) :
    (objectSpread base overrides).lookup k =
      match overrides.lookup k with
      | some v => some v
      | none => base.lookup k := by
  unfold objectSpread
  rw [List.lookup_append, lookup_filter_absent]
  cases overrides.lookup k with
  | none => simp
  | some v => simp

theorem request_mock_namespaces {ε : Type} (lm : LanguageManager)
    (axios : JsObject → Settled JsValue ε) (endpoint : String) (options : JsObject)
    (h : includes endpoint "namespaces" = true) :
    ApiService.request true lm axios endpoint options =
      { settled := .resolved
          (.obj [("data", .obj [("namespaces", .arr (mockData.namespaces.map .str))])])
        transportCalls := []
        delay := some 500 } := by
  unfold ApiService.request
  simp only [h, if_true]

theorem request_mock_podMetrics {ε : Type} (lm : LanguageManager)
    (axios : JsObject → Settled JsValue ε) (endpoint : String) (options : JsObject)
    (h1 : includes endpoint "namespaces" = false) (h2 : includes endpoint "pod_metrics" = true) :
    ApiService.request true lm axios endpoint options =
      { settled := .resolved (.obj [("data", .arr (mockData.podMetrics.map PodMetric.toJs))])
        transportCalls := []
        delay := some 500 } := by
  unfold ApiService.request
  simp only [h1, h2, if_true, Bool.false_eq_true, if_false]

theorem chatResponse_nonempty (lang reply : String)
    (h : mockData.chatResponse lang = some reply) : reply ≠ "" := by
  unfold mockData.chatResponse at h
  split at h
  · injection h with h; subst h; decide
  · split at h
    · injection h with h; subst h; decide
    · cases h

theorem chatResponseAt_or_of_plain (lang : String) (h : lang ∉ objectPrototypeKeys) :
    JsValue.or (mockData.chatResponseAt lang) (mockData.chatResponseAt "zh") =
      .str (cannedReplyFor lang) := by
  unfold cannedReplyFor
  cases hl : mockData.chatResponse lang with
  | none =>
    have hu : mockData.chatResponseAt lang = .undefined := by
      unfold mockData.chatResponseAt
      rw [hl]
      simp [h]
    rw [hu]
    rfl
  | some reply =>
    have hne := chatResponse_nonempty lang reply hl
    have hs : mockData.chatResponseAt lang = .str reply := by
      unfold mockData.chatResponseAt
      rw [hl]
    rw [hs]
    simp [JsValue.or, JsValue.truthy, hne]

theorem request_mock_chat {ε : Type} (lm : LanguageManager)
    (axios : JsObject → Settled JsValue ε) (endpoint : String) (options : JsObject)
    (h1 : includes endpoint "namespaces" = false) (h2 : includes endpoint "pod_metrics" = false)
    (h3 : includes endpoint "llm_chat" = true) :
    ApiService.request true lm axios endpoint options =
      { settled := .resolved
          (.obj [("data", .obj [("assistant",
            JsValue.or (mockData.chatResponseAt lm.currentLang)
              (mockData.chatResponseAt "zh"))])])
        transportCalls := []
        delay := some 500 } := by
  unfold ApiService.request
  simp only [h1, h2, h3, if_true, Bool.false_eq_true, if_false, getCurrentLanguage]

theorem request_live {ε : Type} (lm : LanguageManager)
    (axios : JsObject → Settled JsValue ε) (endpoint : String) (options : JsObject) :
    ApiService.request false lm axios endpoint options =
      { settled := axios (objectSpread (defaultConfig endpoint) options)
        transportCalls := [objectSpread (defaultConfig endpoint) options]
        delay := none } := by
  unfold ApiService.request defaultConfig
  simp only [Bool.false_eq_true, if_false]
  cases axios (objectSpread [("url", .str endpoint), ("timeout", .num 10000)] options) with
  | resolved r => rfl
  | rejected e => rfl

/-- C15, as stated, fails: in mock mode a request for `/api/health`, a path that contains none
of `namespaces`, `pod_metrics` and `llm_chat`, is handed to the transport and settles as the
transport does; here it rejects instead of resolving with a canned payload. -/
theorem mock_request_unmatched_endpoint_uses_transport :
    (ApiService.request true (LanguageManager.mk "en") offlineTransport "/api/health"
        []).transportCalls =
      [[("url", JsValue.str "/api/health"), ("timeout", JsValue.num 10000)]] ∧
    (ApiService.request true (LanguageManager.mk "en") offlineTransport "/api/health"
        []).settled = Settled.rejected "Network Error" ∧
    ¬ ((ApiService.request true (LanguageManager.mk "en") offlineTransport "/api/health"
        []).transportCalls = [] ∧
      ∃ payload, (ApiService.request true (LanguageManager.mk "en") offlineTransport
        "/api/health" []).settled = Settled.resolved payload) := by
  have h : (ApiService.request true (LanguageManager.mk "en") offlineTransport "/api/health"
        []).transportCalls =
      [[("url", JsValue.str "/api/health"), ("timeout", JsValue.num 10000)]] := rfl
  refine ⟨h, rfl, ?_⟩
  rintro ⟨hcalls, _⟩
  rw [h] at hcalls
  cases hcalls

/-- C15, amended: in mock mode, for every endpoint path that contains `namespaces`,
`pod_metrics` or `llm_chat` and every options object, `request` waits 500 ms, resolves with
one of the three canned payloads and does not call the transport; the three configured
endpoints are such paths.  The chat payload carries
`mockData.chatResponse[L] || mockData.chatResponse['zh']`, which is the canned reply for the
current language `L` whenever `L` is not the name of a member inherited from
`Object.prototype`. -/
theorem mock_request_matched_endpoint_is_canned {ε : Type} (lm : LanguageManager)
    (axios : JsObject → Settled JsValue ε) (endpoint : String) (options : JsObject)
    (hmatch : includes endpoint "namespaces" = true ∨ includes endpoint "pod_metrics" = true ∨
      includes endpoint "llm_chat" = true) :
    (∃ payload,
      ApiService.request true lm axios endpoint options =
        { settled := .resolved payload, transportCalls := [], delay := some 500 } ∧
      (payload = .obj [("data", .obj [("namespaces", .arr (mockData.namespaces.map .str))])] ∨
        payload = .obj [("data", .arr (mockData.podMetrics.map PodMetric.toJs))] ∨
        payload = .obj [("data", .obj [("assistant",
          JsValue.or (mockData.chatResponseAt lm.currentLang)
            (mockData.chatResponseAt "zh"))])])) ∧
    (lm.currentLang ∉ objectPrototypeKeys →
      JsValue.or (mockData.chatResponseAt lm.currentLang) (mockData.chatResponseAt "zh") =
        .str (cannedReplyFor lm.currentLang)) ∧
    includes config.endpoints.namespaces "namespaces" = true ∧
    includes config.endpoints.podMetrics "pod_metrics" = true ∧
    includes config.endpoints.chat "llm_chat" = true := by
  refine ⟨?_, chatResponseAt_or_of_plain lm.currentLang, by decide, by decide, by decide⟩
  by_cases h1 : includes endpoint "namespaces" = true
  · exact ⟨_, request_mock_namespaces lm axios endpoint options h1, Or.inl rfl⟩
  · have h1f : includes endpoint "namespaces" = false := by simpa using h1
    by_cases h2 : includes endpoint "pod_metrics" = true
    · exact ⟨_, request_mock_podMetrics lm axios endpoint options h1f h2, Or.inr (Or.inl rfl)⟩
    · have h2f : includes endpoint "pod_metrics" = false := by simpa using h2
      have h3 : includes endpoint "llm_chat" = true := by
        rcases hmatch with h | h | h
        · exact absurd h h1
        · exact absurd h h2
        · exact h
      exact ⟨_, request_mock_chat lm axios endpoint options h1f h2f h3, Or.inr (Or.inr rfl)⟩

/-- C16 (the code departs from it): in mock mode, with the current language `constructor`,
for which no reply is stored, `sendChatMessage` resolves with `{data: {assistant: v}}` where
`v` is the member `constructor` that the object `mockData.chatResponse` inherits from
`Object.prototype`.  That member is truthy, so the `||` does not fall back to the reply
stored for `zh`: the reply is not the canned reply of the default locale, and not a string
at all. -/
theorem mock_reply_for_inherited_name :
    mockData.chatResponse "constructor" = none ∧
    mockData.chatResponseAt "constructor" = JsValue.inherited "constructor" ∧
    (ApiService.sendChatMessage true (LanguageManager.mk "constructor") offlineTransport "hi"
        []).settled =
      Settled.resolved (JsValue.obj [("data", JsValue.obj [("assistant",
        JsValue.inherited "constructor")])]) ∧
    (ApiService.sendChatMessage true (LanguageManager.mk "constructor") offlineTransport "hi"
        []).transportCalls = [] ∧
    mockData.chatResponse "zh" = some (cannedReplyFor "constructor") ∧
    (∀ reply : String, (ApiService.sendChatMessage true (LanguageManager.mk "constructor")
        offlineTransport "hi" []).settled ≠
      Settled.resolved (JsValue.obj [("data", JsValue.obj [("assistant",
        JsValue.str reply)])])) := by
  refine ⟨rfl, rfl, rfl, rfl, rfl, ?_⟩
  intro reply h
  have h2 : (ApiService.sendChatMessage true (LanguageManager.mk "constructor")
      offlineTransport "hi" []).settled =
      Settled.resolved (JsValue.obj [("data", JsValue.obj [("assistant",
        JsValue.inherited "constructor")])]) := rfl
  rw [h2] at h
  simp at h

/-- In mock mode, for a current language that is not the name of a member inherited from
`Object.prototype`, `sendChatMessage` resolves with `{data: {assistant: r}}`, where `r` is
the canned reply stored for the current language when there is one and the one stored for
`zh` otherwise; the transport is not called, and the message and the history have no
influence on the result, whatever the current language. -/
theorem mock_sendChatMessage_reply {ε : Type} (lm : LanguageManager)
    (axios : JsObject → Settled JsValue ε) (message : String) (history : List Turn)
    (hplain : lm.currentLang ∉ objectPrototypeKeys) :
    ApiService.sendChatMessage true lm axios message history =
      { settled := .resolved
          (.obj [("data", .obj [("assistant", .str (cannedReplyFor lm.currentLang))])])
        transportCalls := []
        delay := some 500 } ∧
    (∀ reply, mockData.chatResponse lm.currentLang = some reply →
      cannedReplyFor lm.currentLang = reply) ∧
    (mockData.chatResponse lm.currentLang = none →
      mockData.chatResponse "zh" = some (cannedReplyFor lm.currentLang)) ∧
    (∀ (other : LanguageManager) (message2 : String) (history2 : List Turn),
      ApiService.sendChatMessage true other axios message2 history2 =
        ApiService.sendChatMessage true other axios message history) := by
  have hreq : ∀ (other : LanguageManager) (m : String) (h : List Turn),
      ApiService.sendChatMessage true other axios m h =
        { settled := .resolved
            (.obj [("data", .obj [("assistant",
              JsValue.or (mockData.chatResponseAt other.currentLang)
                (mockData.chatResponseAt "zh"))])])
          transportCalls := []
          delay := some 500 } := by
    intro other m h
    unfold ApiService.sendChatMessage
    exact request_mock_chat other axios _ _ (by decide) (by decide) (by decide)
  refine ⟨?_, ?_, ?_, ?_⟩
  · rw [hreq lm message history, chatResponseAt_or_of_plain lm.currentLang hplain]
  · intro reply h
    unfold cannedReplyFor
    rw [h]
  · intro h
    unfold cannedReplyFor
    rw [h]
    rfl
  · intro other m2 h2
    rw [hreq other m2 h2, hreq other message history]

/-- C17: in mock mode, for every namespace argument, `getPodMetrics` resolves with
`{data: rows}` where `rows` is the list `mockData.podMetrics`, which has exactly three
samples; the transport, the only source of a rejection, is not called. -/
theorem mock_getPodMetrics_rows {ε : Type} (lm : LanguageManager)
    (axios : JsObject → Settled JsValue ε) (namespace_ : String) :
    ApiService.getPodMetrics true lm axios namespace_ =
      { settled := .resolved (.obj [("data", .arr (mockData.podMetrics.map PodMetric.toJs))])
        transportCalls := []
        delay := some 500 } ∧
    mockData.podMetrics.length = 3 ∧
    (mockData.podMetrics.map PodMetric.toJs).length = 3 ∧
    mockData.podMetrics.map (fun m => m.pod) =
      ["nginx-7d7c6d8b9f-abc12", "redis-6b8c7d9e8f-def34", "postgres-5a7b8c9d0e-ghi56"] := by
  refine ⟨?_, rfl, rfl, rfl⟩
  unfold ApiService.getPodMetrics
  exact request_mock_podMetrics lm axios _ _ (by decide) (by decide)

/-- C18, as stated, fails: the list with which `getNamespaces` resolves in mock mode has four
namespaces, not three. -/
theorem mock_namespaces_are_not_three :
    (ApiService.getNamespaces true (LanguageManager.mk "en") offlineTransport).settled =
      Settled.resolved (JsValue.obj [("data", JsValue.obj [("namespaces",
        JsValue.arr [JsValue.str "default", JsValue.str "kube-system",
          JsValue.str "monitoring", JsValue.str "app"])])]) ∧
    mockData.namespaces.length ≠ 3 := by
  refine ⟨rfl, by decide⟩

/-- C18, amended: in mock mode `getNamespaces` resolves with `{data: {namespaces: L}}` where
`L` is the list `mockData.namespaces`, and `L` has exactly four namespaces: `default`,
`kube-system`, `monitoring` and `app`. -/
theorem mock_getNamespaces_four {ε : Type} (lm : LanguageManager)
    (axios : JsObject → Settled JsValue ε) :
    ApiService.getNamespaces true lm axios =
      { settled := .resolved
          (.obj [("data", .obj [("namespaces", .arr (mockData.namespaces.map .str))])])
        transportCalls := []
        delay := some 500 } ∧
    mockData.namespaces = ["default", "kube-system", "monitoring", "app"] ∧
    mockData.namespaces.length = 4 := by
  refine ⟨?_, rfl, rfl⟩
  unfold ApiService.getNamespaces
  exact request_mock_namespaces lm axios _ _ (by decide)

/-- C19, as stated, fails: outside mock mode, with the options `{timeout: 5000}` the
configuration handed to the transport has the timeout 5000, not 10000, and with the options
`{url: '/other'}` its url is `/other`, not the endpoint. -/
theorem request_options_override_defaults :
    (ApiService.request false (LanguageManager.mk "en") offlineTransport "/api/namespaces"
        [("timeout", JsValue.num 5000)]).transportCalls =
      [[("url", JsValue.str "/api/namespaces"), ("timeout", JsValue.num 5000)]] ∧
    List.lookup "timeout" [("url", JsValue.str "/api/namespaces"), ("timeout", JsValue.num 5000)]
      ≠ some (JsValue.num 10000) ∧
    (ApiService.request false (LanguageManager.mk "en") offlineTransport "/api/namespaces"
        [("url", JsValue.str "/other")]).transportCalls =
      [[("timeout", JsValue.num 10000), ("url", JsValue.str "/other")]] ∧
    List.lookup "url" [("timeout", JsValue.num 10000), ("url", JsValue.str "/other")]
      ≠ some (JsValue.str "/api/namespaces") := by
  refine ⟨rfl, ?_, rfl, ?_⟩
  · have h : List.lookup "timeout"
        [("url", JsValue.str "/api/namespaces"), ("timeout", JsValue.num 5000)] =
        some (JsValue.num 5000) := rfl
    rw [h]
    intro hc
    simp only [Option.some.injEq, JsValue.num.injEq] at hc
    norm_num at hc
  · have h : List.lookup "url"
        [("timeout", JsValue.num 10000), ("url", JsValue.str "/other")] =
        some (JsValue.str "/other") := rfl
    rw [h]
    intro hc
    simp only [Option.some.injEq, JsValue.str.injEq] at hc
    exact absurd hc (by decide)

/-- C19, amended: outside mock mode, for every endpoint and every options object that has no
`url` and no `timeout` property of its own, the one configuration handed to the transport has
the url `endpoint` and the timeout 10000 and keeps every property of the options; the options
of `getNamespaces`, `getPodMetrics` and `sendChatMessage` are of this kind. -/
theorem request_config_defaults {ε : Type} (lm : LanguageManager)
    (axios : JsObject → Settled JsValue ε) (endpoint : String) (options : JsObject)
    (hurl : options.lookup "url" = none) (htimeout : options.lookup "timeout" = none) :
    (∃ requestConfig,
      (ApiService.request false lm axios endpoint options).transportCalls = [requestConfig] ∧
      requestConfig.lookup "url" = some (.str endpoint) ∧
      requestConfig.lookup "timeout" = some (.num 10000) ∧
      ∀ k v, options.lookup k = some v → requestConfig.lookup k = some v) ∧
    (∀ namespace_, ∃ requestConfig,
      (ApiService.getPodMetrics false lm axios namespace_).transportCalls = [requestConfig] ∧
      requestConfig.lookup "url" = some (.str config.endpoints.podMetrics) ∧
      requestConfig.lookup "timeout" = some (.num 10000)) ∧
    (∀ message history, ∃ requestConfig,
      (ApiService.sendChatMessage false lm axios message history).transportCalls =
        [requestConfig] ∧
      requestConfig.lookup "url" = some (.str config.endpoints.chat) ∧
      requestConfig.lookup "timeout" = some (.num 10000)) ∧
    (∃ requestConfig,
      (ApiService.getNamespaces false lm axios).transportCalls = [requestConfig] ∧
      requestConfig.lookup "url" = some (.str config.endpoints.namespaces) ∧
      requestConfig.lookup "timeout" = some (.num 10000)) := by
  have hgen : ∀ (ep : String) (opts : JsObject), opts.lookup "url" = none →
      opts.lookup "timeout" = none →
      ∃ requestConfig,
        (ApiService.request false lm axios ep opts).transportCalls = [requestConfig] ∧
        requestConfig.lookup "url" = some (.str ep) ∧
        requestConfig.lookup "timeout" = some (.num 10000) ∧
        ∀ k v, opts.lookup k = some v → requestConfig.lookup k = some v := by
    intro ep opts h1 h2
    refine ⟨objectSpread (defaultConfig ep) opts, ?_, ?_, ?_, ?_⟩
    · rw [request_live]
    · rw [lookup_objectSpread, h1]; rfl
    · rw [lookup_objectSpread, h2]; rfl
    · intro k v hk
      rw [lookup_objectSpread, hk]
  refine ⟨hgen endpoint options hurl htimeout, ?_, ?_, ?_⟩
  · intro namespace_
    obtain ⟨c, h1, h2, h3, _⟩ := hgen config.endpoints.podMetrics
      [("params", .obj [("namespace", .str namespace_)])] rfl rfl
    exact ⟨c, h1, h2, h3⟩
  · intro message history
    obtain ⟨c, h1, h2, h3, _⟩ := hgen config.endpoints.chat
      [("method", .str "POST"),
       ("data", .obj [("user_message", .str message),
         ("history", .arr (history.map Turn.toJs))])] rfl rfl
    exact ⟨c, h1, h2, h3⟩
  · obtain ⟨c, h1, h2, h3, _⟩ := hgen config.endpoints.namespaces [] rfl rfl
    exact ⟨c, h1, h2, h3⟩

/-- C20: outside mock mode `request` calls the transport exactly once, with the configuration
it built, and settles as that call settles: when the transport rejects with `e`, `request`
rejects with the same `e`, and when the transport resolves with a response, `request`
resolves with that response. -/
theorem request_settles_as_transport {ε : Type} (lm : LanguageManager)
    (axios : JsObject → Settled JsValue ε) (endpoint : String) (options : JsObject) :
    (ApiService.request false lm axios endpoint options).transportCalls =
      [objectSpread (defaultConfig endpoint) options] ∧
    (ApiService.request false lm axios endpoint options).transportCalls.length = 1 ∧
    (∀ e, axios (objectSpread (defaultConfig endpoint) options) = .rejected e →
      (ApiService.request false lm axios endpoint options).settled = .rejected e) ∧
    (∀ response, axios (objectSpread (defaultConfig endpoint) options) = .resolved response →
      (ApiService.request false lm axios endpoint options).settled = .resolved response) ∧
    (ApiService.request false lm axios endpoint options).delay = none := by
  rw [request_live]
  refine ⟨rfl, rfl, ?_, ?_, rfl⟩
  · intro e h; exact h
  · intro r h; exact h

theorem timerFires_cons (T : Translations) (s : LanguageSystem) (lang : String)
    (rest : List String) (ht : s.timers = lang :: rest) :
    (LanguageSystem.timerFires T s).1.lm = LanguageManager.mk lang ∧
    (LanguageSystem.timerFires T s).1.timers = rest := by
  unfold LanguageSystem.timerFires
  simp only [ht]
  cases updateTexts T { currentLang := lang } s.doc with
  | error e1 => exact ⟨rfl, rfl⟩
  | ok doc1 =>
    simp only
    cases updatePlaceholders T { currentLang := lang } doc1 with
    | error e2 => exact ⟨rfl, rfl⟩
    | ok doc2 => exact ⟨rfl, rfl⟩

theorem step_language_inv (T : Translations) (P : String → Prop) (s : LanguageSystem)
    (e : LanguageEvent) (he : ∀ lang, e = LanguageEvent.switch lang → P lang)
    (h : P s.lm.currentLang ∧ ∀ l ∈ s.timers, P l) :
    P (LanguageSystem.step T s e).lm.currentLang ∧
      ∀ l ∈ (LanguageSystem.step T s e).timers, P l := by
  cases e with
  | switch lang =>
    simp only [LanguageSystem.step, LanguageSystem.switchLanguage]
    by_cases hl : lang = s.lm.currentLang
    · simp only [hl, if_true]; exact h
    · simp only [hl, if_false]
      refine ⟨h.1, ?_⟩
      intro l hmem
      rcases List.mem_append.1 hmem with hm | hm
      · exact h.2 l hm
      · simp only [List.mem_singleton] at hm
        subst hm
        exact he l rfl
  | timer =>
    simp only [LanguageSystem.step]
    cases ht : s.timers with
    | nil =>
      have hs : LanguageSystem.timerFires T s = (s, none) := by
        unfold LanguageSystem.timerFires; simp only [ht]
      rw [hs]
      exact h
    | cons lang rest =>
      obtain ⟨h1, h2⟩ := timerFires_cons T s lang rest ht
      rw [h1, h2]
      have hall : ∀ l ∈ lang :: rest, P l := ht ▸ h.2
      exact ⟨hall lang (List.mem_cons_self _ _),
        fun l hm => hall l (List.mem_cons_of_mem _ hm)⟩

theorem run_language_inv (T : Translations) (P : String → Prop) (events : List LanguageEvent) :
    ∀ s : LanguageSystem, (∀ lang, LanguageEvent.switch lang ∈ events → P lang) →
      (P s.lm.currentLang ∧ ∀ l ∈ s.timers, P l) →
      P (LanguageSystem.run T s events).lm.currentLang ∧
        ∀ l ∈ (LanguageSystem.run T s events).timers, P l := by
  induction events with
  | nil => intro s _ h; exact h
  | cons e es ih =>
    intro s he h
    exact ih (LanguageSystem.step T s e)
      (fun lang hm => he lang (List.mem_cons_of_mem _ hm))
      (step_language_inv T P s e (fun lang hl => he lang (hl ▸ List.mem_cons_self _ _)) h)

/-- C12, amended: in every state reached from the constructor by calls of `switchLanguage`
and timers running, whatever the storage holds and whatever the arguments of the calls, the
current language is the initial language or the argument of one of the calls; so it is `zh`
or `en` whenever the persisted preference, if it can be read and is not empty, is `zh` or
`en` and every call of `switchLanguage` was made with `zh` or `en`, whatever the browser
locale. -/
theorem currentLanguage_supported_of_supported_inputs (T : Translations) (ls : LocalStorage)
    (nav : Navigator) (doc : Document) (lm : LanguageManager) (d : Document)
    (events : List LanguageEvent)
    (hcreate : LanguageManager.create T ls nav doc = .ok (lm, d)) :
    (getCurrentLanguage (LanguageSystem.run T (LanguageSystem.mk lm d ls [] []) events).lm =
        resolveInitialLanguage (getSavedLanguage ls) (browserLocale nav) ∨
      LanguageEvent.switch (getCurrentLanguage
        (LanguageSystem.run T (LanguageSystem.mk lm d ls [] []) events).lm) ∈ events) ∧
    ((∀ p, getSavedLanguage ls = some p → p = "" ∨ Supported p) →
      (∀ lang, LanguageEvent.switch lang ∈ events → Supported lang) →
      Supported (getCurrentLanguage
        (LanguageSystem.run T (LanguageSystem.mk lm d ls [] []) events).lm)) := by
  have hlm := create_currentLang T ls nav doc lm d hcreate
  have hinit : lm.currentLang = resolveInitialLanguage (getSavedLanguage ls)
      (browserLocale nav) := by
    rw [hlm]; rfl
  refine ⟨?_, ?_⟩
  · refine (run_language_inv T
      (fun l => l = resolveInitialLanguage (getSavedLanguage ls) (browserLocale nav) ∨
        LanguageEvent.switch l ∈ events) events _ (fun lang hm => Or.inr hm) ⟨?_, ?_⟩).1
    · exact Or.inl hinit
    · intro l hl; cases hl
  · intro hpersisted hswitch
    refine (run_language_inv T Supported events _ hswitch ⟨?_, ?_⟩).1
    · show Supported lm.currentLang
      rw [hinit]
      exact resolveInitialLanguage_supported _ _ hpersisted
    · intro l hl; cases hl

theorem includesChars_iff (sub : List Char) :
    ∀ s : List Char, includesChars sub s = true ↔ sub <:+: s := by
  intro s
  induction s with
  | nil =>
    unfold includesChars
    rw [List.infix_nil]
    cases sub <;> simp
  | cons c cs ih =>
    unfold includesChars
    rw [Bool.or_eq_true, ih, List.infix_cons_iff, List.isPrefixOf_iff_prefix]

theorem initial_language_resolution_witness :
    LanguageManager.create sampleTranslations (LocalStorage.mk true (some "en"))
        (Navigator.mk none (some "zh-TW")) sampleDocument =
      .ok (LanguageManager.mk "zh", sampleDocument) ∧
    LanguageManager.create sampleTranslations (LocalStorage.mk false (some "en"))
        (Navigator.mk none (some "zh-TW")) sampleDocument =
      .ok (LanguageManager.mk "en", sampleDocument) :=
  ⟨(initial_language_resolution sampleTranslations (LocalStorage.mk true (some "en"))
      (Navigator.mk none (some "zh-TW")) sampleDocument).2.1 rfl,
   (initial_language_resolution sampleTranslations (LocalStorage.mk false (some "en"))
      (Navigator.mk none (some "zh-TW")) sampleDocument).2.1 rfl⟩

theorem currentLanguage_supported_of_supported_inputs_witness :
    LanguageManager.create sampleTranslations (LocalStorage.mk false (some "fr"))
        (Navigator.mk (some "en-US") none) sampleDocument =
      .ok (LanguageManager.mk "fr", sampleDocument) ∧
    (getCurrentLanguage
        (LanguageSystem.run sampleTranslations
          (LanguageSystem.mk (LanguageManager.mk "fr") sampleDocument
            (LocalStorage.mk false (some "fr")) [] [])
          [LanguageEvent.switch "de", LanguageEvent.timer]).lm =
        resolveInitialLanguage (getSavedLanguage (LocalStorage.mk false (some "fr")))
          (browserLocale (Navigator.mk (some "en-US") none)) ∨
      LanguageEvent.switch (getCurrentLanguage
        (LanguageSystem.run sampleTranslations
          (LanguageSystem.mk (LanguageManager.mk "fr") sampleDocument
            (LocalStorage.mk false (some "fr")) [] [])
          [LanguageEvent.switch "de", LanguageEvent.timer]).lm) ∈
        [LanguageEvent.switch "de", LanguageEvent.timer]) ∧
    LanguageManager.create sampleTranslations (LocalStorage.mk false (some "zh"))
        (Navigator.mk (some "en-US") none) sampleDocument =
      .ok (LanguageManager.mk "zh", sampleDocument) ∧
    Supported (getCurrentLanguage
      (LanguageSystem.run sampleTranslations
        (LanguageSystem.mk (LanguageManager.mk "zh") sampleDocument
          (LocalStorage.mk false (some "zh")) [] [])
        [LanguageEvent.switch "en", LanguageEvent.timer]).lm) :=
  ⟨rfl,
    (currentLanguage_supported_of_supported_inputs sampleTranslations
      (LocalStorage.mk false (some "fr")) (Navigator.mk (some "en-US") none) sampleDocument
      (LanguageManager.mk "fr") sampleDocument [LanguageEvent.switch "de", LanguageEvent.timer]
      rfl).1,
    rfl,
    (currentLanguage_supported_of_supported_inputs sampleTranslations
      (LocalStorage.mk false (some "zh")) (Navigator.mk (some "en-US") none) sampleDocument
      (LanguageManager.mk "zh") sampleDocument [LanguageEvent.switch "en", LanguageEvent.timer]
      rfl).2
      (by intro p h; simp [getSavedLanguage] at h; subst h; exact Or.inr (Or.inl rfl))
      (by intro lang h; simp at h; subst h; exact Or.inr rfl)⟩

theorem switchLanguage_switches_witness :
    "zh" ≠ sampleSystem.lm.currentLang ∧
    getCurrentLanguage
      (LanguageSystem.timerFires sampleTranslations
        (LanguageSystem.switchLanguage sampleSystem "zh")).1.lm = "zh" ∧
    (LanguageSystem.timerFires sampleTranslations
        (LanguageSystem.switchLanguage sampleSystem "zh")).1.dispatched = [] ++ ["zh"] ∧
    (LanguageSystem.switchLanguage sampleSystem "zh").storage =
      LocalStorage.mk false (some "zh") :=
  ⟨by decide,
    ((switchLanguage_switches sampleTranslations sampleSystem "zh"
      (fun key =>
        if key = "thinking" then some "思考中..."
        else if key = "connection-failed" then some "連線失敗"
        else none) (by decide) rfl).2.2.2.2.2.1 rfl).2.1,
    ((switchLanguage_switches sampleTranslations sampleSystem "zh"
      (fun key =>
        if key = "thinking" then some "思考中..."
        else if key = "connection-failed" then some "連線失敗"
        else none) (by decide) rfl).2.2.2.2.2.1 rfl).2.2,
    (switchLanguage_switches sampleTranslations sampleSystem "zh"
      (fun key =>
        if key = "thinking" then some "思考中..."
        else if key = "connection-failed" then some "連線失敗"
        else none) (by decide) rfl).1⟩

theorem mock_request_matched_endpoint_is_canned_witness :
    includes "/api/pod_metrics" "pod_metrics" = true ∧
    ∃ payload,
      ApiService.request true (LanguageManager.mk "en") offlineTransport "/api/pod_metrics"
          [("params", JsValue.obj [("namespace", JsValue.str "default")])] =
        { settled := .resolved payload, transportCalls := [], delay := some 500 } ∧
      (payload = .obj [("data", .obj [("namespaces", .arr (mockData.namespaces.map .str))])] ∨
        payload = .obj [("data", .arr (mockData.podMetrics.map PodMetric.toJs))] ∨
        payload = .obj [("data", .obj [("assistant",
          JsValue.or (mockData.chatResponseAt (LanguageManager.mk "en").currentLang)
            (mockData.chatResponseAt "zh"))])]) :=
  ⟨by decide,
    (mock_request_matched_endpoint_is_canned (LanguageManager.mk "en") offlineTransport
      "/api/pod_metrics" [("params", JsValue.obj [("namespace", JsValue.str "default")])]
      (Or.inr (Or.inl (by decide)))).1⟩

theorem mock_sendChatMessage_reply_witness :
    mockData.chatResponse "fr" = none ∧
    mockData.chatResponse "zh" = some (cannedReplyFor "fr") ∧
    (ApiService.sendChatMessage true (LanguageManager.mk "fr") offlineTransport "hi"
        []).transportCalls = [] :=
  ⟨rfl,
    (mock_sendChatMessage_reply (LanguageManager.mk "fr") offlineTransport "hi" []
      (by decide)).2.2.1 rfl,
    congrArg RequestResult.transportCalls
      (mock_sendChatMessage_reply (LanguageManager.mk "fr") offlineTransport "hi" []
        (by decide)).1⟩

theorem request_config_defaults_witness :
    List.lookup "url" [("params", JsValue.obj [("namespace", JsValue.str "default")])] = none ∧
    List.lookup "timeout" [("params", JsValue.obj [("namespace", JsValue.str "default")])]
      = none ∧
    ∃ requestConfig,
      (ApiService.request false (LanguageManager.mk "en") offlineTransport "/api/pod_metrics"
        [("params", JsValue.obj [("namespace", JsValue.str "default")])]).transportCalls =
        [requestConfig] ∧
      requestConfig.lookup "url" = some (.str "/api/pod_metrics") ∧
      requestConfig.lookup "timeout" = some (.num 10000) ∧
      ∀ k v, List.lookup k [("params", JsValue.obj [("namespace", JsValue.str "default")])]
        = some v → requestConfig.lookup k = some v :=
  ⟨rfl, rfl,
    (request_config_defaults (LanguageManager.mk "en") offlineTransport "/api/pod_metrics"
      [("params", JsValue.obj [("namespace", JsValue.str "default")])] rfl rfl).1⟩

theorem request_settles_as_transport_witness :
    (ApiService.request false (LanguageManager.mk "en") offlineTransport "/api/namespaces"
        []).settled = Settled.rejected "Network Error" ∧
    (ApiService.request false (LanguageManager.mk "en") offlineTransport "/api/namespaces"
        []).transportCalls.length = 1 :=
  ⟨(request_settles_as_transport (LanguageManager.mk "en") offlineTransport "/api/namespaces"
      []).2.2.1 "Network Error" rfl,
    (request_settles_as_transport (LanguageManager.mk "en") offlineTransport "/api/namespaces"
      []).2.1⟩

/-! ## Properties of the metrics manager, and the language timers -/

theorem getTranslation_of_table (T : Translations) (lm : LanguageManager)
    (table : String → Option String) (key : String) (h : T lm.currentLang = some table) :
    getTranslation T lm key = .ok (translate table key) := by
  unfold getTranslation translate
  simp only [h]
  cases hk : table key with
  | none => rfl
  | some text => by_cases ht : text = "" <;> simp [ht]

theorem getTranslation_ne_empty (T : Translations) (lm : LanguageManager) (key text : String)
    (hkey : key ≠ "") (h : getTranslation T lm key = .ok text) : text ≠ "" := by
  unfold getTranslation at h
  cases hT : T lm.currentLang with
  | none => simp [hT] at h
  | some table =>
    simp only [hT] at h
    cases hk : table key with
    | none =>
      simp only [hk] at h
      injection h with h
      rw [← h]; exact hkey
    | some entry =>
      simp only [hk] at h
      by_cases he : entry = ""
      · simp only [he, if_true] at h
        injection h with h
        rw [← h]; exact hkey
      · simp only [he, if_false] at h
        injection h with h
        rw [← h]; exact he

theorem toDigitsCore_isDigit (fuel : Nat) :
    ∀ (n : Nat) (ds : List Char), (∀ c ∈ ds, c.isDigit = true) →
      ∀ c ∈ Nat.toDigitsCore 10 fuel n ds, c.isDigit = true := by
  induction fuel with
  | zero => intro n ds h; simpa [Nat.toDigitsCore] using h
  | succ fuel ih =>
    intro n ds h
    have hd : (Nat.digitChar (n % 10)).isDigit = true := by
      have hlt : n % 10 < 10 := Nat.mod_lt _ (by decide)
      interval_cases (n % 10) <;> decide
    have hcons : ∀ c ∈ Nat.digitChar (n % 10) :: ds, c.isDigit = true := by
      intro c hc
      rcases List.mem_cons.1 hc with h1 | h1
      · rw [h1]; exact hd
      · exact h c h1
    unfold Nat.toDigitsCore
    simp only
    split
    · exact hcons
    · exact ih _ _ hcons

theorem toDigitsCore_ne_nil (fuel : Nat) (n : Nat) (ds : List Char) :
    Nat.toDigitsCore 10 (fuel + 1) n ds ≠ [] := by
  induction fuel generalizing n ds with
  | zero =>
    unfold Nat.toDigitsCore
    simp only
    split
    · simp
    · simp [Nat.toDigitsCore]
  | succ fuel ih =>
    unfold Nat.toDigitsCore
    simp only
    split
    · simp
    · exact ih _ _

theorem toDigits_isDigit (n : Nat) : ∀ c ∈ Nat.toDigits 10 n, c.isDigit = true := by
  unfold Nat.toDigits
  exact toDigitsCore_isDigit _ _ _ (by intro c hc; cases hc)

theorem toDigits_ne_nil (n : Nat) : Nat.toDigits 10 n ≠ [] := by
  unfold Nat.toDigits
  exact toDigitsCore_ne_nil _ _ _

theorem abs_eq_natAbs_div (x : ℚ) : |x| = (x.num.natAbs : ℚ) / (x.den : ℚ) := by
  have hden : (0 : ℚ) < (x.den : ℚ) := by exact_mod_cast x.den_pos
  conv_lhs => rw [← Rat.num_div_den x]
  rw [abs_div, abs_of_pos hden]
  congr 1
  rw [Nat.cast_natAbs, Int.cast_abs]

theorem toFixed_range (x : ℚ) : 10 ^ 21 * x.den ≤ x.num.natAbs ↔ (10 : ℚ) ^ 21 ≤ |x| := by
  have hden : (0 : ℚ) < (x.den : ℚ) := by exact_mod_cast x.den_pos
  rw [abs_eq_natAbs_div, le_div_iff₀ hden]
  constructor
  · intro h; exact_mod_cast h
  · intro h; exact_mod_cast h

theorem toFixed_nearest (x : ℚ) (f : Nat) :
    (2 * x.num.natAbs * 10 ^ f + x.den) / (2 * x.den) = ⌊|x| * 10 ^ f + 1 / 2⌋₊ := by
  have hden : (0 : ℚ) < (x.den : ℚ) := by exact_mod_cast x.den_pos
  have h : |x| * 10 ^ f + 1 / 2 =
      ((2 * x.num.natAbs * 10 ^ f + x.den : ℕ) : ℚ) / ((2 * x.den : ℕ) : ℚ) := by
    rw [abs_eq_natAbs_div]
    push_cast
    field_simp
    ring
  rw [h, Nat.floor_div_eq_div]

theorem toFixed_decimal_places (x : ℚ) (f : Nat) (hf : 0 < f) (hx : |x| < 10 ^ 21) :
    ∃ text, toFixed x f = .digits text ∧ HasDecimalPlaces text f := by
  have hrange : ¬ 10 ^ 21 * x.den ≤ x.num.natAbs := by
    rw [toFixed_range]; exact not_le.2 hx
  have hf0 : f ≠ 0 := Nat.pos_iff_ne_zero.1 hf
  unfold toFixed
  simp only [hrange, if_false, hf0]
  refine ⟨_, rfl, ?_⟩
  generalize hm : Nat.toDigits 10 ((2 * x.num.natAbs * 10 ^ f + x.den) / (2 * x.den)) = m
  have hmd : ∀ c ∈ m, c.isDigit = true := hm ▸ toDigits_isDigit _
  have hpad : ∀ c ∈ List.replicate (f + 1 - m.length) '0' ++ m, c.isDigit = true := by
    intro c hc
    rcases List.mem_append.1 hc with h1 | h1
    · rw [(List.mem_replicate.1 h1).2]; decide
    · exact hmd c h1
  have hlen : f + 1 ≤ (List.replicate (f + 1 - m.length) '0' ++ m).length := by
    simp only [List.length_append, List.length_replicate]
    omega
  generalize List.replicate (f + 1 - m.length) '0' ++ m = padded at hpad hlen
  refine ⟨if x.num < 0 then ['-'] else [], padded.take (padded.length - f),
    padded.drop (padded.length - f), ?_, ?_, ?_, ?_, ?_, ?_⟩
  · simp
  · by_cases hneg : x.num < 0 <;> simp [hneg]
  · intro h
    have := congrArg List.length h
    simp only [List.length_take, List.length_nil] at this
    omega
  · intro c hc
    exact hpad c (List.mem_of_mem_take hc)
  · simp only [List.length_drop]
    omega
  · intro c hc
    exact hpad c (List.mem_of_mem_drop hc)

theorem renderRow_of_table (T : Translations) (lm : LanguageManager)
    (table : String → Option String) (metric : MetricSample)
    (h : T lm.currentLang = some table) :
    MetricsManager.renderRow T lm metric = .ok (rowOf table metric) := by
  unfold MetricsManager.renderRow rowOf
  rw [getTranslation_of_table T lm table _ h]

theorem appendRows_of_table (T : Translations) (lm : LanguageManager)
    (table : String → Option String) (h : T lm.currentLang = some table) :
    ∀ (samples : List MetricSample) (mm : MetricsManager),
      MetricsManager.appendRows T lm mm samples =
        ({ mm with metricsBody := mm.metricsBody ++ samples.map (rowOf table) }, none) := by
  intro samples
  induction samples with
  | nil => intro mm; simp [MetricsManager.appendRows]
  | cons metric rest ih =>
    intro mm
    unfold MetricsManager.appendRows
    rw [renderRow_of_table T lm table metric h]
    simp only
    rw [ih]
    simp

theorem renderMetrics_rows_of_table (T : Translations) (lm : LanguageManager)
    (table : String → Option String) (mm : MetricsManager) (samples : List MetricSample)
    (h : T lm.currentLang = some table) (hne : samples ≠ []) :
    MetricsManager.renderMetrics T lm mm (.rows samples) =
      ({ mm with metricsBody := samples.map (rowOf table) }, none) := by
  cases samples with
  | nil => exact absurd rfl hne
  | cons metric rest =>
    simp only [MetricsManager.renderMetrics]
    rw [appendRows_of_table T lm table h]
    simp

theorem loadMetrics_ignored (T : Translations) (lm : LanguageManager) (mm : MetricsManager)
    (h : mm.value = "") : MetricsManager.loadMetrics T lm mm = (mm, .ignored) := by
  unfold MetricsManager.loadMetrics
  simp [h]

theorem loadMetrics_awaiting (T : Translations) (lm : LanguageManager) (mm : MetricsManager)
    (text : String) (hns : mm.value ≠ "")
    (htext : getTranslation T lm "metrics-loading-data" = .ok text) :
    MetricsManager.loadMetrics T lm mm =
      ({ mm with metricsBody := [.loading text], refreshDisabled := true },
        .awaiting mm.value) := by
  unfold MetricsManager.loadMetrics MetricsManager.showLoading
  simp [hns, htext]

theorem loadMetrics_options (T : Translations) (lm : LanguageManager) (mm : MetricsManager) :
    (MetricsManager.loadMetrics T lm mm).1.options = mm.options ∧
      (MetricsManager.loadMetrics T lm mm).1.selectedIndex = mm.selectedIndex := by
  unfold MetricsManager.loadMetrics MetricsManager.showLoading
  by_cases hv : mm.value = ""
  · simp [hv]
  · simp only [hv, if_false]
    cases getTranslation T lm "metrics-loading-data" with
    | error e => exact ⟨rfl, rfl⟩
    | ok text => exact ⟨rfl, rfl⟩

theorem loadMetricsResolved_enables (T : Translations) (lm : LanguageManager)
    (mm : MetricsManager) (payload : MetricsPayload) :
    (MetricsManager.loadMetricsResolved T lm mm payload).1.refreshDisabled = false := by
  unfold MetricsManager.loadMetricsResolved
  generalize MetricsManager.renderMetrics T lm mm payload = r
  obtain ⟨mm1, e⟩ := r
  cases e with
  | none => rfl
  | some e1 => rfl

theorem loadMetricsRejected_enables (T : Translations) (lm : LanguageManager)
    (mm : MetricsManager) :
    (MetricsManager.loadMetricsRejected T lm mm).1.refreshDisabled = false := by
  unfold MetricsManager.loadMetricsRejected
  rfl

theorem renderMetrics_broken_throws (T : Translations) (lm : LanguageManager)
    (mm : MetricsManager) (cleared : Bool) (before : List MetricSample) :
    (MetricsManager.renderMetrics T lm mm (.broken cleared before)).2.isSome = true := by
  cases cleared with
  | false => rfl
  | true =>
    simp only [MetricsManager.renderMetrics]
    generalize MetricsManager.appendRows T lm { mm with metricsBody := [] } before = r
    obtain ⟨mm1, e⟩ := r
    cases e <;> rfl

theorem afterLoad_ignored (s : MetricsSession) :
    MetricsSession.afterLoad s (s.mm, .ignored) = s := by
  rfl

/-- C21: a call of `loadMetrics` with a namespace selected (and a loading text to show)
disables the refresh control before it calls `getPodMetrics`, and when the suspended call
resumes it leaves the control enabled on every path: after the request resolved, whatever the
payload and also when rendering it throws, and after the request rejected. -/
theorem refresh_control_reenabled (T : Translations) (lm : LanguageManager)
    (mm : MetricsManager) (text : String) (hns : mm.value ≠ "")
    (htext : getTranslation T lm "metrics-loading-data" = .ok text) :
    MetricsManager.loadMetrics T lm mm =
      ({ mm with metricsBody := [.loading text], refreshDisabled := true },
        .awaiting mm.value) ∧
    (MetricsManager.loadMetrics T lm mm).1.refreshDisabled = true ∧
    (∀ (later : LanguageManager) (now : MetricsManager) (payload : MetricsPayload),
      (MetricsManager.loadMetricsResolved T later now payload).1.refreshDisabled = false) ∧
    (∀ (later : LanguageManager) (now : MetricsManager) (cleared : Bool)
        (before : List MetricSample),
      (MetricsManager.renderMetrics T later now (.broken cleared before)).2.isSome = true ∧
      (MetricsManager.loadMetricsResolved T later now
        (.broken cleared before)).1.refreshDisabled = false) ∧
    (∀ (later : LanguageManager) (now : MetricsManager),
      (MetricsManager.loadMetricsRejected T later now).1.refreshDisabled = false) := by
  have h := loadMetrics_awaiting T lm mm text hns htext
  refine ⟨h, by rw [h], ?_, ?_, ?_⟩
  · intro later now payload
    exact loadMetricsResolved_enables T later now payload
  · intro later now cleared before
    exact ⟨renderMetrics_broken_throws T later now cleared before,
      loadMetricsResolved_enables T later now _⟩
  · intro later now
    exact loadMetricsRejected_enables T later now

/-- C22: with no namespace selected, that is when the value of the selector is empty,
`loadMetrics` returns at its guard: the manager is unchanged (table body, refresh control)
and no request is made. -/
theorem loadMetrics_without_namespace (T : Translations) (s : MetricsSession)
    (hnone : s.mm.value = "") :
    MetricsManager.loadMetrics T s.lm s.mm = (s.mm, .ignored) ∧
    MetricsSession.step T s .refresh = s ∧
    (MetricsSession.step T s .refresh).metricsRequests = s.metricsRequests ∧
    (MetricsSession.step T s .refresh).mm.metricsBody = s.mm.metricsBody ∧
    (MetricsSession.step T s .refresh).mm.refreshDisabled = s.mm.refreshDisabled := by
  have h := loadMetrics_ignored T s.lm s.mm hnone
  have hstep : MetricsSession.step T s .refresh = s := by
    simp only [MetricsSession.step, h]
    rfl
  rw [hstep]
  exact ⟨h, rfl, rfl, rfl, rfl⟩

theorem escapeChar_no_lt (c : Char) : '<' ∉ ChatManager.escapeChar c := by
  unfold ChatManager.escapeChar
  split_ifs with h1 h2 h3 h4 <;> simp
  exact fun h => h3 h.symm

theorem escapeChar_no_gt (c : Char) : '>' ∉ ChatManager.escapeChar c := by
  unfold ChatManager.escapeChar
  split_ifs with h1 h2 h3 h4 <;> simp
  exact fun h => h4 h.symm

theorem escapeChar_amp (c : Char) (p1 p2 : List Char)
    (h : ChatManager.escapeChar c = p1 ++ '&' :: p2) :
    p1 = [] ∧ (p2 = ['a', 'm', 'p', ';'] ∨ p2 = ['n', 'b', 's', 'p', ';'] ∨
      p2 = ['l', 't', ';'] ∨ p2 = ['g', 't', ';']) := by
  unfold ChatManager.escapeChar at h
  split_ifs at h with h1 h2 h3 h4 <;>
    simp [List.cons_eq_append_iff, List.nil_eq_append_iff] at h
  all_goals first
    | (obtain ⟨rfl, rfl⟩ := h; simp)
    | exact absurd h.2.1.symm h1

theorem readEntities_escapeChar (c : Char) (rest : List Char) :
    readEntities 0 (ChatManager.escapeChar c ++ rest) = c :: readEntities 0 rest := by
  unfold ChatManager.escapeChar
  split_ifs with h1 h2 h3 h4
  · subst h1; simp [readEntities]
  · subst h2; simp [readEntities]
  · subst h3; simp [readEntities]
  · subst h4; simp [readEntities]
  · simp [readEntities, h1]

theorem readEntities_flatMap (l : List Char) :
    readEntities 0 (l.flatMap ChatManager.escapeChar) = l := by
  induction l with
  | nil => rfl
  | cons c t ih => rw [List.flatMap_cons, readEntities_escapeChar, ih]

theorem escapeHtml_isEscaped (text : String) :
    IsEscaped (MetricsManager.escapeHtml text) text := by
  refine ⟨?_, ?_, ?_, ?_⟩
  · intro h
    obtain ⟨c, _, hc⟩ := List.mem_flatMap.1 h
    exact escapeChar_no_lt c hc
  · intro h
    obtain ⟨c, _, hc⟩ := List.mem_flatMap.1 h
    exact escapeChar_no_gt c hc
  · intro pre post h
    obtain ⟨l1, c, l2, p1, p2, _, hc, _, hpost⟩ :=
      flatMap_split ChatManager.escapeChar '&' _ pre post h
    obtain ⟨_, hp2⟩ := escapeChar_amp c p1 p2 hc
    refine ⟨l2.flatMap ChatManager.escapeChar, ?_⟩
    rcases hp2 with hp | hp | hp | hp <;> simp [hpost, hp]
  · unfold readText MetricsManager.escapeHtml
    simp only [readEntities_flatMap]

theorem rowOf_wellFormed (table : String → Option String) (metric : MetricSample)
    (h : metric.WellFormed) :
    ∃ pod cell cpu mem rx tx,
      metric.pod = some pod ∧
      rowOf table metric =
        .metric cell (.digits cpu) (.digits mem) (.digits rx)
          (.digits tx) (if metric.ready then "bg-success" else "bg-danger")
          (translate table (if metric.ready then "status-normal" else "status-error")) ∧
      IsEscaped cell pod ∧
      HasDecimalPlaces cpu 4 ∧ HasDecimalPlaces mem 1 ∧ HasDecimalPlaces rx 1 ∧
      HasDecimalPlaces tx 1 := by
  obtain ⟨pod, cpu, mem, rx, tx, hpod, hcpu, hmem, hrx, htx, h1, h2, h3, h4⟩ := h
  obtain ⟨tcpu, e1, d1⟩ := toFixed_decimal_places cpu 4 (by decide) h1
  obtain ⟨tmem, e2, d2⟩ := toFixed_decimal_places mem 1 (by decide) h2
  obtain ⟨trx, e3, d3⟩ := toFixed_decimal_places rx 1 (by decide) h3
  obtain ⟨ttx, e4, d4⟩ := toFixed_decimal_places tx 1 (by decide) h4
  refine ⟨pod, MetricsManager.escapeHtml pod, tcpu, tmem, trx, ttx, hpod, ?_,
    escapeHtml_isEscaped pod, d1, d2, d3, d4⟩
  unfold rowOf
  rw [hpod, hcpu, hmem, hrx, htx]
  simp only [Option.getD_some]
  rw [e1, e2, e3, e4]

/-- C23: when the current language has a table, rendering a non-empty list of `n` well-formed
samples replaces the table body, whatever it held, by `n` rows, the `i`-th being built from
the `i`-th sample alone: the pod name HTML-escaped (markup without `<` or `>`, in which
every `&` starts an entity, and which reads back as the pod name), the CPU value with 4
decimal places, memory and the two network rates with 1 decimal place each, and a badge of
class `bg-success` with the localized `status-normal` text when `ready` is true, of class
`bg-danger` with the localized `status-error` text otherwise. -/
theorem renderMetrics_replaces_rows (T : Translations) (lm : LanguageManager)
    (mm : MetricsManager) (table : String → Option String) (samples : List MetricSample)
    (htable : T lm.currentLang = some table) (hne : samples ≠ [])
    (hwf : ∀ metric ∈ samples, metric.WellFormed) :
    MetricsManager.renderMetrics T lm mm (.rows samples) =
      ({ mm with metricsBody := samples.map (rowOf table) }, none) ∧
    (MetricsManager.renderMetrics T lm mm (.rows samples)).1.metricsBody.length =
      samples.length ∧
    (∀ (i : Nat) (metric : MetricSample), samples[i]? = some metric →
      (MetricsManager.renderMetrics T lm mm (.rows samples)).1.metricsBody[i]? =
        some (rowOf table metric)) ∧
    (∀ metric ∈ samples, ∃ pod cell cpu mem rx tx,
      metric.pod = some pod ∧
      rowOf table metric =
        .metric cell (.digits cpu) (.digits mem) (.digits rx)
          (.digits tx) (if metric.ready then "bg-success" else "bg-danger")
          (translate table (if metric.ready then "status-normal" else "status-error")) ∧
      IsEscaped cell pod ∧
      HasDecimalPlaces cpu 4 ∧ HasDecimalPlaces mem 1 ∧ HasDecimalPlaces rx 1 ∧
      HasDecimalPlaces tx 1) := by
  have h := renderMetrics_rows_of_table T lm table mm samples htable hne
  rw [h]
  refine ⟨rfl, by simp, ?_, ?_⟩
  · intro i metric hi
    simp [hi]
  · intro metric hm
    exact rowOf_wellFormed table metric (hwf metric hm)

theorem loadNamespacesResolved_list (T : Translations) (lm : LanguageManager)
    (mm : MetricsManager) (first : String) (rest : List String) :
    MetricsManager.loadNamespacesResolved T lm mm (.list (first :: rest)) =
      ((MetricsManager.loadMetrics T lm
          { mm with
            options := (first :: rest).map (fun ns => SelectOption.mk (some ns) ns)
            selectedIndex := 0 }).1,
        NamespacesOutcome.mk (some (MetricsManager.loadMetrics T lm
          { mm with
            options := (first :: rest).map (fun ns => SelectOption.mk (some ns) ns)
            selectedIndex := 0 }).2) none) := by
  simp [MetricsManager.loadNamespacesResolved]

theorem loadNamespacesResolved_empty (T : Translations) (lm : LanguageManager)
    (mm : MetricsManager) :
    MetricsManager.loadNamespacesResolved T lm mm (.list []) =
      ({ mm with options := [], selectedIndex := 0 }, NamespacesOutcome.mk none none) := by
  simp [MetricsManager.loadNamespacesResolved]

theorem map_option_value (L : List String) :
    (L.map (fun ns => SelectOption.mk (some ns) ns)).map SelectOption.value = L ∧
      (L.map (fun ns => SelectOption.mk (some ns) ns)).map SelectOption.text = L := by
  constructor
  · rw [List.map_map]
    conv_rhs => rw [← List.map_id L]
    rfl
  · rw [List.map_map]
    conv_rhs => rw [← List.map_id L]
    rfl

/-- C24: when the namespaces request resolves with the list `L`, `loadNamespaces` leaves the
selector with one option for each element of `L`, in order, with that element as value and
as text, throws nothing, and calls `loadMetrics` exactly when `L` is not empty, with the
first element of `L` as the value of the selector (the request for it is made when the
element is not the empty string and the loading text can be shown).  When the request
rejects and the `loading-failed` text is returned (a text free of markup), the selector holds
the single placeholder option with that text and no value attribute, `loadMetrics` is not
called and nothing is thrown. -/
theorem loadNamespaces_populates_selector (T : Translations) (lm : LanguageManager)
    (mm : MetricsManager) (L : List String) (text : String)
    (hfail : getTranslation T lm "loading-failed" = .ok text)
    (_hplain : isMarkupFree text = true) :
    (MetricsManager.loadNamespacesResolved T lm mm (.list L)).1.options =
      L.map (fun ns => SelectOption.mk (some ns) ns) ∧
    (MetricsManager.loadNamespacesResolved T lm mm (.list L)).1.options.map
      SelectOption.value = L ∧
    (MetricsManager.loadNamespacesResolved T lm mm (.list L)).1.options.map
      SelectOption.text = L ∧
    (MetricsManager.loadNamespacesResolved T lm mm (.list L)).2.error = none ∧
    ((MetricsManager.loadNamespacesResolved T lm mm (.list L)).2.metricsLoad.isSome = true ↔
      L ≠ []) ∧
    (∀ first rest, L = first :: rest →
      MetricsManager.value
        { mm with options := L.map (fun ns => SelectOption.mk (some ns) ns),
                  selectedIndex := 0 } = first ∧
      (MetricsManager.loadNamespacesResolved T lm mm (.list L)).2.metricsLoad =
        some (MetricsManager.loadMetrics T lm
          { mm with options := L.map (fun ns => SelectOption.mk (some ns) ns),
                    selectedIndex := 0 }).2 ∧
      (first ≠ "" → ∀ loading, getTranslation T lm "metrics-loading-data" = .ok loading →
        (MetricsManager.loadNamespacesResolved T lm mm (.list L)).2.metricsLoad =
          some (.awaiting first))) ∧
    MetricsManager.loadNamespacesRejected T lm mm =
      ({ mm with options := [SelectOption.mk none text], selectedIndex := 0 },
        NamespacesOutcome.mk none none) := by
  have hopts : (MetricsManager.loadNamespacesResolved T lm mm (.list L)).1.options =
      L.map (fun ns => SelectOption.mk (some ns) ns) := by
    cases L with
    | nil => rw [loadNamespacesResolved_empty]; rfl
    | cons first rest =>
      rw [loadNamespacesResolved_list]
      exact (loadMetrics_options T lm _).1
  refine ⟨hopts, ?_, ?_, ?_, ?_, ?_, ?_⟩
  · rw [hopts]; exact (map_option_value L).1
  · rw [hopts]; exact (map_option_value L).2
  · cases L with
    | nil => rw [loadNamespacesResolved_empty]
    | cons first rest => rw [loadNamespacesResolved_list]
  · cases L with
    | nil => rw [loadNamespacesResolved_empty]; simp
    | cons first rest => rw [loadNamespacesResolved_list]; simp
  · intro first rest hL
    subst hL
    have hvalue : MetricsManager.value
        { mm with options := (first :: rest).map (fun ns => SelectOption.mk (some ns) ns),
                  selectedIndex := 0 } = first := by
      simp [MetricsManager.value, SelectOption.value]
    refine ⟨hvalue, ?_, ?_⟩
    · rw [loadNamespacesResolved_list]
    · intro hne loading hload
      rw [loadNamespacesResolved_list]
      simp only
      rw [loadMetrics_awaiting T lm _ loading (by rw [hvalue]; exact hne) hload, hvalue]
  · unfold MetricsManager.loadNamespacesRejected MetricsManager.showNamespacesFailed
    rw [hfail]

theorem step_change_awaiting (T : Translations) (s : MetricsSession)
    (table : String → Option String) (i : Nat) (htable : T s.lm.currentLang = some table)
    (hi : i < s.mm.options.length)
    (hvalue : MetricsManager.value { s.mm with selectedIndex := i } ≠ "") :
    MetricsSession.step T s (.change i) =
      { s with
        mm := { s.mm with selectedIndex := i,
                          metricsBody := [.loading (translate table "metrics-loading-data")],
                          refreshDisabled := true }
        metricsInFlight :=
          s.metricsInFlight ++ [MetricsManager.value { s.mm with selectedIndex := i }]
        metricsRequests :=
          s.metricsRequests ++ [MetricsManager.value { s.mm with selectedIndex := i }] } := by
  simp only [MetricsSession.step, hi, if_true]
  rw [loadMetrics_awaiting T s.lm _ _ hvalue (getTranslation_of_table T s.lm table _ htable)]
  rfl

theorem step_metricsResolve_rows (T : Translations) (s : MetricsSession)
    (table : String → Option String) (i : Nat) (samples : List MetricSample)
    (htable : T s.lm.currentLang = some table) (hi : i < s.metricsInFlight.length)
    (hne : samples ≠ []) :
    MetricsSession.step T s (.metricsResolve i (.rows samples)) =
      { s with
        mm := { s.mm with metricsBody := samples.map (rowOf table), refreshDisabled := false }
        metricsInFlight := s.metricsInFlight.eraseIdx i } := by
  simp only [MetricsSession.step, List.getElem?_eq_getElem hi,
    MetricsManager.loadMetricsResolved,
    renderMetrics_rows_of_table T s.lm table s.mm samples htable hne]

theorem step_metricsReject (T : Translations) (s : MetricsSession)
    (table : String → Option String) (i : Nat)
    (htable : T s.lm.currentLang = some table) (hi : i < s.metricsInFlight.length) :
    MetricsSession.step T s (.metricsReject i) =
      { s with
        mm := { s.mm with metricsBody := [.error (translate table "loading-failed")],
                          refreshDisabled := false }
        metricsInFlight := s.metricsInFlight.eraseIdx i } := by
  simp only [MetricsSession.step, List.getElem?_eq_getElem hi,
    MetricsManager.loadMetricsRejected, MetricsManager.showError,
    getTranslation_of_table T s.lm table _ htable]

theorem settle_in_either_order (T : Translations) (s : MetricsSession)
    (table : String → Option String) (older newer : String)
    (stale fresh : List MetricSample)
    (htable : T s.lm.currentLang = some table) (hflight : s.metricsInFlight = [older, newer])
    (hstale : stale ≠ []) (hfresh : fresh ≠ []) :
    (MetricsSession.run T s [.metricsResolve 1 (.rows fresh)]).mm.metricsBody =
      fresh.map (rowOf table) ∧
    (MetricsSession.run T s [.metricsResolve 1 (.rows fresh)]).metricsInFlight = [older] ∧
    (MetricsSession.run T s [.metricsResolve 1 (.rows fresh),
      .metricsResolve 0 (.rows stale)]).mm.metricsBody = stale.map (rowOf table) ∧
    (MetricsSession.run T s [.metricsResolve 1 (.rows fresh),
      .metricsResolve 0 (.rows stale)]).metricsInFlight = [] ∧
    (MetricsSession.run T s [.metricsResolve 1 (.rows fresh),
      .metricsReject 0]).mm.metricsBody = [.error (translate table "loading-failed")] ∧
    (MetricsSession.run T s [.metricsResolve 0 (.rows stale),
      .metricsResolve 0 (.rows fresh)]).mm.metricsBody = fresh.map (rowOf table) := by
  have hlen1 : 1 < s.metricsInFlight.length := by simp [hflight]
  have hlen0 : 0 < s.metricsInFlight.length := by simp [hflight]
  have hA := step_metricsResolve_rows T s table 1 fresh htable hlen1 hfresh
  have hB := step_metricsResolve_rows T s table 0 stale htable hlen0 hstale
  have hAlm : (MetricsSession.step T s (.metricsResolve 1 (.rows fresh))).lm = s.lm := by
    rw [hA]
  have hBlm : (MetricsSession.step T s (.metricsResolve 0 (.rows stale))).lm = s.lm := by
    rw [hB]
  have hAfl : (MetricsSession.step T s (.metricsResolve 1 (.rows fresh))).metricsInFlight =
      [older] := by
    rw [hA]; simp [hflight]
  have hBfl : (MetricsSession.step T s (.metricsResolve 0 (.rows stale))).metricsInFlight =
      [newer] := by
    rw [hB]; simp [hflight]
  have hAA := step_metricsResolve_rows T
    (MetricsSession.step T s (.metricsResolve 1 (.rows fresh))) table 0 stale
    (by rw [hAlm]; exact htable) (by simp [hAfl]) hstale
  have hAR := step_metricsReject T
    (MetricsSession.step T s (.metricsResolve 1 (.rows fresh))) table 0
    (by rw [hAlm]; exact htable) (by simp [hAfl])
  have hBB := step_metricsResolve_rows T
    (MetricsSession.step T s (.metricsResolve 0 (.rows stale))) table 0 fresh
    (by rw [hBlm]; exact htable) (by simp [hBfl]) hfresh
  simp only [MetricsSession.run, List.foldl_cons, List.foldl_nil]
  refine ⟨by rw [hA], hAfl, by rw [hAA], ?_, by rw [hAR], by rw [hBB]⟩
  rw [hAA]
  simp [hAfl]

/-- C25: with one pod-metrics request in flight (for the namespace `older`), a second call of
`loadMetrics` (the user selects the option `i`, whose value `newer` is not empty) makes its
own request and leaves the first one in flight.  The table body then holds what the response
that settles last brings, whichever request it answers: when the second request resolves
first, its rows are shown and the first request is still in flight, and when the first one
resolves after that, the rows of the first (stale) response replace them; when it rejects
then, the error row replaces them; in the other order the rows of the second response are
the ones that stay. -/
theorem last_settled_response_wins (T : Translations) (s : MetricsSession)
    (table : String → Option String) (older : String) (i : Nat)
    (stale fresh : List MetricSample)
    (htable : T s.lm.currentLang = some table) (hflight : s.metricsInFlight = [older])
    (hi : i < s.mm.options.length)
    (hvalue : MetricsManager.value { s.mm with selectedIndex := i } ≠ "")
    (hstale : stale ≠ []) (hfresh : fresh ≠ []) :
    (MetricsSession.step T s (.change i)).metricsInFlight =
      [older, MetricsManager.value { s.mm with selectedIndex := i }] ∧
    (MetricsSession.step T s (.change i)).metricsRequests =
      s.metricsRequests ++ [MetricsManager.value { s.mm with selectedIndex := i }] ∧
    (MetricsSession.run T s [.change i, .metricsResolve 1 (.rows fresh)]).mm.metricsBody =
      fresh.map (rowOf table) ∧
    (MetricsSession.run T s [.change i, .metricsResolve 1 (.rows fresh)]).metricsInFlight =
      [older] ∧
    (MetricsSession.run T s [.change i, .metricsResolve 1 (.rows fresh),
      .metricsResolve 0 (.rows stale)]).mm.metricsBody = stale.map (rowOf table) ∧
    (MetricsSession.run T s [.change i, .metricsResolve 1 (.rows fresh),
      .metricsResolve 0 (.rows stale)]).metricsInFlight = [] ∧
    (MetricsSession.run T s [.change i, .metricsResolve 1 (.rows fresh),
      .metricsReject 0]).mm.metricsBody = [.error (translate table "loading-failed")] ∧
    (MetricsSession.run T s [.change i, .metricsResolve 0 (.rows stale),
      .metricsResolve 0 (.rows fresh)]).mm.metricsBody = fresh.map (rowOf table) := by
  have h1 := step_change_awaiting T s table i htable hi hvalue
  have hlm : (MetricsSession.step T s (.change i)).lm = s.lm := by rw [h1]
  have hfl : (MetricsSession.step T s (.change i)).metricsInFlight =
      [older, MetricsManager.value { s.mm with selectedIndex := i }] := by
    rw [h1]; simp only [hflight]; rfl
  have hreq : (MetricsSession.step T s (.change i)).metricsRequests =
      s.metricsRequests ++ [MetricsManager.value { s.mm with selectedIndex := i }] := by
    rw [h1]
  have h := settle_in_either_order T (MetricsSession.step T s (.change i)) table older
    (MetricsManager.value { s.mm with selectedIndex := i }) stale fresh
    (by rw [hlm]; exact htable) hfl hstale hfresh
  exact ⟨hfl, hreq, h⟩

theorem value_of_placeholder (mm : MetricsManager) (text : String) :
    MetricsManager.value
      { mm with options := [SelectOption.mk none text], selectedIndex := 0 } =
      stripAndCollapse text := by
  rfl

/-- C27: when the namespaces request rejects and the `loading-failed` text is returned, the
only option of the selector is the placeholder with that text and no value attribute; the
value of the selector is then the text of the placeholder with whitespace stripped and
collapsed, which for a text written without such whitespace is the text itself, and it is
not empty.  So a refresh after that is not ignored: `loadMetrics` calls `getPodMetrics` with
the placeholder text as the namespace. -/
theorem placeholder_requested_as_namespace (T : Translations) (s : MetricsSession)
    (text loading : String) (hpending : s.namespacesInFlight ≠ 0)
    (hfail : getTranslation T s.lm "loading-failed" = .ok text)
    (_hplain : isMarkupFree text = true) (hcollapsed : stripAndCollapse text = text)
    (hloading : getTranslation T s.lm "metrics-loading-data" = .ok loading) :
    (MetricsSession.step T s .namespacesReject).mm.options = [SelectOption.mk none text] ∧
    ((MetricsSession.step T s .namespacesReject).mm.options.map SelectOption.valueAttr =
      [none]) ∧
    MetricsManager.value (MetricsSession.step T s .namespacesReject).mm = text ∧
    text ≠ "" ∧
    (MetricsManager.loadMetrics T s.lm (MetricsSession.step T s .namespacesReject).mm).2 =
      .awaiting text ∧
    (MetricsSession.run T s [.namespacesReject, .refresh]).metricsRequests =
      s.metricsRequests ++ [text] ∧
    (MetricsSession.run T s [.namespacesReject, .refresh]).metricsInFlight =
      s.metricsInFlight ++ [text] := by
  have hstep : MetricsSession.step T s .namespacesReject =
      { s with
        mm := { s.mm with options := [SelectOption.mk none text], selectedIndex := 0 }
        namespacesInFlight := s.namespacesInFlight - 1 } := by
    simp only [MetricsSession.step, hpending, if_false, MetricsManager.loadNamespacesRejected,
      MetricsManager.showNamespacesFailed, hfail]
  have hv : MetricsManager.value
      { s.mm with options := [SelectOption.mk none text], selectedIndex := 0 } = text := by
    rw [value_of_placeholder, hcollapsed]
  have hne : text ≠ "" := getTranslation_ne_empty T s.lm "loading-failed" text (by decide) hfail
  have hload := loadMetrics_awaiting T s.lm
    { s.mm with options := [SelectOption.mk none text], selectedIndex := 0 } loading
    (by rw [hv]; exact hne) hloading
  rw [hv] at hload
  simp only [MetricsSession.run, List.foldl_cons, List.foldl_nil]
  rw [hstep]
  refine ⟨rfl, rfl, hv, hne, ?_, ?_, ?_⟩
  · simp only [hload]
  · simp only [MetricsSession.step, hload, MetricsSession.afterLoad]
  · simp only [MetricsSession.step, hload, MetricsSession.afterLoad]

theorem lastOf_eq_getLast? (langs : List String) : lastOf none langs = langs.getLast? := by
  unfold lastOf
  induction langs using List.reverseRecOn with
  | nil => rfl
  | append_singleton l a _ => simp [List.foldl_append]

theorem timerFires_storage (T : Translations) (s : LanguageSystem) :
    (LanguageSystem.timerFires T s).1.storage = s.storage := by
  unfold LanguageSystem.timerFires
  cases s.timers with
  | nil => rfl
  | cons lang rest =>
    simp only
    cases updateTexts T { currentLang := lang } s.doc with
    | error e1 => rfl
    | ok doc1 =>
      simp only
      cases updatePlaceholders T { currentLang := lang } doc1 with
      | error e2 => rfl
      | ok doc2 => rfl

theorem step_followsSwitch (T : Translations) (s : LanguageSystem) (prev : Option String)
    (e : LanguageEvent) (h : FollowsSwitch s prev) :
    FollowsSwitch (LanguageSystem.step T s e) (lastOf prev (effectiveSwitches T s [e])) := by
  obtain ⟨hnone, hsome⟩ := h
  cases e with
  | switch lang =>
    by_cases hl : lang = s.lm.currentLang
    · have hs : LanguageSystem.step T s (.switch lang) = s := by
        simp [LanguageSystem.step, LanguageSystem.switchLanguage, hl]
      have hp : lastOf prev (effectiveSwitches T s [.switch lang]) = prev := by
        simp [effectiveSwitches, lastOf, hl]
      rw [hs, hp]
      exact ⟨hnone, hsome⟩
    · have hp : lastOf prev (effectiveSwitches T s [.switch lang]) = some lang := by
        simp [effectiveSwitches, lastOf, hl]
      rw [hp]
      simp only [LanguageSystem.step, LanguageSystem.switchLanguage, hl, if_false]
      refine ⟨fun hc => Option.noConfusion hc, ?_⟩
      intro l hl2
      injection hl2 with hl2
      subst hl2
      refine ⟨?_, ?_, ?_⟩
      · intro hc; simp at hc
      · intro x hx
        simp at hx
        exact hx.symm
      · intro hb
        simp only [saveLanguage] at hb ⊢
        by_cases hbl : s.storage.blocked = true
        · simp [hbl] at hb
        · simp [hbl]
  | timer =>
    have hp : lastOf prev (effectiveSwitches T s [.timer]) = prev := by
      simp [effectiveSwitches, lastOf]
    rw [hp]
    simp only [LanguageSystem.step]
    cases ht : s.timers with
    | nil =>
      have hs : LanguageSystem.timerFires T s = (s, none) := by
        unfold LanguageSystem.timerFires; simp only [ht]
      rw [hs]
      exact ⟨hnone, hsome⟩
    | cons lang rest =>
      obtain ⟨h1, h2⟩ := timerFires_cons T s lang rest ht
      have h3 := timerFires_storage T s
      refine ⟨?_, ?_⟩
      · intro hc
        have := hnone hc
        rw [ht] at this
        cases this
      · intro l hl
        obtain ⟨_, hlast, hstore⟩ := hsome l hl
        rw [h1, h2, h3]
        refine ⟨?_, ?_, hstore⟩
        · intro hr
          subst hr
          exact hlast lang (by rw [ht]; rfl)
        · intro x hx
          apply hlast x
          rw [ht]
          cases rest with
          | nil => cases hx
          | cons r rs => simpa [List.getLast?_cons_cons] using hx

theorem effectiveSwitches_cons (T : Translations) (s : LanguageSystem) (e : LanguageEvent)
    (rest : List LanguageEvent) :
    effectiveSwitches T s (e :: rest) =
      effectiveSwitches T s [e] ++ effectiveSwitches T (LanguageSystem.step T s e) rest := by
  cases e with
  | switch lang => simp [effectiveSwitches]
  | timer => simp [effectiveSwitches]

theorem run_followsSwitch (T : Translations) (events : List LanguageEvent) :
    ∀ (s : LanguageSystem) (prev : Option String), FollowsSwitch s prev →
      FollowsSwitch (LanguageSystem.run T s events)
        (lastOf prev (effectiveSwitches T s events)) := by
  induction events with
  | nil => intro s prev h; exact h
  | cons e rest ih =>
    intro s prev h
    have h1 := ih (LanguageSystem.step T s e) _ (step_followsSwitch T s prev e h)
    rw [effectiveSwitches_cons]
    unfold lastOf at h1 ⊢
    rw [List.foldl_append]
    exact h1

theorem step_blocked (T : Translations) (s : LanguageSystem) (e : LanguageEvent) :
    (LanguageSystem.step T s e).storage.blocked = s.storage.blocked := by
  cases e with
  | switch lang =>
    simp only [LanguageSystem.step, LanguageSystem.switchLanguage]
    by_cases hl : lang = s.lm.currentLang
    · simp [hl]
    · simp only [hl, if_false, saveLanguage]
      by_cases hb : s.storage.blocked = true <;> simp [hb]
  | timer =>
    simp only [LanguageSystem.step]
    rw [timerFires_storage]

theorem run_blocked (T : Translations) (events : List LanguageEvent) :
    ∀ s : LanguageSystem,
      (LanguageSystem.run T s events).storage.blocked = s.storage.blocked := by
  induction events with
  | nil => intro s; rfl
  | cons e rest ih =>
    intro s
    exact (ih (LanguageSystem.step T s e)).trans (step_blocked T s e)

/-- C26: take any sequence of calls of `switchLanguage` and of timers running (the oldest
pending one each time), from a state with no timer pending.  If no timer is pending at the
end and `lang` is the argument of the last call that was not ignored, then the current
language is `lang`, and when the storage can be written the persisted preference is `lang`
too. -/
theorem last_effective_switch_wins (T : Translations) (s : LanguageSystem)
    (events : List LanguageEvent) (lang : String) (hstart : s.timers = [])
    (hidle : (LanguageSystem.run T s events).timers = [])
    (hlast : (effectiveSwitches T s events).getLast? = some lang) :
    getCurrentLanguage (LanguageSystem.run T s events).lm = lang ∧
    (s.storage.blocked = false →
      getSavedLanguage (LanguageSystem.run T s events).storage = some lang ∧
      getSavedLanguage (LanguageSystem.run T s events).storage =
        some (getCurrentLanguage (LanguageSystem.run T s events).lm)) := by
  have h0 : FollowsSwitch s none := ⟨fun _ => hstart, fun l hl => by cases hl⟩
  have h := run_followsSwitch T events s none h0
  rw [lastOf_eq_getLast?, hlast] at h
  obtain ⟨hcur, _, hstore⟩ := h.2 lang rfl
  have hc : getCurrentLanguage (LanguageSystem.run T s events).lm = lang := hcur hidle
  refine ⟨hc, ?_⟩
  intro hb
  have hb1 : (LanguageSystem.run T s events).storage.blocked = false := by
    rw [run_blocked]; exact hb
  have hsaved : getSavedLanguage (LanguageSystem.run T s events).storage = some lang := by
    unfold getSavedLanguage
    rw [hb1]
    exact hstore hb1
  exact ⟨hsaved, by rw [hsaved, hc]⟩

theorem refresh_control_reenabled_witness :
    MetricsManager.value samplePage ≠ "" ∧
    (MetricsManager.loadMetrics sampleMetricsTranslations (LanguageManager.mk "en")
      samplePage).1.refreshDisabled = true ∧
    (MetricsManager.loadMetricsResolved sampleMetricsTranslations (LanguageManager.mk "en")
      samplePage (.rows sampleMetrics)).1.refreshDisabled = false ∧
    (MetricsManager.loadMetricsRejected sampleMetricsTranslations (LanguageManager.mk "fr")
      samplePage).1.refreshDisabled = false :=
  ⟨by decide,
    (refresh_control_reenabled sampleMetricsTranslations (LanguageManager.mk "en") samplePage
      "Loading data..." (by decide) rfl).2.1,
    (refresh_control_reenabled sampleMetricsTranslations (LanguageManager.mk "en") samplePage
      "Loading data..." (by decide) rfl).2.2.1 (LanguageManager.mk "en") samplePage
      (.rows sampleMetrics),
    (refresh_control_reenabled sampleMetricsTranslations (LanguageManager.mk "en") samplePage
      "Loading data..." (by decide) rfl).2.2.2.2 (LanguageManager.mk "fr") samplePage⟩

theorem loadMetrics_without_namespace_witness :
    MetricsManager.value (MetricsSession.start "en" emptyPage).mm = "" ∧
    (MetricsSession.step sampleMetricsTranslations (MetricsSession.start "en" emptyPage)
      .refresh).metricsRequests = [] ∧
    (MetricsSession.step sampleMetricsTranslations (MetricsSession.start "en" emptyPage)
      .refresh).mm.refreshDisabled = false :=
  ⟨by decide,
    (loadMetrics_without_namespace sampleMetricsTranslations
      (MetricsSession.start "en" emptyPage) (by decide)).2.2.1,
    (loadMetrics_without_namespace sampleMetricsTranslations
      (MetricsSession.start "en" emptyPage) (by decide)).2.2.2.2⟩

theorem markupMetrics_wellFormed : ∀ metric ∈ markupMetrics, metric.WellFormed := by
  intro metric hm
  simp only [markupMetrics, sampleMetrics, mockData.podMetrics, PodMetric.toSample,
    List.map_cons, List.map_nil, List.cons_append, List.nil_append, List.mem_cons,
    List.mem_singleton, List.not_mem_nil, or_false] at hm
  rcases hm with h | h | h | h <;> subst h <;>
    exact ⟨_, _, _, _, _, rfl, rfl, rfl, rfl, rfl, by norm_num [abs_lt], by norm_num [abs_lt],
      by norm_num [abs_lt], by norm_num [abs_lt]⟩

theorem renderMetrics_replaces_rows_witness :
    markupMetrics ≠ [] ∧
    (MetricsManager.renderMetrics sampleMetricsTranslations (LanguageManager.mk "en")
      samplePage (.rows markupMetrics)).1.metricsBody.length = 4 ∧
    (MetricsManager.renderMetrics sampleMetricsTranslations (LanguageManager.mk "en")
      samplePage (.rows markupMetrics)).1.metricsBody =
      [Row.metric "nginx-7d7c6d8b9f-abc12" (.digits "0.0234") (.digits "128.5")
         (.digits "15.3") (.digits "8.7") "bg-success" "Normal",
       Row.metric "redis-6b8c7d9e8f-def34" (.digits "0.0156") (.digits "256.8")
         (.digits "23.1") (.digits "12.4") "bg-success" "Normal",
       Row.metric "postgres-5a7b8c9d0e-ghi56" (.digits "0.0445") (.digits "512.3")
         (.digits "31.2") (.digits "18.9") "bg-danger" "Error",
       Row.metric "&lt;b&gt;web&amp;1&lt;/b&gt;" (.digits "0.0013") (.digits "70.0")
         (.digits "0.3") (.digits "0.0") "bg-danger" "Error"] ∧
    readText "&lt;b&gt;web&amp;1&lt;/b&gt;" = "<b>web&1</b>" :=
  ⟨by simp [markupMetrics],
    (renderMetrics_replaces_rows sampleMetricsTranslations (LanguageManager.mk "en") samplePage
      sampleMetricsTable markupMetrics rfl (by simp [markupMetrics])
      markupMetrics_wellFormed).2.1,
    (congrArg (fun r => r.1.metricsBody)
      (renderMetrics_replaces_rows sampleMetricsTranslations (LanguageManager.mk "en")
        samplePage sampleMetricsTable markupMetrics rfl
        (by simp [markupMetrics]) markupMetrics_wellFormed).1).trans
      (by decide!),
    by decide⟩

theorem loadNamespaces_populates_selector_witness :
    (MetricsManager.loadNamespacesResolved sampleMetricsTranslations (LanguageManager.mk "en")
      emptyPage (.list ["default", "kube-system"])).1.options.map SelectOption.value =
      ["default", "kube-system"] ∧
    (MetricsManager.loadNamespacesResolved sampleMetricsTranslations (LanguageManager.mk "en")
      emptyPage (.list ["default", "kube-system"])).2.metricsLoad =
      some (.awaiting "default") ∧
    MetricsManager.loadNamespacesRejected sampleMetricsTranslations (LanguageManager.mk "en")
      emptyPage =
      ({ emptyPage with options := [SelectOption.mk none "Loading failed"],
                        selectedIndex := 0 },
        NamespacesOutcome.mk none none) :=
  ⟨(loadNamespaces_populates_selector sampleMetricsTranslations (LanguageManager.mk "en")
      emptyPage ["default", "kube-system"] "Loading failed" rfl (by decide)).2.1,
    ((loadNamespaces_populates_selector sampleMetricsTranslations (LanguageManager.mk "en")
      emptyPage ["default", "kube-system"] "Loading failed" rfl (by decide)).2.2.2.2.2.1
        "default" ["kube-system"] rfl).2.2 (by decide) "Loading data..." rfl,
    (loadNamespaces_populates_selector sampleMetricsTranslations (LanguageManager.mk "en")
      emptyPage ["default", "kube-system"] "Loading failed" rfl (by decide)).2.2.2.2.2.2⟩

theorem last_settled_response_wins_witness :
    (MetricsSession.run sampleMetricsTranslations
      (MetricsSession.run sampleMetricsTranslations (MetricsSession.start "en" emptyPage)
        [.namespacesResolve (.list ["default", "kube-system"])])
      [.change 1, .metricsResolve 1 (.rows otherMetrics),
        .metricsResolve 0 (.rows sampleMetrics)]).mm.metricsBody =
      sampleMetrics.map (rowOf sampleMetricsTable) ∧
    (MetricsSession.run sampleMetricsTranslations
      (MetricsSession.run sampleMetricsTranslations (MetricsSession.start "en" emptyPage)
        [.namespacesResolve (.list ["default", "kube-system"])])
      [.change 1, .metricsResolve 1 (.rows otherMetrics),
        .metricsResolve 0 (.rows sampleMetrics)]).mm.selectedIndex = 1 :=
  ⟨(last_settled_response_wins sampleMetricsTranslations
      (MetricsSession.run sampleMetricsTranslations (MetricsSession.start "en" emptyPage)
        [.namespacesResolve (.list ["default", "kube-system"])])
      sampleMetricsTable "default" 1 sampleMetrics otherMetrics rfl rfl (by decide)
      (by decide) (by simp [sampleMetrics, mockData.podMetrics])
      (by simp [otherMetrics])).2.2.2.2.1,
    rfl⟩

theorem last_effective_switch_wins_witness :
    (effectiveSwitches sampleTranslations sampleSystem
      [.switch "zh", .timer, .switch "en", .switch "zh", .timer]).getLast? = some "en" ∧
    getCurrentLanguage (LanguageSystem.run sampleTranslations sampleSystem
      [.switch "zh", .timer, .switch "en", .switch "zh", .timer]).lm = "en" ∧
    getSavedLanguage (LanguageSystem.run sampleTranslations sampleSystem
      [.switch "zh", .timer, .switch "en", .switch "zh", .timer]).storage = some "en" :=
  ⟨by decide,
    (last_effective_switch_wins sampleTranslations sampleSystem
      [.switch "zh", .timer, .switch "en", .switch "zh", .timer] "en" rfl (by decide)
      (by decide)).1,
    ((last_effective_switch_wins sampleTranslations sampleSystem
      [.switch "zh", .timer, .switch "en", .switch "zh", .timer] "en" rfl (by decide)
      (by decide)).2 rfl).1⟩

theorem placeholder_requested_as_namespace_witness :
    MetricsManager.value (MetricsSession.step sampleMetricsTranslations
      (MetricsSession.start "en" emptyPage) .namespacesReject).mm = "Loading failed" ∧
    (MetricsSession.run sampleMetricsTranslations (MetricsSession.start "en" emptyPage)
      [.namespacesReject, .refresh]).metricsRequests = ["Loading failed"] :=
  ⟨(placeholder_requested_as_namespace sampleMetricsTranslations
      (MetricsSession.start "en" emptyPage) "Loading failed" "Loading data..." (by decide) rfl
      (by decide) (by decide) rfl).2.2.1,
    (placeholder_requested_as_namespace sampleMetricsTranslations
      (MetricsSession.start "en" emptyPage) "Loading failed" "Loading data..." (by decide) rfl
      (by decide) (by decide) rfl).2.2.2.2.2.1⟩

end Dashboard
